import Mathlib

/-
  Verification of the topological core of the mesh boolean engine in
  source/blender/blenlib/intern/boolean.cc.

  The development is a shallow embedding of that file: C++ classes become
  Lean structures, vectors become lists, exact rational coordinates
  (mpq_class) become rationals, and each static function of boolean.cc is
  translated into an executable Lean definition of the same name.
  Sentinel-style int indices (NO_INDEX = -1) are kept as integers.
-/

namespace BoolCore

/-! ## Exact arithmetic collaborators (mpq3, orient3d) -/

/-- Sentinel index used throughout boolean.cc. -/
def NO_INDEX : Int := -1

/-- Synthetic-triangle marker used by the ambient-cell finder (INT_MAX). -/
def EXTRA_TRI_INDEX : Int := 2147483647

/-- Modelled from the spec: the rational scalars of the external
exact-arithmetic collaborator (mpq_class).  They are kept as explicit
fractions whose denominator the operations below keep positive; value
comparisons cross-multiply.  (This keeps every geometric predicate
computable by the kernel.) -/
structure MQ where
  num : Int
  den : Int
deriving DecidableEq, Repr

instance (n : Nat) : OfNat MQ n := ⟨⟨n, 1⟩⟩

instance : Inhabited MQ := ⟨0⟩

def MQ.add (a b : MQ) : MQ := ⟨a.num * b.den + b.num * a.den, a.den * b.den⟩

def MQ.sub (a b : MQ) : MQ := ⟨a.num * b.den - b.num * a.den, a.den * b.den⟩

def MQ.mul (a b : MQ) : MQ := ⟨a.num * b.num, a.den * b.den⟩

def MQ.neg (a : MQ) : MQ := ⟨-a.num, a.den⟩

/-- Exact division (division by zero is undefined in the collaborator;
here it yields a zero denominator that no claim exercises). -/
def MQ.div (a b : MQ) : MQ :=
  if b.num < 0 then ⟨-(a.num * b.den), a.den * (-b.num)⟩ else ⟨a.num * b.den, a.den * b.num⟩

instance : Add MQ := ⟨MQ.add⟩
instance : Sub MQ := ⟨MQ.sub⟩
instance : Mul MQ := ⟨MQ.mul⟩
instance : Neg MQ := ⟨MQ.neg⟩
instance : Div MQ := ⟨MQ.div⟩

/-- Value equality of two exact rationals. -/
def MQ.eqv (a b : MQ) : Bool := a.num * b.den = b.num * a.den

/-- Value strict order of two exact rationals (denominators positive). -/
def MQ.blt (a b : MQ) : Bool := a.num * b.den < b.num * a.den

/-- Absolute value of an exact rational (denominator positive). -/
def MQ.abs (a : MQ) : MQ := if a.num < 0 then ⟨-a.num, a.den⟩ else a

/-- Exact rational 3-vector, the embedding of mpq3. -/
structure Vec3 where
  x : MQ
  y : MQ
  z : MQ
deriving DecidableEq, Repr

instance : Inhabited Vec3 := ⟨⟨0, 0, 0⟩⟩

def Vec3.sub (a b : Vec3) : Vec3 :=
  ⟨a.x - b.x, a.y - b.y, a.z - b.z⟩

def Vec3.cross (a b : Vec3) : Vec3 :=
  ⟨a.y * b.z - a.z * b.y, a.z * b.x - a.x * b.z, a.x * b.y - a.y * b.x⟩

def Vec3.dot (a b : Vec3) : MQ :=
  a.x * b.x + a.y * b.y + a.z * b.z

def Vec3.length_squared (a : Vec3) : MQ :=
  a.dot a

/-- Sign of an exact rational (denominator positive), as the int sign
used by the exact predicates. -/
def qsign (q : MQ) : Int :=
  if 0 < q.num then 1 else if q.num < 0 then -1 else 0

/-- Modelled from the spec: the external exact-arithmetic collaborator
mpq3::orient3d(a,b,c,d), which returns the sign of the signed volume of
the tetrahedron (a,b,c,d).  The sign convention follows the use-site
comment in boolean.cc (sort_tris_class): the result is positive exactly
when d is below the oriented plane of (a,b,c). -/
def orient3d (a b c d : Vec3) : Int :=
  qsign ((a.sub d).dot ((b.sub d).cross (c.sub d)))

/-! ## Data model: Vert, Face, Mesh, Edge -/

/-- The embedding of a Vert arena entry.  The core sees vertices as opaque
handles; the arena guarantees one entry per distinct id, so handle
(pointer) equality is modelled as structural equality. -/
structure Vert where
  id : Int
  orig : Int
  co_exact : Vec3
  /-- Approximate coordinates (double3 co); modelled as exact rationals,
  used only for the length metric in the merge state. -/
  co : Vec3
deriving DecidableEq, Repr

instance : Inhabited Vert := ⟨⟨0, NO_INDEX, default, default⟩⟩

/-- The embedding of a Face arena entry: an ordered vertex sequence, the
original-face index, and the parallel original-edge sequence. -/
structure Face where
  vert : List Vert
  orig : Int
  edge_orig : List Int
deriving DecidableEq, Repr

instance : Inhabited Face := ⟨⟨[], NO_INDEX, []⟩⟩

/-- vertex access tri[i] -/
def Face.vtx (f : Face) (i : Nat) : Vert :=
  f.vert.getD i default

/-- edge_orig access tri.edge_orig[i] -/
def Face.eo (f : Face) (i : Nat) : Int :=
  f.edge_orig.getD i NO_INDEX

def Face.size (f : Face) : Nat :=
  f.vert.length

/-- A Mesh is the ordered sequence of its faces. -/
abbrev Mesh := List Face

/-- tm.face(t); triangle indices are C++ ints. -/
def faceAt (tm : Mesh) (t : Int) : Face :=
  if 0 ≤ t then tm.getD t.toNat default else default

/-- Edge as two Verts in canonical order (lower vert id first), as in the
Edge class of boolean.cc. -/
structure Edge where
  ev0 : Vert
  ev1 : Vert
deriving DecidableEq, Repr

instance : Inhabited Edge := ⟨⟨default, default⟩⟩

/-- The Edge constructor: canonicalize so the smaller id comes first. -/
def mkEdge (a b : Vert) : Edge :=
  if a.id ≤ b.id then ⟨a, b⟩ else ⟨b, a⟩

/-! ## List helpers shared by the embedding (vectors, maps, sets) -/

/-- Vector::append_non_duplicates -/
def appendNonDup [DecidableEq α] (l : List α) (x : α) : List α :=
  if x ∈ l then l else l ++ [x]

/-- Association-list lookup, the embedding of Map::lookup_ptr. -/
def alistFind [DecidableEq κ] (m : List (κ × α)) (k : κ) : Option α :=
  match m with
  | [] => none
  | (k', v) :: rest => if k' = k then some v else alistFind rest k

/-- Association-list update of an existing key (add_or_modify's modify). -/
def alistModify [DecidableEq κ] (m : List (κ × α)) (k : κ) (f : α → α) : List (κ × α) :=
  match m with
  | [] => []
  | (k', v) :: rest => if k' = k then (k', f v) :: rest else (k', v) :: alistModify rest k f

/-- Map::add_or_modify: modify the entry if the key is present, else append
a new entry created by the given initial value. -/
def alistAddOrModify [DecidableEq κ] (m : List (κ × α)) (k : κ) (init : α) (f : α → α) :
    List (κ × α) :=
  match alistFind m k with
  | some _ => alistModify m k f
  | none => m ++ [(k, init)]

/-- Functional array write: list update at a Nat position (no-op out of range). -/
def listSet (l : List α) (i : Nat) (x : α) : List α :=
  l.set i x

/-- Array write at a C++ int index (no-op when the index is out of range,
where the C++ would be undefined). -/
def listSetI (l : List α) (i : Int) (x : α) : List α :=
  if 0 ≤ i ∧ i < l.length then l.set i.toNat x else l

/-- Array read at a C++ int index with a default. -/
def listGetI (l : List α) (i : Int) (d : α) : α :=
  if 0 ≤ i then l.getD i.toNat d else d

/-- In-place modification at a Nat position (no-op when out of range). -/
def listModifyNat (l : List α) (i : Nat) (f : α → α) : List α :=
  match l, i with
  | [], _ => []
  | a :: rest, 0 => f a :: rest
  | a :: rest, n + 1 => a :: listModifyNat rest n f

/-- In-place modification at a C++ int index (no-op when out of range). -/
def listModifyI (l : List α) (i : Int) (f : α → α) : List α :=
  if 0 ≤ i then listModifyNat l i.toNat f else l

/-! ## Operator codes (BLI_boolean.hh) -/

def BOOLEAN_NONE : Int := 0
def BOOLEAN_ISECT : Int := 1
def BOOLEAN_UNION : Int := 2
def BOOLEAN_DIFFERENCE : Int := 3

/-- The keep predicate of boolean.cc (apply_bool_op): given a cell's vector
of per-shape winding numbers, decide whether the cell is in the output. -/
def apply_bool_op (bool_optype : Int) (winding : List Int) : Bool :=
  if bool_optype = BOOLEAN_ISECT then
    winding.all (fun w => w ≠ 0)
  else if bool_optype = BOOLEAN_UNION then
    winding.any (fun w => w ≠ 0)
  else if bool_optype = BOOLEAN_DIFFERENCE then
    if winding.getD 0 0 = 0 then false
    else if winding.length = 1 then true
    else (winding.drop 1).any (fun w => w = 0)
  else false

/-! ## Patches and cells -/

/-- The embedding of the Patch class: a maximal set of triangles connected
through manifold edges, with its two bounding cell references. -/
structure Patch where
  tri : List Int
  cell_above : Int
  cell_below : Int
deriving DecidableEq, Repr

instance : Inhabited Patch := ⟨⟨[], NO_INDEX, NO_INDEX⟩⟩

/-- The embedding of the Cell class. -/
structure Cell where
  patches : List Int
  winding : List Int
  winding_assigned : Bool
  flag : Bool
deriving DecidableEq, Repr

instance : Inhabited Cell := ⟨⟨[], [], false, false⟩⟩

/-- Cell::set_winding_and_flag: copy the winding vector of from_cell, add
delta at position shape, mark assigned and evaluate the keep flag.
(The std::copy in the source assumes both vectors have the same length,
which init_windings guarantees.) -/
def Cell.set_winding_and_flag (cell : Cell) (from_cell : Cell) (shape : Int) (delta : Int)
    (bool_optype : Int) : Cell :=
  let w := listModifyI from_cell.winding shape (fun x => x + delta)
  { cell with winding := w, winding_assigned := true, flag := apply_bool_op bool_optype w }

/-- Cell::seed_ambient_winding: fill the winding vector with zeros and
mark it assigned. -/
def Cell.seed_ambient_winding (cell : Cell) : Cell :=
  { cell with winding := List.replicate cell.winding.length 0, winding_assigned := true }

/-- CellsInfo is a vector of cells. -/
abbrev CellsInfo := List Cell

def cellAt (cinfo : CellsInfo) (c : Int) : Cell :=
  listGetI cinfo c default

/-- CellsInfo::init_windings: give every cell a winding vector of the
given length (entries read only after being overwritten; modelled as 0). -/
def init_windings (cinfo : CellsInfo) (winding_len : Int) : CellsInfo :=
  cinfo.map fun cell => { cell with winding := List.replicate winding_len.toNat 0 }

/-- The embedding of PatchesInfo. -/
structure PatchesInfo where
  patch : List Patch
  tri_patch : List Int
  pp_edge : List ((Int × Int) × Edge)
deriving DecidableEq, Repr

def PatchesInfo.tri_patchAt (pinfo : PatchesInfo) (t : Int) : Int :=
  listGetI pinfo.tri_patch t NO_INDEX

def PatchesInfo.patchAt (pinfo : PatchesInfo) (p : Int) : Patch :=
  listGetI pinfo.patch p default

def PatchesInfo.tot_patch (pinfo : PatchesInfo) : Nat :=
  pinfo.patch.length

def PatchesInfo.tri_is_assigned (pinfo : PatchesInfo) (t : Int) : Bool :=
  pinfo.tri_patchAt t ≠ NO_INDEX

/-- PatchesInfo::add_patch returns the new patch's index. -/
def PatchesInfo.add_patch (pinfo : PatchesInfo) : PatchesInfo × Int :=
  ({ pinfo with patch := pinfo.patch ++ [default] }, pinfo.patch.length)

/-- PatchesInfo::grow_patch. -/
def PatchesInfo.grow_patch (pinfo : PatchesInfo) (patch_index : Int) (t : Int) : PatchesInfo :=
  { pinfo with
    tri_patch := listSetI pinfo.tri_patch t patch_index,
    patch := listModifyI pinfo.patch patch_index (fun p => { p with tri := p.tri ++ [t] }) }

/-- PatchesInfo::patch_patch_edge (lookup_default with a null-vert Edge is
modelled as an Option). -/
def PatchesInfo.patch_patch_edge (pinfo : PatchesInfo) (p1 p2 : Int) : Option Edge :=
  alistFind pinfo.pp_edge (p1, p2)

/-- PatchesInfo::add_new_patch_patch_edge stores both orderings. -/
def PatchesInfo.add_new_patch_patch_edge (pinfo : PatchesInfo) (p1 p2 : Int) (e : Edge) :
    PatchesInfo :=
  { pinfo with pp_edge := pinfo.pp_edge ++ [((p1, p2), e), ((p2, p1), e)] }

/-- Write access to a patch by index. -/
def PatchesInfo.setPatch (pinfo : PatchesInfo) (p : Int) (patch : Patch) : PatchesInfo :=
  { pinfo with patch := listSetI pinfo.patch p patch }

/-! ## Winding propagation -/

/-- The body of the inner loop of propagate_windings_and_flag: crossing
patch p out of cell c.  The state is the cell vector together with the
entries appended to the BFS queue. -/
def propagate_cross_patch (pinfo : PatchesInfo) (op : Int) (shape_fn : Int → Int) (c : Int)
    (st : CellsInfo × List Int) (p : Int) : CellsInfo × List Int :=
  let cinfo := st.1
  let queue := st.2
  let patch := pinfo.patchAt p
  let p_above_c := patch.cell_below = c
  let c_neighbor := if p_above_c then patch.cell_above else patch.cell_below
  let cell_neighbor := cellAt cinfo c_neighbor
  if cell_neighbor.winding_assigned then (cinfo, queue)
  else
    let winding_delta : Int := if p_above_c then -1 else 1
    let t := patch.tri.getD 0 0
    let shape := shape_fn t
    let cell := cellAt cinfo c
    (listSetI cinfo c_neighbor (cell_neighbor.set_winding_and_flag cell shape winding_delta op),
      queue ++ [c_neighbor])

/-- The BFS loop of propagate_windings_and_flag.  The queue is modelled as
the unprocessed suffix; the fuel bounds the number of iterations, which
the source bounds by the cell count (each enqueued cell is newly
assigned, so the queue never exceeds the number of cells). -/
def propagate_loop (pinfo : PatchesInfo) (op : Int) (shape_fn : Int → Int) :
    Nat → List Int → CellsInfo → CellsInfo
  | 0, _, cinfo => cinfo
  | _ + 1, [], cinfo => cinfo
  | fuel + 1, c :: rest, cinfo =>
    let cell := cellAt cinfo c
    let st := cell.patches.foldl (propagate_cross_patch pinfo op shape_fn c) (cinfo, [])
    propagate_loop pinfo op shape_fn fuel (rest ++ st.2) st.1

/-- propagate_windings_and_flag: seed the ambient cell with zero winding,
then BFS outward across patches. -/
def propagate_windings_and_flag (pinfo : PatchesInfo) (cinfo : CellsInfo) (c_ambient : Int)
    (op : Int) (nshapes : Int) (shape_fn : Int → Int) : CellsInfo :=
  let _ := nshapes
  let cinfo2 := listModifyI cinfo c_ambient Cell.seed_ambient_winding
  propagate_loop pinfo op shape_fn cinfo2.length [c_ambient] cinfo2


/-! ## Radial sort around an edge -/

/-- find_flap_vert: if e is an edge of tri, return the vertex of tri not
on e, together with whether e appears reversed in tri; none if e is not
an edge of tri. -/
def find_flap_vert (tri : Face) (e : Edge) : Option Vert × Bool :=
  if tri.vtx 0 = e.ev0 then
    if tri.vtx 1 = e.ev1 then (some (tri.vtx 2), false)
    else if tri.vtx 2 = e.ev1 then (some (tri.vtx 1), true)
    else (none, false)
  else if tri.vtx 1 = e.ev0 then
    if tri.vtx 2 = e.ev1 then (some (tri.vtx 0), false)
    else if tri.vtx 0 = e.ev1 then (some (tri.vtx 2), true)
    else (none, false)
  else if tri.vtx 2 = e.ev0 then
    if tri.vtx 0 = e.ev1 then (some (tri.vtx 1), false)
    else if tri.vtx 1 = e.ev1 then (some (tri.vtx 0), true)
    else (none, false)
  else (none, false)

/-- sort_tris_class: classify tri against tri0 around their shared edge e:
1 = coplanar same side, 2 = coplanar opposite side, 3 = below tri0's
plane, 4 = above (roles of 3 and 4 swapped when tri0 uses e reversed).
The source asserts both flap vertices exist; out of that precondition the
default vertex stands in for the dereferenced null. -/
def sort_tris_class (tri tri0 : Face) (e : Edge) : Nat :=
  let a0 := (tri0.vtx 0).co_exact
  let a1 := (tri0.vtx 1).co_exact
  let a2 := (tri0.vtx 2).co_exact
  let fr0 := find_flap_vert tri0 e
  let fr := find_flap_vert tri e
  let rev0 := fr0.2
  let flap := ((fr.1).getD default).co_exact
  let orient := orient3d a0 a1 a2 flap
  if orient > 0 then (if rev0 then 4 else 3)
  else if orient < 0 then (if rev0 then 3 else 4)
  else (if fr.1 = fr0.1 then 1 else 2)

/-- Insertion step of the ascending sort used to embed std::sort. -/
def insertSorted (x : Int) : List Int → List Int
  | [] => [x]
  | y :: rest => if x ≤ y then x :: y :: rest else y :: insertSorted x rest

/-- Ascending sort of an int list (the embedding of std::sort on int). -/
def sortAsc (l : List Int) : List Int :=
  l.foldr insertSorted []

/-- sort_by_signed_triangle_index: sign each triangle index negative when
the triangle uses e reversed, sort the signed values ascending, then take
the magnitudes. -/
def sort_by_signed_triangle_index (g : List Int) (e : Edge) (tm : Mesh) : List Int :=
  let signed_g := g.map (fun gi =>
    let tri := faceAt tm gi
    let rev := (find_flap_vert tri e).2
    if rev then -gi else gi)
  (sortAsc signed_g).map (fun x => |x|)

/-- The triangle for an index in the radial sort: EXTRA_TRI_INDEX selects
the optional synthetic triangle, any other index reads the mesh. -/
def tri_of (tm : Mesh) (extra_tri : Option Face) (t : Int) : Face :=
  if t = EXTRA_TRI_INDEX then extra_tri.getD default else faceAt tm t

/-- sort_tris_around_edge, with explicit fuel standing for the recursion
depth.  The recursion is on strictly shorter lists (the class-3 and
class-4 groups are sublists of the tail), so fuel equal to the list
length always suffices; the zero-fuel arm is never reached from the
wrapper below. -/
def sort_tris_around_edge_fueled (tm : Mesh) (e : Edge) (extra_tri : Option Face) :
    Nat → List Int → Int → List Int
  | 0, tris, _ => tris
  | fuel + 1, tris, t0 =>
    match tris with
    | [] => []
    | tfirst :: rest =>
      let tri0 := faceAt tm t0
      let g1p := rest.filter fun t => sort_tris_class (tri_of tm extra_tri t) tri0 e = 1
      let g2 := rest.filter fun t => sort_tris_class (tri_of tm extra_tri t) tri0 e = 2
      let g3 := rest.filter fun t => sort_tris_class (tri_of tm extra_tri t) tri0 e = 3
      let g4 := rest.filter fun t => sort_tris_class (tri_of tm extra_tri t) tri0 e = 4
      let g1 := tfirst :: g1p
      let g1s := if 1 < g1.length then sort_by_signed_triangle_index g1 e tm else g1
      let g2s := if 1 < g2.length then sort_by_signed_triangle_index g2 e tm else g2
      let g3s := if 1 < g3.length then
        sort_tris_around_edge_fueled tm e extra_tri fuel g3 (g3.headD 0) else g3
      let g4s := if 1 < g4.length then
        sort_tris_around_edge_fueled tm e extra_tri fuel g4 (g4.headD 0) else g4
      if tfirst = t0 then g1s ++ g4s ++ g2s ++ g3s
      else g3s ++ g1s ++ g4s ++ g2s

/-- sort_tris_around_edge: sort the triangles sharing edge e clockwise
looking down e, with designated pivot t0 and optional synthetic extra
triangle. -/
def sort_tris_around_edge (tm : Mesh) (e : Edge) (tris : List Int) (t0 : Int)
    (extra_tri : Option Face) : List Int :=
  sort_tris_around_edge_fueled tm e extra_tri tris.length tris t0

/-- Spec-side signed triangle index: +idx when the triangle uses e in
canonical orientation, -idx otherwise. -/
def signed_index (tm : Mesh) (e : Edge) (t : Int) : Int :=
  if (find_flap_vert (faceAt tm t) e).2 then -t else t

/-- Spec-side signed sort: sort the signed indices ascending (library
insertion sort), then take magnitudes. -/
def signed_sort_spec (tm : Mesh) (e : Edge) (g : List Int) : List Int :=
  (List.insertionSort (fun a b => a ≤ b) (g.map (signed_index tm e))).map (fun x => |x|)

/-- Spec-side coplanar and above/below groups of the claim: the elements
of the span's tail in class k relative to the pivot. -/
def radial_group (tm : Mesh) (e : Edge) (extra_tri : Option Face) (t0 : Int) (k : Nat)
    (rest : List Int) : List Int :=
  rest.filter fun t => sort_tris_class (tri_of tm extra_tri t) (faceAt tm t0) e = k

/-- The claim's description of one level of the radial sort: the signed
sorts of G1 (pivot first) and G2, the recursive radial sorts of G3 and G4
with their first elements as pivots, merged as G1 G4 G2 G3 when the pivot
is the first element of the span and as G3 G1 G4 G2 otherwise. -/
def radial_sort_spec (tm : Mesh) (e : Edge) (extra_tri : Option Face) (tris : List Int)
    (t0 : Int) : List Int :=
  let pivot := tris.headD 0
  let rest := tris.tail
  let G1 := signed_sort_spec tm e (pivot :: radial_group tm e extra_tri t0 1 rest)
  let G2 := signed_sort_spec tm e (radial_group tm e extra_tri t0 2 rest)
  let g3 := radial_group tm e extra_tri t0 3 rest
  let g4 := radial_group tm e extra_tri t0 4 rest
  let G3 := sort_tris_around_edge tm e g3 (g3.headD 0) extra_tri
  let G4 := sort_tris_around_edge tm e g4 (g4.headD 0) extra_tri
  if pivot = t0 then G1 ++ G4 ++ G2 ++ G3 else G3 ++ G1 ++ G4 ++ G2

/-! ## Triangle mesh topology -/

/-- The embedding of TriMeshTopology: association lists from canonical
edges to the triangles containing them, and from vertices to their
incident edges (both in insertion order, as the source's per-key vectors
are). -/
structure TriMeshTopology where
  edge_tri : List (Edge × List Int)
  vert_edges : List (Vert × List Edge)
deriving DecidableEq, Repr

/-- One triangle's contribution to the topology (the inner loop of the
TriMeshTopology constructor over the triangle's three sides). -/
def topo_add_tri (t : Int) (tri : Face) (topo : TriMeshTopology) : TriMeshTopology :=
  (List.range 3).foldl (fun topo i =>
    let v := tri.vtx i
    let vnext := tri.vtx ((i + 1) % 3)
    let e := mkEdge v vnext
    let ve := match alistFind topo.vert_edges v with
      | none => topo.vert_edges ++ [(v, appendNonDup [] e)]
      | some _ => alistModify topo.vert_edges v (fun edges => appendNonDup edges e)
    let et := alistAddOrModify topo.edge_tri e [t] (fun tris => appendNonDup tris t)
    ⟨et, ve⟩) topo

/-- The TriMeshTopology constructor over all triangles of the mesh. -/
def trimesh_topology (tm : Mesh) : TriMeshTopology :=
  (List.range tm.length).foldl (fun topo (t : Nat) => topo_add_tri (t : Int) (faceAt tm (t : Int)) topo)
    ⟨[], []⟩

/-- TriMeshTopology::edge_tris (nullptr modelled as none). -/
def TriMeshTopology.edge_tris (topo : TriMeshTopology) (e : Edge) : Option (List Int) :=
  alistFind topo.edge_tri e

/-- TriMeshTopology::other_tri_if_manifold. -/
def TriMeshTopology.other_tri_if_manifold (topo : TriMeshTopology) (e : Edge) (t : Int) : Int :=
  match alistFind topo.edge_tri e with
  | some p => if p.length = 2 then (if p.getD 0 0 = t then p.getD 1 0 else p.getD 0 0) else NO_INDEX
  | none => NO_INDEX

/-- TriMeshTopology::vert_edges (the source assumes the vertex has
incident edges; absent keys give the empty list). -/
def TriMeshTopology.vert_edgesOf (topo : TriMeshTopology) (v : Vert) : List Edge :=
  (alistFind topo.vert_edges v).getD []

/-! ## Ambient cell finder -/

/-- The hull-edge selection loop of find_ambient_cell: scan the edges
incident to the extreme vertex, breaking at a vertical (delta x = 0)
edge, otherwise keeping the edge with the largest absolute slope in the
xy projection. -/
def find_hull_edge (v_extreme : Vert) : List Edge → Edge → MQ → Edge
  | [], ehull, _ => ehull
  | e :: rest, ehull, max_abs_slope =>
    let v_other := if e.ev0 = v_extreme then e.ev1 else e.ev0
    let delta_x := v_other.co_exact.x - v_extreme.co_exact.x
    if MQ.eqv delta_x 0 then e
    else
      let abs_slope := MQ.abs ((v_other.co_exact.y - v_extreme.co_exact.y) / delta_x)
      if MQ.blt max_abs_slope abs_slope then find_hull_edge v_extreme rest e abs_slope
      else find_hull_edge v_extreme rest ehull max_abs_slope

/-- The first part of find_ambient_cell: the radially sorted triangle
list around the chosen hull edge, including the synthetic extra triangle
(index EXTRA_TRI_INDEX) through a point guaranteed to lie in the ambient
cell.  arena_next_id is the id the arena gives the synthetic vertex. -/
def ambient_sorted (tm : Mesh) (tmtopo : TriMeshTopology) (arena_next_id : Int) : List Int :=
  let v0 := (faceAt tm 0).vtx 0
  let v_extreme := tm.foldl (fun acc f =>
    f.vert.foldl (fun acc v => if MQ.blt acc.co_exact.x v.co_exact.x then v else acc) acc) v0
  let edges := tmtopo.vert_edgesOf v_extreme
  let ehull := find_hull_edge v_extreme edges default (-1)
  let p_in_ambient : Vec3 :=
    ⟨v_extreme.co_exact.x + 1, v_extreme.co_exact.y, v_extreme.co_exact.z⟩
  let dummy_vert : Vert := ⟨arena_next_id, NO_INDEX, p_in_ambient, p_in_ambient⟩
  let ehull_edge_tris := (tmtopo.edge_tris ehull).getD []
  let dummy_tri : Face :=
    ⟨[ehull.ev0, ehull.ev1, dummy_vert], NO_INDEX, [NO_INDEX, NO_INDEX, NO_INDEX]⟩
  let edge_tris := ehull_edge_tris ++ [EXTRA_TRI_INDEX]
  sort_tris_around_edge tm ehull edge_tris (edge_tris.getD 0 0) (some dummy_tri)

/-- find_ambient_cell: locate the synthetic triangle in the sorted cyclic
order and return the cell_above of the previous neighbour's patch.  (The
source compares the previous and next neighbours' cell_above only in a
debug assertion.) -/
def find_ambient_cell (tm : Mesh) (tmtopo : TriMeshTopology) (pinfo : PatchesInfo)
    (arena_next_id : Int) : Int :=
  let sorted_tris := ambient_sorted tm tmtopo arena_next_id
  let n := sorted_tris.length
  let dummy_index := sorted_tris.indexOf EXTRA_TRI_INDEX
  let prev_tri := if dummy_index = 0 then sorted_tris.getD (n - 1) 0
    else sorted_tris.getD (dummy_index - 1) 0
  (pinfo.patchAt (pinfo.tri_patchAt prev_tri)).cell_above

/-- Spec-side cyclic predecessor: the element of l cyclically before the
first occurrence of x. -/
def cyclic_prev (l : List Int) (x : Int) : Int :=
  l.getD ((l.indexOf x + l.length - 1) % l.length) 0

/-- Spec-side cyclic successor: the element of l cyclically after the
first occurrence of x. -/
def cyclic_next (l : List Int) (x : Int) : Int :=
  l.getD ((l.indexOf x + 1) % l.length) 0

/-! ## Extractor -/

/-- The flipped face allocated by extract_from_flag_diffs: vertices
(tri[0], tri[2], tri[1]) and edge_orig entries (eo[2], eo[1], eo[0]),
keeping the face's orig. -/
def flip_tri (f : Face) : Face :=
  { vert := [f.vtx 0, f.vtx 2, f.vtx 1], orig := f.orig,
    edge_orig := [f.eo 2, f.eo 1, f.eo 0] }

/-- extract_from_flag_diffs: keep only triangles between flagged and
unflagged cells, flipping those whose cell_above is flagged. -/
def extract_from_flag_diffs (tm_subdivided : Mesh) (pinfo : PatchesInfo) (cinfo : CellsInfo) :
    Mesh :=
  (List.range tm_subdivided.length).foldl
    (fun out_tris t =>
      let p := pinfo.tri_patchAt ((t : Int))
      let patch := pinfo.patchAt p
      let cell_above := cellAt cinfo patch.cell_above
      let cell_below := cellAt cinfo patch.cell_below
      if cell_above.flag ^^ cell_below.flag then
        let flip := cell_above.flag
        let f := faceAt tm_subdivided ((t : Int))
        if flip then out_tris ++ [flip_tri f] else out_tris ++ [f]
      else out_tris) []

/-! ## Patch finder -/

/-- The body of the non-manifold incidence scan of find_patches: record
a patch-patch edge to the patch of each already-assigned other triangle
on the edge, keeping any entry recorded earlier. -/
def pp_scan_step (cur_patch_index tcand : Int) (e : Edge) (pinfo : PatchesInfo)
    (t_oth : Int) : PatchesInfo :=
  if t_oth ≠ tcand ∧ pinfo.tri_is_assigned t_oth then
    let p_other := pinfo.tri_patchAt t_oth
    if p_other = cur_patch_index then pinfo
    else
      match pinfo.patch_patch_edge cur_patch_index p_other with
      | some _ => pinfo
      | none => pinfo.add_new_patch_patch_edge cur_patch_index p_other e
  else pinfo

/-- One side of the newly grown triangle tcand: push the manifold
neighbour if unassigned, else record patch-patch incidences along the
non-manifold edge. -/
def grow_side (tm : Mesh) (tmtopo : TriMeshTopology) (cur_patch_index tcand : Int)
    (st : List Int × PatchesInfo) (i : Nat) : List Int × PatchesInfo :=
  let tri := faceAt tm tcand
  let e := mkEdge (tri.vtx i) (tri.vtx ((i + 1) % 3))
  let t_other := tmtopo.other_tri_if_manifold e tcand
  if t_other ≠ NO_INDEX then
    if ¬ st.2.tri_is_assigned t_other then (t_other :: st.1, st.2) else st
  else
    match tmtopo.edge_tris e with
    | none => st
    | some etris => (st.1, etris.foldl (pp_scan_step cur_patch_index tcand e) st.2)

/-- The depth-first growth loop of find_patches.  The stack is the list
of candidate triangles (head = top).  Each iteration pops one candidate;
a popped unassigned triangle is assigned to the current patch and its
three sides are scanned by grow_side.  The fuel bounds the iteration
count: the potential (stack length + 3 * unassigned count) strictly
decreases every iteration, so fuel 1 + 3 * (number of triangles) always
suffices for a single-seed loop. -/
def find_patches_grow (tm : Mesh) (tmtopo : TriMeshTopology) (cur_patch_index : Int) :
    Nat → List Int → PatchesInfo → PatchesInfo
  | 0, _, pinfo => pinfo
  | _ + 1, [], pinfo => pinfo
  | fuel + 1, tcand :: stack, pinfo =>
    if pinfo.tri_is_assigned tcand then
      find_patches_grow tm tmtopo cur_patch_index fuel stack pinfo
    else
      let st := (List.range 3).foldl (grow_side tm tmtopo cur_patch_index tcand)
        (stack, pinfo.grow_patch cur_patch_index tcand)
      find_patches_grow tm tmtopo cur_patch_index fuel st.1 st.2

/-- find_patches: scan triangles in index order; each still-unassigned
triangle seeds a new patch grown by find_patches_grow. -/
def find_patches (tm : Mesh) (tmtopo : TriMeshTopology) : PatchesInfo :=
  let ntri := tm.length
  (List.range ntri).foldl (fun pinfo (t : Nat) =>
    if pinfo.tri_patchAt (t : Int) = NO_INDEX then
      let pr := pinfo.add_patch
      find_patches_grow tm tmtopo pr.2 (1 + 3 * ntri) [(t : Int)] pr.1
    else pinfo)
    ⟨[], List.replicate ntri NO_INDEX, []⟩

/-! ## Cell builder -/

/-- Write the "follow" side of a patch around an edge: cell_below when
the patch's triangle uses the edge reversed, else cell_above. -/
def set_follow (pinfo : PatchesInfo) (p : Int) (flipped : Bool) (c : Int) : PatchesInfo :=
  { pinfo with patch := listModifyI pinfo.patch p (fun patch =>
      if flipped then { patch with cell_below := c } else { patch with cell_above := c }) }

/-- Write the "previous" side of a patch around an edge: cell_above when
the patch's triangle uses the edge reversed, else cell_below. -/
def set_prev (pinfo : PatchesInfo) (p : Int) (flipped : Bool) (c : Int) : PatchesInfo :=
  { pinfo with patch := listModifyI pinfo.patch p (fun patch =>
      if flipped then { patch with cell_above := c } else { patch with cell_below := c }) }

/-- find_cells_from_edge: radially sort the triangles on e, then walk
consecutive pairs in cyclic order, allocating or copying cells into the
facing patch sides.  The both-set-and-unequal case (cell merge) is
unimplemented in the source (debug assert) and leaves the state
unchanged. -/
def find_cells_from_edge (tm : Mesh) (tmtopo : TriMeshTopology) (pc : PatchesInfo × CellsInfo)
    (e : Edge) : PatchesInfo × CellsInfo :=
  let edge_tris := (tmtopo.edge_tris e).getD []
  let sorted_tris := sort_tris_around_edge tm e edge_tris (edge_tris.getD 0 0) none
  let n_edge_tris := edge_tris.length
  let edge_patches := (List.range n_edge_tris).map
    (fun i => pc.1.tri_patchAt (sorted_tris.getD i 0))
  (List.range n_edge_tris).foldl (fun (pc : PatchesInfo × CellsInfo) i =>
    let pinfo := pc.1
    let cinfo := pc.2
    let inext := (i + 1) % n_edge_tris
    let r_index := edge_patches.getD i 0
    let rnext_index := edge_patches.getD inext 0
    let r_flipped := (find_flap_vert (faceAt tm (sorted_tris.getD i 0)) e).2
    let rnext_flipped := (find_flap_vert (faceAt tm (sorted_tris.getD inext 0)) e).2
    let r_follow := if r_flipped then (pinfo.patchAt r_index).cell_below
      else (pinfo.patchAt r_index).cell_above
    let rnext_prev := if rnext_flipped then (pinfo.patchAt rnext_index).cell_above
      else (pinfo.patchAt rnext_index).cell_below
    if r_follow = NO_INDEX ∧ rnext_prev = NO_INDEX then
      let c := (cinfo.length : Int)
      let cinfo := cinfo ++ [default]
      let pinfo := set_follow pinfo r_index r_flipped c
      let pinfo := set_prev pinfo rnext_index rnext_flipped c
      let cinfo := listModifyI cinfo c (fun cell =>
        { cell with patches := cell.patches ++ [r_index, rnext_index] })
      (pinfo, cinfo)
    else if r_follow ≠ NO_INDEX ∧ rnext_prev = NO_INDEX then
      let c := r_follow
      let pinfo := set_prev pinfo rnext_index rnext_flipped c
      let cinfo := listModifyI cinfo c (fun cell =>
        { cell with patches := cell.patches ++ [rnext_index] })
      (pinfo, cinfo)
    else if r_follow = NO_INDEX ∧ rnext_prev ≠ NO_INDEX then
      let c := rnext_prev
      let pinfo := set_follow pinfo r_index r_flipped c
      let cinfo := listModifyI cinfo c (fun cell =>
        { cell with patches := cell.patches ++ [r_index] })
      (pinfo, cinfo)
    else pc) pc

/-- find_cells: process each distinct representative edge shared by a
patch pair exactly once (in ascending patch-pair order). -/
def find_cells (tm : Mesh) (tmtopo : TriMeshTopology) (pinfo : PatchesInfo) :
    PatchesInfo × CellsInfo :=
  let np := pinfo.tot_patch
  let st := (List.range np).foldl (fun st p =>
    ((List.range np).drop (p + 1)).foldl (fun (st : List Edge × PatchesInfo × CellsInfo) (q : Nat) =>
      let processed := st.1
      let pinfo := st.2.1
      let cinfo := st.2.2
      match pinfo.patch_patch_edge (p : Int) (q : Int) with
      | none => st
      | some e =>
        if e ∈ processed then st
        else
          let pc := find_cells_from_edge tm tmtopo (pinfo, cinfo) e
          (processed ++ [e], pc.1, pc.2)) st)
    (([] : List Edge), pinfo, ([] : CellsInfo))
  st.2

/-! ## Patch-cell graph validation -/

/-- Total number of patch references across all cells (bounds the flood
fill's stack pushes). -/
def cells_patch_total (cinfo : CellsInfo) : Nat :=
  (cinfo.map (fun c => c.patches.length)).sum

/-- The flood-fill loop of patch_cell_graph_connected.  Each iteration
pops one stack entry; entries are pushed only when their cell is first
marked reachable, so the total push count (and hence the needed fuel) is
bounded by 1 + the total patch references across cells. -/
def pcg_connected_loop (cinfo : CellsInfo) (pinfo : PatchesInfo) :
    Nat → List Int → List Bool → List Bool → (List Bool × List Bool)
  | 0, _, cell_reachable, patch_reachable => (cell_reachable, patch_reachable)
  | _ + 1, [], cell_reachable, patch_reachable => (cell_reachable, patch_reachable)
  | fuel + 1, p :: stack, cell_reachable, patch_reachable =>
    if listGetI patch_reachable p false then
      pcg_connected_loop cinfo pinfo fuel stack cell_reachable patch_reachable
    else
      let patch_reachable2 := listSetI patch_reachable p true
      let patch := pinfo.patchAt p
      let st := [patch.cell_above, patch.cell_below].foldl
        (fun (st : List Bool × List Int) c =>
          let cell_reachable := st.1
          let stack := st.2
          if listGetI cell_reachable c false then st
          else
            let cell_reachable := listSetI cell_reachable c true
            let stack := (cellAt cinfo c).patches.foldl
              (fun stack p2 =>
                if listGetI patch_reachable2 p2 false then stack else p2 :: stack) stack
            (cell_reachable, stack)) (cell_reachable, stack)
      pcg_connected_loop cinfo pinfo fuel st.2 st.1 patch_reachable2

/-- patch_cell_graph_connected: flood fill from patch 0 over the
bipartite patch-cell graph; true when everything is reached. -/
def patch_cell_graph_connected (cinfo : CellsInfo) (pinfo : PatchesInfo) : Bool :=
  if cinfo.length = 0 ∨ pinfo.tot_patch = 0 then false
  else
    let res := pcg_connected_loop cinfo pinfo (1 + pinfo.tot_patch + cells_patch_total cinfo) [0]
      (List.replicate cinfo.length false) (List.replicate pinfo.tot_patch false)
    res.1.all (fun b => b) && res.2.all (fun b => b)

/-- patch_cell_graph_ok: every cell has at least one patch with in-range
indices, every patch has both sides set and in range, and the bipartite
graph is connected. -/
def patch_cell_graph_ok (cinfo : CellsInfo) (pinfo : PatchesInfo) : Bool :=
  ((List.range cinfo.length).all (fun c =>
    let cell := cellAt cinfo (c : Int)
    decide (cell.patches.length ≠ 0) &&
      cell.patches.all (fun p => decide (p < (pinfo.tot_patch : Int))))) &&
  ((List.range pinfo.tot_patch).all (fun p =>
    let patch := pinfo.patchAt (p : Int)
    decide (patch.cell_above ≠ NO_INDEX) && decide (patch.cell_below ≠ NO_INDEX) &&
      decide (patch.cell_above < (cinfo.length : Int)) &&
      decide (patch.cell_below < (cinfo.length : Int)))) &&
  patch_cell_graph_connected cinfo pinfo

/-! ## The boolean_trimesh entry point -/

/-- boolean_trimesh.  The self-intersection collaborators (external to
the core, per the spec) are passed as function parameters; arena_next_id
is the id the arena would give the ambient finder's synthetic vertex. -/
def boolean_trimesh (tm_in : Mesh) (op : Int) (nshapes : Int) (shape_fn : Int → Int)
    (use_self : Bool) (trimesh_self_intersect : Mesh → Mesh)
    (trimesh_nary_intersect : Mesh → Int → (Int → Int) → Bool → Mesh)
    (arena_next_id : Int) : Mesh :=
  if tm_in.length = 0 then tm_in
  else
    let tm_si := if use_self then trimesh_self_intersect tm_in
      else trimesh_nary_intersect tm_in nshapes shape_fn use_self
    if tm_si.length = 0 ∨ op = BOOLEAN_NONE then tm_si
    else
      let si_shape_fn : Int → Int := fun t => shape_fn (faceAt tm_si t).orig
      let tm_si_topo := trimesh_topology tm_si
      let pinfo0 := find_patches tm_si tm_si_topo
      let pc := find_cells tm_si tm_si_topo pinfo0
      let pinfo := pc.1
      let cinfo0 := pc.2
      if ¬ patch_cell_graph_connected cinfo0 pinfo then tm_in
      else if ¬ patch_cell_graph_ok cinfo0 pinfo then tm_in
      else
        let cinfo1 := init_windings cinfo0 nshapes
        let c_ambient := find_ambient_cell tm_si tm_si_topo pinfo arena_next_id
        if c_ambient = NO_INDEX then tm_si
        else
          let cinfo := propagate_windings_and_flag pinfo cinfo1 c_ambient op nshapes si_shape_fn
          extract_from_flag_diffs tm_si pinfo cinfo

/-! ## Face merging (detriangulation) -/

/-- Vector::first_index_of_try: index of the first occurrence, -1 when
absent. -/
def firstIndexOfI [DecidableEq α] (l : List α) (x : α) : Int :=
  if l.indexOf x = l.length then -1 else (l.indexOf x : Int)

/-- find_tris_common_edge: the first (i, j) with tri1[(i+1)%3] = tri2[j]
and tri1[i] = tri2[(j+1)%3], else (-1,-1). -/
def find_tris_common_edge (tri1 tri2 : Face) : Int × Int :=
  match ((List.range 3).flatMap (fun i => (List.range 3).map (fun j => (i, j)))).find?
    (fun ij => tri1.vtx ((ij.1 + 1) % 3) = tri2.vtx ij.2 ∧
      tri1.vtx ij.1 = tri2.vtx ((ij.2 + 1) % 3)) with
  | some ij => ((ij.1 : Int), (ij.2 : Int))
  | none => (-1, -1)

/-- Modelled from the spec: Face::cyclic_equal of the external mesh
library - the vertex cycle of one face is a rotation of the other's. -/
def Face.cyclic_equal (f g : Face) : Bool :=
  decide (f.vert = g.vert) ||
    (List.range f.vert.length).any (fun k => decide (f.vert.rotate k = g.vert))

/-- The embedding of MergeEdge. -/
structure MergeEdge where
  len_squared : MQ
  v1 : Vert
  v2 : Vert
  left_face : Int
  right_face : Int
  orig : Int
  dissolvable : Bool
deriving DecidableEq, Repr

instance : Inhabited MergeEdge := ⟨⟨0, default, default, -1, -1, -1, false⟩⟩

/-- The MergeEdge constructor orders the ends by vertex id. -/
def mkMergeEdge (va vb : Vert) : MergeEdge :=
  if va.id < vb.id then ⟨0, va, vb, -1, -1, -1, false⟩ else ⟨0, vb, va, -1, -1, -1, false⟩

/-- The embedding of MergeFace. -/
structure MergeFace where
  vert : List Vert
  edge : List Int
  merge_to : Int
  orig : Int
deriving DecidableEq, Repr

instance : Inhabited MergeFace := ⟨⟨[], [], -1, -1⟩⟩

/-- The embedding of FaceMergeState. -/
structure FaceMergeState where
  face : List MergeFace
  edge : List MergeEdge
  edge_map : List ((Int × Int) × Int)
deriving DecidableEq, Repr

/-- init_face_merge_state: one MergeFace per triangle; each triangle side
either creates a MergeEdge (length from the approximate coordinates,
dissolvable iff its edge_orig is NO_INDEX) or updates the existing one,
then records itself as the edge's left or right face. -/
def init_face_merge_state (tris : List Int) (tm : Mesh) : FaceMergeState :=
  tris.foldl (fun fms tri_idx =>
    let tri := faceAt tm tri_idx
    let f := (fms.face.length : Int)
    let fms := { fms with face := fms.face ++ [⟨[tri.vtx 0, tri.vtx 1, tri.vtx 2], [], -1, -1⟩] }
    (List.range 3).foldl (fun fms i =>
      let inext := (i + 1) % 3
      let new_me := mkMergeEdge (tri.vtx i) (tri.vtx inext)
      let canon_vs : Int × Int := (new_me.v1.id, new_me.v2.id)
      let me_index0 := (alistFind fms.edge_map canon_vs).getD (-1)
      let st :=
        if me_index0 = -1 then
          let vec := new_me.v2.co.sub new_me.v1.co
          let new_me := { new_me with
            len_squared := vec.length_squared,
            orig := tri.eo i,
            dissolvable := decide (tri.eo i = NO_INDEX) }
          let idx := (fms.edge.length : Int)
          let fms2 := { fms with
            edge := fms.edge ++ [new_me]
            edge_map := fms.edge_map ++ [(canon_vs, idx)] }
          (fms2, idx)
        else (fms, me_index0)
      let fms := st.1
      let me_index := st.2
      let fms := { fms with edge := listModifyI fms.edge me_index (fun me =>
        if me.dissolvable ∧ tri.eo i ≠ NO_INDEX then
          { me with dissolvable := false, orig := tri.eo i }
        else me) }
      let fms := { fms with edge := listModifyI fms.edge me_index (fun me =>
        if me.v1 = tri.vtx i then { me with left_face := f }
        else { me with right_face := f }) }
      { fms with face := listModifyI fms.face f (fun mf =>
        { mf with edge := mf.edge ++ [me_index] }) }) fms) ⟨[], [], []⟩

/-- dissolve_leaves_valid_bmesh: the edge may be dissolved only if no
other edge of the left face already has the right face on its right, and
the two faces share no vertex beyond the edge's two ends. -/
def dissolve_leaves_valid_bmesh (fms : FaceMergeState) (me : MergeEdge) (me_index : Int)
    (mf_left mf_right : MergeFace) : Bool :=
  let a_edge_start := firstIndexOfI mf_left.edge me_index
  let alen := mf_left.vert.length
  let b_left_face := me.right_face
  let ok1 := (List.range (alen - 1)).all (fun k =>
    let a_e_index := (a_edge_start.toNat + 1 + k) % alen
    decide (¬ ((listGetI fms.edge (listGetI mf_left.edge (a_e_index : Int) (-1)) default).right_face
      = b_left_face)))
  let ok2 := mf_left.vert.all (fun a_v =>
    if a_v ≠ me.v1 ∧ a_v ≠ me.v2 then mf_right.vert.all (fun b_v => decide (¬ (a_v = b_v)))
    else true)
  ok1 && ok2

/-- splice_faces: replace the dissolved edge in the left face by the
right face's other edges (walked cyclically from just after the shared
edge), retarget those edges to the left face, mark the right face
merged, and clear the edge's face links. -/
def splice_faces (fms : FaceMergeState) (me_index : Int) : FaceMergeState :=
  let me := listGetI fms.edge me_index default
  let lf := me.left_face
  let rf := me.right_face
  let mf_left := listGetI fms.face lf default
  let mf_right := listGetI fms.face rf default
  let a_edge_start := firstIndexOfI mf_left.edge me_index
  let b_edge_start := firstIndexOfI mf_right.edge me_index
  let blen := mf_right.vert.length
  let apre_v := mf_left.vert.take a_edge_start.toNat
  let apre_e := mf_left.edge.take a_edge_start.toNat
  let bidx := (List.range (blen - 1)).map (fun k => (b_edge_start.toNat + 1 + k) % blen)
  let bpart_v := bidx.map (fun bi => mf_right.vert.getD bi default)
  let bpart_e := bidx.map (fun bi => mf_right.edge.getD bi (-1))
  let apost_v := mf_left.vert.drop (a_edge_start.toNat + 1)
  let apost_e := mf_left.edge.drop (a_edge_start.toNat + 1)
  let fms := bidx.foldl (fun fms bi =>
    let eidx := mf_right.edge.getD bi (-1)
    { fms with edge := listModifyI fms.edge eidx (fun e2 =>
        if mf_right.vert.getD bi default = e2.v1 then { e2 with left_face := lf }
        else { e2 with right_face := lf }) }) fms
  let fms := { fms with face := listModifyI fms.face rf (fun mfr => { mfr with merge_to := lf }) }
  let fms := { fms with face := listModifyI fms.face lf (fun mfl =>
    { mfl with vert := apre_v ++ bpart_v ++ apost_v, edge := apre_e ++ bpart_e ++ apost_e }) }
  { fms with edge := listModifyI fms.edge me_index (fun e2 =>
    { e2 with left_face := -1, right_face := -1 }) }

/-- Insertion step for sorting edge indices by decreasing length. -/
def insertDesc (key : Int → MQ) (x : Int) : List Int → List Int
  | [] => [x]
  | y :: rest => if MQ.blt (key y) (key x) then x :: y :: rest else y :: insertDesc key x rest

/-- Sort by decreasing key (the embedding of std::sort with the
greater-by-length comparator; ties keep a fixed deterministic order). -/
def sortDesc (key : Int → MQ) (l : List Int) : List Int :=
  l.foldr (insertDesc key) []

/-- do_dissolve: try to dissolve every dissolvable edge, longest first,
skipping edges already detached and dissolves that would break the
BMesh invariants. -/
def do_dissolve (fms : FaceMergeState) : FaceMergeState :=
  let dissolve_edges := ((List.range fms.edge.length).filter (fun e =>
    (fms.edge.getD e default).dissolvable)).map (fun e => (e : Int))
  if dissolve_edges.length = 0 then fms
  else
    let sorted_edges := sortDesc (fun e => (listGetI fms.edge e default).len_squared)
      dissolve_edges
    sorted_edges.foldl (fun fms me_index =>
      let me := listGetI fms.edge me_index default
      if me.left_face = -1 ∨ me.right_face = -1 then fms
      else
        let mf_left := listGetI fms.face me.left_face default
        let mf_right := listGetI fms.face me.right_face default
        if ¬ dissolve_leaves_valid_bmesh fms me me_index mf_left mf_right then fms
        else splice_faces fms me_index) fms

/-- merge_tris_for_face: fast paths for a single triangle and for an
unchanged quad split along its diagonal, else the full merge state with
edge dissolving. -/
def merge_tris_for_face (tris : List Int) (tm : Mesh) (pm_in : Mesh) : List Face :=
  if tris.length = 1 then [faceAt tm (tris.getD 0 0)]
  else
    let two_result : Option (List Face) :=
      if tris.length = 2 then
        let tri1 := faceAt tm (tris.getD 0 0)
        let tri2 := faceAt tm (tris.getD 1 0)
        let in_face := faceAt pm_in tri1.orig
        if in_face.size = 4 then
          let estarts := find_tris_common_edge tri1 tri2
          if estarts.1 ≠ -1 ∧ tri1.eo estarts.1.toNat = NO_INDEX then
            let i0 := estarts.1.toNat
            let i1 := (i0 + 1) % 3
            let i2 := (i0 + 2) % 3
            let j2 := (estarts.2.toNat + 2) % 3
            let tryface : Face := ⟨[tri1.vtx i1, tri1.vtx i2, tri1.vtx i0, tri2.vtx j2], -1, []⟩
            if tryface.cyclic_equal in_face then some [in_face] else none
          else none
        else none
      else none
    match two_result with
    | some ans => ans
    | none =>
      let fms := init_face_merge_state tris tm
      let fms := do_dissolve fms
      fms.face.foldl (fun ans mf =>
        if mf.merge_to = -1 then
          let e_orig := mf.edge.map (fun ei => (listGetI fms.edge ei default).orig)
          ans ++ [(⟨mf.vert, mf.orig, e_orig⟩ : Face)]
        else ans) []

/-! ## Spec-side dissolve predicates -/

/-- Modelled from the spec: Mesh::populate_vert of the external mesh
library - the vertex index derived from the faces, distinct vertices in
order of first appearance. -/
def populate_vert (pm : Mesh) : List Vert :=
  pm.foldl (fun verts f => f.vert.foldl (fun verts v => appendNonDup verts v) verts) []

/-- Modelled from the spec: Mesh::lookup_vert - the index of a vertex in
the populated vertex list (NO_INDEX when absent). -/
def lookup_vert (verts : List Vert) (v : Vert) : Int :=
  firstIndexOfI verts v

/-- Modelled from the spec: Face::next_pos, the cyclically next position. -/
def Face.next_pos (f : Face) (i : Nat) : Nat :=
  (i + 1) % f.vert.length

/-- Modelled from the spec: Face::prev_pos, the cyclically previous
position. -/
def Face.prev_pos (f : Face) (i : Nat) : Nat :=
  (i + f.vert.length - 1) % f.vert.length


/-- The unordered-pair condition of the claim: pr is (u, w) in either
order. -/
def same_pair (pr : Vert × Vert) (u w : Vert) : Prop :=
  (pr.1 = u ∧ pr.2 = w) ∨ (pr.1 = w ∧ pr.2 = u)

instance (pr : Vert × Vert) (u w : Vert) : Decidable (same_pair pr u w) := by
  unfold same_pair
  infer_instance

/-- All (face, position) occurrences of the mesh, in traversal order. -/
def occ_list (pm : Mesh) : List (Face × Nat) :=
  pm.flatMap (fun f => (List.range f.vert.length).map (fun i => (f, i)))

/-- The (next, prev) neighbour pair of an occurrence. -/
def occ_pair (oc : Face × Nat) : Vert × Vert :=
  (oc.1.vtx (oc.1.next_pos oc.2), oc.1.vtx (oc.1.prev_pos oc.2))

/-- The neighbour pairs of the occurrences of vertex v in a given
occurrence list. -/
def pairs_in (occs : List (Face × Nat)) (v : Vert) : List (Vert × Vert) :=
  (occs.filter (fun oc => oc.1.vtx oc.2 = v)).map occ_pair

/-- The neighbour pairs of all occurrences of v in the mesh. -/
def pairs_of (pm : Mesh) (v : Vert) : List (Vert × Vert) :=
  pairs_in (occ_list pm) v

/-- All three components of an exact vector are (value-)zero. -/
def vec_zero (v : Vec3) : Prop :=
  MQ.eqv v.x 0 ∧ MQ.eqv v.y 0 ∧ MQ.eqv v.z 0

/-! ## Vertex dissolve -/

/-- The body of the neighbour-collection loop of find_dissolve_verts,
for one (face, position) occurrence. -/
def dissolve_step (verts : List Vert) (st : List Bool × List (Option Vert × Option Vert))
    (oc : Face × Nat) : List Bool × List (Option Vert × Option Vert) :=
  let f := oc.1
  let i := oc.2
  let dissolve := st.1
  let neighbors := st.2
  let v := f.vtx i
  let v_index := lookup_vert verts v
  if listGetI dissolve v_index false then
    let n1 := f.vtx (f.next_pos i)
    let n2 := f.vtx (f.prev_pos i)
    let fn := listGetI neighbors v_index (none, none)
    match fn.1 with
    | some _ =>
      if ¬ ((some n1 = fn.2 ∧ some n2 = fn.1) ∨ (some n1 = fn.1 ∧ some n2 = fn.2)) then
        (listSetI dissolve v_index false, neighbors)
      else (dissolve, neighbors)
    | none => (dissolve, listSetI neighbors v_index (some n1, some n2))
  else (dissolve, neighbors)

/-- The body of the final collinearity pass of find_dissolve_verts for
one vertex index. -/
def dissolve_finalize (verts : List Vert) (neighbors : List (Option Vert × Option Vert))
    (dc : List Bool × Nat) (v_out : Nat) : List Bool × Nat :=
  let dissolve := dc.1
  let count := dc.2
  if listGetI dissolve (v_out : Int) false then
    let dissolve2 := listSetI dissolve (v_out : Int) false
    let nbrs := listGetI neighbors (v_out : Int) (none, none)
    match nbrs.1, nbrs.2 with
    | some u, some w =>
      let co1 := u.co_exact
      let co2 := w.co_exact
      let co := (verts.getD v_out default).co_exact
      let dir1 := co.sub co1
      let dir2 := co2.sub co
      let cr := Vec3.cross dir1 dir2
      if MQ.eqv cr.x 0 ∧ MQ.eqv cr.y 0 ∧ MQ.eqv cr.z 0 then
        (listSetI dissolve2 (v_out : Int) true, count + 1)
      else (dissolve2, count)
    | _, _ => (dissolve2, count)
  else dc

/-- find_dissolve_verts: a vertex is dissolvable iff it is synthetic
(orig == NO_INDEX), has the same unordered neighbour pair at every
occurrence in the faces, and is exactly collinear with those neighbours
(cross product of (v - u) and (w - v) identically zero).  Returns the
dissolve flags (parallel to the populated vertex list) and their count. -/
def find_dissolve_verts (pm : Mesh) : List Bool × Nat :=
  let verts := populate_vert pm
  let dissolve0 := verts.map (fun v => decide (v.orig = NO_INDEX))
  let st := pm.foldl (fun st f =>
    (List.range f.vert.length).foldl (fun st i => dissolve_step verts st (f, i)) st)
    (dissolve0, List.replicate verts.length ((none, none) : Option Vert × Option Vert))
  (List.range verts.length).foldl (dissolve_finalize verts st.2) (st.1, 0)

/-- The value the final pass gives a vertex whose flag going in is b:
keep true only when both neighbours were recorded and the exact cross
product vanishes. -/
def dissolve_final_at (verts : List Vert) (neighbors : List (Option Vert × Option Vert))
    (b : Bool) (vi : Nat) : Bool :=
  if b then
    match (neighbors.getD vi (none, none)).1, (neighbors.getD vi (none, none)).2 with
    | some u, some w =>
      let cr := Vec3.cross (((verts.getD vi default).co_exact).sub u.co_exact)
        (w.co_exact.sub ((verts.getD vi default).co_exact))
      if MQ.eqv cr.x 0 ∧ MQ.eqv cr.y 0 ∧ MQ.eqv cr.z 0 then true else false
    | _, _ => false
  else false

/-- The per-vertex invariant of the neighbour-collection pass, after a
given occurrence prefix has been processed. -/
def InvAt (verts : List Vert) (processed : List (Face × Nat))
    (st : List Bool × List (Option Vert × Option Vert)) (vi : Nat) : Prop :=
  let v := verts.getD vi default
  let ps := pairs_in processed v
  ((v.orig ≠ NO_INDEX →
    st.1.getD vi false = false ∧ st.2.getD vi (none, none) = (none, none)) ∧
  (v.orig = NO_INDEX →
    (ps = [] → st.1.getD vi false = true ∧ st.2.getD vi (none, none) = (none, none)) ∧
    (∀ q qs, ps = q :: qs →
      st.2.getD vi (none, none) = (some q.1, some q.2) ∧
      (st.1.getD vi false = true ↔ ∀ pr ∈ ps, same_pair pr q.1 q.2))))

/-- Modelled from the spec: Mesh::erase_face_positions removes the
flagged positions from the face's vertex sequence (and the parallel
edge_orig entries). -/
def erase_face_positions (f : Face) (face_pos_erase : List Bool) : Face :=
  { f with
    vert := ((f.vert.zip face_pos_erase).filter (fun p => ¬ p.2)).map (fun p => p.1),
    edge_orig := ((f.edge_orig.zip face_pos_erase).filter (fun p => ¬ p.2)).map (fun p => p.1) }

/-- dissolve_verts: erase every vertex marked dissolvable from every
face's vertex sequence. -/
def dissolve_verts (pm : Mesh) (verts : List Vert) (dissolve : List Bool) : Mesh :=
  pm.map (fun f =>
    let face_pos_erase := f.vert.map (fun v => listGetI dissolve (lookup_vert verts v) false)
    if face_pos_erase.any (fun b => b) then erase_face_positions f face_pos_erase else f)

/-! ## Detriangulation driver -/

/-- The first gather of polymesh_from_trimesh_with_dissolve:
face_output_tris[f] lists the output triangles whose orig is f. -/
def gather_output_tris (tm_out : Mesh) (tot_in_face : Nat) : List (List Int) :=
  (List.range tm_out.length).foldl (fun acc (t : Nat) =>
    listModifyI acc (faceAt tm_out (t : Int)).orig (fun l => l ++ [(t : Int)]))
    (List.replicate tot_in_face ([] : List Int))

/-- The tail of polymesh_from_trimesh_with_dissolve: concatenate the
per-input-face output faces in order, then dissolve collinear synthetic
vertices when any exist. -/
def polymesh_finish (face_output_face : List (List Face)) : Mesh :=
  let pm_out : Mesh := face_output_face.foldl (fun acc l => acc ++ l) []
  let vd := find_dissolve_verts pm_out
  if vd.2 > 0 then dissolve_verts pm_out (populate_vert pm_out) vd.1 else pm_out

/-- polymesh_from_trimesh_with_dissolve, as in the source: the gather
loop's guard compares face_output_tris.size() - the size of the whole
per-face array - with zero. -/
def polymesh_from_trimesh_with_dissolve (tm_out : Mesh) (pm_in : Mesh) : Mesh :=
  polymesh_finish ((List.range pm_in.length).foldl (fun acc (in_f : Nat) =>
    if (gather_output_tris tm_out pm_in.length).length = 0 then acc
    else listSetI acc (in_f : Int) (merge_tris_for_face
      ((gather_output_tris tm_out pm_in.length).getD in_f []) tm_out pm_in))
    (List.replicate pm_in.length ([] : List Face)))

/-- The spec's intended variant of the gather loop: the guard is the
per-face list size face_output_tris[in_f].size(). -/
def polymesh_from_trimesh_with_dissolve_fixed (tm_out : Mesh) (pm_in : Mesh) : Mesh :=
  polymesh_finish ((List.range pm_in.length).foldl (fun acc (in_f : Nat) =>
    if ((gather_output_tris tm_out pm_in.length).getD in_f []).length = 0 then acc
    else listSetI acc (in_f : Int) (merge_tris_for_face
      ((gather_output_tris tm_out pm_in.length).getD in_f []) tm_out pm_in))
    (List.replicate pm_in.length ([] : List Face)))

/-! ## Concrete sample data shared by witnesses -/

/-- Identity self-intersection collaborator for witnesses. -/
def idSelf : Mesh → Mesh := fun m => m

/-- Identity nary-intersection collaborator for witnesses. -/
def idNary : Mesh → Int → (Int → Int) → Bool → Mesh := fun m _ _ _ => m

/-- Nary-intersection collaborator returning the empty mesh. -/
def emptyNary : Mesh → Int → (Int → Int) → Bool → Mesh := fun _ _ _ _ => []

def vSampA : Vert := ⟨0, 0, ⟨0, 0, 0⟩, ⟨0, 0, 0⟩⟩
def vSampB : Vert := ⟨1, 1, ⟨0, 0, 1⟩, ⟨0, 0, 1⟩⟩
def vSampC : Vert := ⟨2, 2, ⟨-1, 1, 0⟩, ⟨-1, 1, 0⟩⟩
def vSampD : Vert := ⟨3, 3, ⟨-1, -1, 0⟩, ⟨-1, -1, 0⟩⟩

/-- Two triangles sharing the edge (vSampA, vSampB). -/
def sampleTm : Mesh :=
  [⟨[vSampA, vSampB, vSampC], 0, [-1, -1, -1]⟩, ⟨[vSampA, vSampB, vSampD], 1, [-1, -1, -1]⟩]

def sampleEdge : Edge := ⟨vSampA, vSampB⟩

/-- A PatchesInfo putting the two sample triangles in distinct patches
with distinct cell_above values. -/
def samplePinfo : PatchesInfo :=
  ⟨[⟨[0], 7, 8⟩, ⟨[1], 9, 10⟩], [0, 1], []⟩

/-- A quad with one synthetic vertex vC8M collinear between vC8A and
vC8B, for exercising the dissolve pass. -/
def vC8A : Vert := ⟨10, 0, ⟨0, 0, 0⟩, ⟨0, 0, 0⟩⟩

def vC8M : Vert := ⟨11, NO_INDEX, ⟨1, 0, 0⟩, ⟨1, 0, 0⟩⟩

def vC8B : Vert := ⟨12, 1, ⟨2, 0, 0⟩, ⟨2, 0, 0⟩⟩

def vC8C : Vert := ⟨13, 2, ⟨0, 3, 0⟩, ⟨0, 3, 0⟩⟩

def pmC8 : Mesh := [⟨[vC8A, vC8M, vC8B, vC8C], 0, [0, 0, 0, 0]⟩]

/-! ## Specification-side predicates for the patch finder -/

/-- The i-th side edge of triangle k of tm. -/
def tri_side (tm : Mesh) (k : Nat) (i : Nat) : Edge :=
  mkEdge ((faceAt tm (k : Int)).vtx i) ((faceAt tm (k : Int)).vtx ((i + 1) % 3))

/-- The edge-to-triangles map is exactly the side incidence of the mesh:
every listed triangle index is a valid triangle having the edge as a
side, and every side of every triangle is listed. -/
def topo_tris_ok (tm : Mesh) (tmtopo : TriMeshTopology) : Prop :=
  (∀ e ts, tmtopo.edge_tris e = some ts → ∀ t ∈ ts,
    ∃ k : Nat, k < tm.length ∧ t = (k : Int) ∧ ∃ i, i < 3 ∧ tri_side tm k i = e) ∧
  (∀ k : Nat, k < tm.length → ∀ i : Nat, i < 3 →
    ∃ ts, tmtopo.edge_tris (tri_side tm k i) = some ts ∧ (k : Int) ∈ ts)

/-- The patch bookkeeping invariant: the triangle-to-patch map is sized
to the mesh, assigned entries name existing patches, and each patch's
triangle list holds exactly (and once) the triangles mapped to it. -/
def PatchesOK (ntri : Nat) (pinfo : PatchesInfo) : Prop :=
  pinfo.tri_patch.length = ntri ∧
  (∀ k : Nat, k < ntri → pinfo.tri_patchAt (k : Int) = NO_INDEX ∨
    ∃ p : Nat, p < pinfo.patch.length ∧ pinfo.tri_patchAt (k : Int) = (p : Int)) ∧
  (∀ p : Nat, p < pinfo.patch.length →
    (pinfo.patch.getD p default).tri.Nodup ∧
    ∀ t : Int, t ∈ (pinfo.patch.getD p default).tri ↔ pinfo.tri_patchAt t = (p : Int))

/-- e is a non-manifold edge shared by patches p and q: its triangle
list is not a manifold pair and holds triangles of both patches. -/
def SharedNMEdge (tmtopo : TriMeshTopology) (pinfo : PatchesInfo) (p q : Int) (e : Edge) :
    Prop :=
  ∃ ts, tmtopo.edge_tris e = some ts ∧ ts.length ≠ 2 ∧
    (∃ t1 ∈ ts, pinfo.tri_patchAt t1 = p) ∧ (∃ t2 ∈ ts, pinfo.tri_patchAt t2 = q)

/-- Patch-patch soundness: every stored entry is a shared non-manifold
edge of two distinct patches. -/
def PPSnd (tmtopo : TriMeshTopology) (pinfo : PatchesInfo) : Prop :=
  ∀ p q : Int, ∀ e, pinfo.patch_patch_edge p q = some e →
    p ≠ q ∧ p ≠ NO_INDEX ∧ q ≠ NO_INDEX ∧ SharedNMEdge tmtopo pinfo p q e

/-- Patch-patch storage symmetry. -/
def PPSym (pinfo : PatchesInfo) : Prop :=
  ∀ p q : Int, pinfo.patch_patch_edge p q ≠ none → pinfo.patch_patch_edge q p ≠ none

/-- Patch-patch completeness: every pair of differently-assigned
triangles on a non-manifold edge already has an entry. -/
def PPComp (tmtopo : TriMeshTopology) (pinfo : PatchesInfo) : Prop :=
  ∀ e ts, tmtopo.edge_tris e = some ts → ts.length ≠ 2 →
    ∀ t1, t1 ∈ ts → ∀ t2, t2 ∈ ts →
    pinfo.tri_patchAt t1 ≠ NO_INDEX → pinfo.tri_patchAt t2 ≠ NO_INDEX →
    pinfo.tri_patchAt t1 ≠ pinfo.tri_patchAt t2 →
    pinfo.patch_patch_edge (pinfo.tri_patchAt t1) (pinfo.tri_patchAt t2) ≠ none

/-- The full patch-patch incidence invariant. -/
def PPOK (tmtopo : TriMeshTopology) (pinfo : PatchesInfo) : Prop :=
  PPSnd tmtopo pinfo ∧ PPSym pinfo ∧ PPComp tmtopo pinfo

/-- The partial edge-to-triangles invariant after processing the sides
listed in S. -/
def etInvP (tm : Mesh) (S : List (Nat × Nat)) (et : List (Edge × List Int)) : Prop :=
  (∀ e ts, alistFind et e = some ts → ∀ t ∈ ts,
    ∃ ki, ki ∈ S ∧ t = ((ki.1 : Nat) : Int) ∧ tri_side tm ki.1 ki.2 = e) ∧
  (∀ ki ∈ S, ∃ ts, alistFind et (tri_side tm ki.1 ki.2) = some ts ∧ ((ki.1 : Nat) : Int) ∈ ts)

/-- Every stack entry is a valid triangle index. -/
def StackOK (ntri : Nat) (stack : List Int) : Prop :=
  ∀ s ∈ stack, ∃ k : Nat, k < ntri ∧ s = (k : Int)

/-- Three triangles sharing the non-manifold edge (vC6A, vC6B). -/
def vC6A : Vert := ⟨20, 0, ⟨0, 0, 0⟩, ⟨0, 0, 0⟩⟩

def vC6B : Vert := ⟨21, 1, ⟨0, 0, 1⟩, ⟨0, 0, 1⟩⟩

def vC6C : Vert := ⟨22, 2, ⟨-1, 1, 0⟩, ⟨-1, 1, 0⟩⟩

def vC6D : Vert := ⟨23, 3, ⟨-1, -1, 0⟩, ⟨-1, -1, 0⟩⟩

def vC6E : Vert := ⟨24, 4, ⟨1, 1, 0⟩, ⟨1, 1, 0⟩⟩

def tmC6 : Mesh :=
  [⟨[vC6A, vC6B, vC6C], 0, [-1, -1, -1]⟩,
   ⟨[vC6A, vC6B, vC6D], 1, [-1, -1, -1]⟩,
   ⟨[vC6A, vC6B, vC6E], 2, [-1, -1, -1]⟩]

/-! # Theorems -/

/-! ## List access lemmas -/

lemma getD_set_self (l : List α) (n : Nat) (x d : α) (h : n < l.length) :
    (l.set n x).getD n d = x := by
  induction l generalizing n with
  | nil => simp at h
  | cons a t ih =>
    cases n with
    | zero => simp
    | succ m =>
      simp only [List.set_cons_succ, List.getD_cons_succ]
      exact ih m (by simpa using h)

lemma getD_set_ne (l : List α) (m n : Nat) (x d : α) (h : m ≠ n) :
    (l.set m x).getD n d = l.getD n d := by
  induction l generalizing m n with
  | nil => simp [List.getD]
  | cons a t ih =>
    cases m with
    | zero =>
      cases n with
      | zero => exact absurd rfl h
      | succ k => simp
    | succ j =>
      cases n with
      | zero => simp
      | succ k =>
        simp only [List.set_cons_succ, List.getD_cons_succ]
        exact ih j k (by omega)

lemma listModifyNat_length (l : List α) (i : Nat) (f : α → α) :
    (listModifyNat l i f).length = l.length := by
  induction l generalizing i with
  | nil => simp [listModifyNat]
  | cons a t ih =>
    cases i with
    | zero => simp [listModifyNat]
    | succ j => simp [listModifyNat, ih]

lemma getD_listModifyNat_self (l : List α) (i : Nat) (f : α → α) (d : α) (h : i < l.length) :
    (listModifyNat l i f).getD i d = f (l.getD i d) := by
  induction l generalizing i with
  | nil => simp at h
  | cons a t ih =>
    cases i with
    | zero => simp [listModifyNat]
    | succ j =>
      simp only [listModifyNat, List.getD_cons_succ]
      exact ih j (by simpa using h)

lemma getD_listModifyNat_ne (l : List α) (i j : Nat) (f : α → α) (d : α) (h : i ≠ j) :
    (listModifyNat l i f).getD j d = l.getD j d := by
  induction l generalizing i j with
  | nil => simp [listModifyNat]
  | cons a t ih =>
    cases i with
    | zero =>
      cases j with
      | zero => exact absurd rfl h
      | succ k => simp [listModifyNat]
    | succ m =>
      cases j with
      | zero => simp [listModifyNat]
      | succ k =>
        simp only [listModifyNat, List.getD_cons_succ]
        exact ih m k (by omega)

/-! ## C1: the winding delta when crossing a patch -/

/-- C1 (amended): during winding propagation, when crossing patch p from
an assigned cell c to an unassigned neighbour, the neighbour's winding
vector equals c's winding vector except at index s = shape_of(p.tri(0)),
which is changed by delta = MINUS 1 if p.cell_below == c (the traversal
exits through the patch's below side), else by delta = PLUS 1; the
neighbour is marked assigned, its flag is the keep predicate of its new
winding, and it is appended to the BFS queue.  (The claim's sign for
delta is the opposite of what the code computes.) -/
theorem propagate_winding_delta
    (pinfo : PatchesInfo) (op : Int) (shape_fn : Int → Int) (c p : Int)
    (cinfo : CellsInfo) (queue : List Int)
    (patch : Patch) (hp : patch = pinfo.patchAt p)
    (cnb : Int)
    (hcnb : cnb = (if patch.cell_below = c then patch.cell_above else patch.cell_below))
    (hrange0 : 0 ≤ cnb) (hrange1 : cnb.toNat < cinfo.length)
    (hun : (cellAt cinfo cnb).winding_assigned = false)
    (s : Int) (hs : s = shape_fn (patch.tri.getD 0 0))
    (hsrange0 : 0 ≤ s) (hsrange1 : s.toNat < (cellAt cinfo c).winding.length)
    (delta : Int) (hdelta : delta = (if patch.cell_below = c then (-1 : Int) else 1)) :
    (cellAt (propagate_cross_patch pinfo op shape_fn c (cinfo, queue) p).1 cnb).winding.length =
        (cellAt cinfo c).winding.length ∧
    (∀ j, j < (cellAt cinfo c).winding.length →
      (cellAt (propagate_cross_patch pinfo op shape_fn c (cinfo, queue) p).1 cnb).winding.getD j 0 =
        (cellAt cinfo c).winding.getD j 0 + (if j = s.toNat then delta else 0)) ∧
    (cellAt (propagate_cross_patch pinfo op shape_fn c (cinfo, queue) p).1 cnb).winding_assigned
        = true ∧
    (cellAt (propagate_cross_patch pinfo op shape_fn c (cinfo, queue) p).1 cnb).flag =
      apply_bool_op op
        (cellAt (propagate_cross_patch pinfo op shape_fn c (cinfo, queue) p).1 cnb).winding ∧
    (propagate_cross_patch pinfo op shape_fn c (cinfo, queue) p).2 = queue ++ [cnb] := by
  have hres : propagate_cross_patch pinfo op shape_fn c (cinfo, queue) p =
      (listSetI cinfo cnb
        ((cellAt cinfo cnb).set_winding_and_flag (cellAt cinfo c) s delta op),
       queue ++ [cnb]) := by
    rw [propagate_cross_patch]
    simp only [← hp, ← hcnb, hun, Bool.false_eq_true, if_false, ← hs, ← hdelta]
  have hget : cellAt (listSetI cinfo cnb
      ((cellAt cinfo cnb).set_winding_and_flag (cellAt cinfo c) s delta op)) cnb =
      (cellAt cinfo cnb).set_winding_and_flag (cellAt cinfo c) s delta op := by
    have hcond : 0 ≤ cnb ∧ cnb < (cinfo.length : Int) := ⟨hrange0, by omega⟩
    rw [cellAt, listGetI, listSetI, if_pos hcond, if_pos hrange0]
    exact getD_set_self _ _ _ _ hrange1
  have h1 : (propagate_cross_patch pinfo op shape_fn c (cinfo, queue) p).1 =
      listSetI cinfo cnb ((cellAt cinfo cnb).set_winding_and_flag (cellAt cinfo c) s delta op) := by
    rw [hres]
  have h2 : (propagate_cross_patch pinfo op shape_fn c (cinfo, queue) p).2 = queue ++ [cnb] := by
    rw [hres]
  rw [h1, h2, hget]
  simp only [Cell.set_winding_and_flag]
  refine ⟨?_, ?_, by trivial, by trivial, by trivial⟩
  · rw [listModifyI, if_pos hsrange0, listModifyNat_length]
  · intro j hj
    rw [listModifyI, if_pos hsrange0]
    by_cases hjs : j = s.toNat
    · subst hjs
      rw [getD_listModifyNat_self _ _ _ _ hj, if_pos rfl]
    · rw [getD_listModifyNat_ne _ _ _ _ _ (fun hh => hjs hh.symm), if_neg hjs, add_zero]

/-- Witness for C1 at a concrete two-cell configuration: one patch with
cell_below = 0 (the ambient cell) and cell_above = 1; the crossing from
cell 0 assigns winding 0 + (-1) = -1 to cell 1. -/
theorem propagate_winding_delta_witness :
    (cellAt (propagate_cross_patch ⟨[⟨[0], 1, 0⟩], [0], []⟩ BOOLEAN_UNION (fun _ => 0) 0
        ([⟨[0], [0], true, false⟩, ⟨[0], [0], false, false⟩], []) 0).1 1).winding.length =
      (cellAt [⟨[0], [0], true, false⟩, ⟨[0], [0], false, false⟩] 0).winding.length ∧
    (∀ j, j < (cellAt [⟨[0], [0], true, false⟩, ⟨[0], [0], false, false⟩] 0).winding.length →
      (cellAt (propagate_cross_patch ⟨[⟨[0], 1, 0⟩], [0], []⟩ BOOLEAN_UNION (fun _ => 0) 0
          ([⟨[0], [0], true, false⟩, ⟨[0], [0], false, false⟩], []) 0).1 1).winding.getD j 0 =
        (cellAt [⟨[0], [0], true, false⟩, ⟨[0], [0], false, false⟩] 0).winding.getD j 0 +
          (if j = (0 : Int).toNat then -1 else 0)) ∧
    (cellAt (propagate_cross_patch ⟨[⟨[0], 1, 0⟩], [0], []⟩ BOOLEAN_UNION (fun _ => 0) 0
        ([⟨[0], [0], true, false⟩, ⟨[0], [0], false, false⟩], []) 0).1 1).winding_assigned
        = true ∧
    (cellAt (propagate_cross_patch ⟨[⟨[0], 1, 0⟩], [0], []⟩ BOOLEAN_UNION (fun _ => 0) 0
        ([⟨[0], [0], true, false⟩, ⟨[0], [0], false, false⟩], []) 0).1 1).flag =
      apply_bool_op BOOLEAN_UNION
        (cellAt (propagate_cross_patch ⟨[⟨[0], 1, 0⟩], [0], []⟩ BOOLEAN_UNION (fun _ => 0) 0
            ([⟨[0], [0], true, false⟩, ⟨[0], [0], false, false⟩], []) 0).1 1).winding ∧
    (propagate_cross_patch ⟨[⟨[0], 1, 0⟩], [0], []⟩ BOOLEAN_UNION (fun _ => 0) 0
        ([⟨[0], [0], true, false⟩, ⟨[0], [0], false, false⟩], []) 0).2 = [] ++ [1] :=
  propagate_winding_delta ⟨[⟨[0], 1, 0⟩], [0], []⟩ BOOLEAN_UNION (fun _ => 0) 0 0
    [⟨[0], [0], true, false⟩, ⟨[0], [0], false, false⟩] [] ⟨[0], 1, 0⟩ (by decide) 1 (by decide)
    (by decide) (by decide) (by decide) 0 (by decide) (by decide) (by decide) (-1) (by decide)

/-- Counterexample for C1 as stated: on a concrete two-cell configuration
where the propagation crosses patch 0 out of its below cell (the ambient
cell 0, winding [0]), the neighbour cell 1 receives winding [-1], not
[0 + 1] = [1] as the claim's delta = +1 would require. -/
theorem propagate_winding_plus_one_counterexample :
    ((⟨[⟨[0], 1, 0⟩], [0], []⟩ : PatchesInfo).patchAt 0).cell_below = 0 ∧
    (cellAt (propagate_windings_and_flag ⟨[⟨[0], 1, 0⟩], [0], []⟩
        [⟨[0], [0], false, false⟩, ⟨[0], [0], false, false⟩] 0 BOOLEAN_UNION 1
        (fun _ => 0)) 1).winding = [-1] ∧
    ¬ ((cellAt (propagate_windings_and_flag ⟨[⟨[0], 1, 0⟩], [0], []⟩
        [⟨[0], [0], false, false⟩, ⟨[0], [0], false, false⟩] 0 BOOLEAN_UNION 1
        (fun _ => 0)) 1).winding = [0 + 1]) := by
  decide

/-! ## Lemmas about the keep predicate -/

lemma all_ne_zero_iff (w : List Int) :
    (w.all fun x => x ≠ 0) = true ↔ ∀ i, i < w.length → w.getD i 0 ≠ 0 := by
  induction w with
  | nil => simp
  | cons a t ih =>
    simp only [List.all_cons, Bool.and_eq_true, ih, List.length_cons]
    constructor
    · rintro ⟨ha, ht⟩ i hi
      cases i with
      | zero => simpa using ha
      | succ j =>
        rw [List.getD_cons_succ]
        exact ht j (by omega)
    · intro hall
      refine ⟨by simpa using hall 0 (by omega), fun j hj => ?_⟩
      have := hall (j + 1) (by omega)
      simpa using this

lemma any_ne_zero_iff (w : List Int) :
    (w.any fun x => x ≠ 0) = true ↔ ∃ i, i < w.length ∧ w.getD i 0 ≠ 0 := by
  induction w with
  | nil => simp
  | cons a t ih =>
    simp only [List.any_cons, Bool.or_eq_true, ih, List.length_cons]
    constructor
    · rintro (ha | ⟨j, hj, hv⟩)
      · exact ⟨0, by omega, by simpa using ha⟩
      · exact ⟨j + 1, by omega, by simpa using hv⟩
    · rintro ⟨i, hi, hv⟩
      cases i with
      | zero => exact Or.inl (by simpa using hv)
      | succ j => exact Or.inr ⟨j, by omega, by simpa using hv⟩

lemma any_eq_zero_iff (w : List Int) :
    (w.any fun x => x = 0) = true ↔ ∃ i, i < w.length ∧ w.getD i 0 = 0 := by
  induction w with
  | nil => simp
  | cons a t ih =>
    simp only [List.any_cons, Bool.or_eq_true, ih, List.length_cons]
    constructor
    · rintro (ha | ⟨j, hj, hv⟩)
      · exact ⟨0, by omega, by simpa using ha⟩
      · exact ⟨j + 1, by omega, by simpa using hv⟩
    · rintro ⟨i, hi, hv⟩
      cases i with
      | zero => exact Or.inl (by simpa using hv)
      | succ j => exact Or.inr ⟨j, by omega, by simpa using hv⟩

lemma apply_bool_op_isect_eq (w : List Int) :
    apply_bool_op BOOLEAN_ISECT w = (w.all fun x => x ≠ 0) := rfl

lemma apply_bool_op_union_eq (w : List Int) :
    apply_bool_op BOOLEAN_UNION w = (w.any fun x => x ≠ 0) := rfl

lemma apply_bool_op_difference_eq (w : List Int) :
    apply_bool_op BOOLEAN_DIFFERENCE w =
      (if w.getD 0 0 = 0 then false
       else if w.length = 1 then true
       else (w.drop 1).any fun x => x = 0) := rfl

/-- C3: for every non-empty winding vector w of length n, the keep
predicate apply_bool_op returns: for Intersection, true iff every
w[i] != 0; for Union, true iff some w[i] != 0; for Difference, true iff
w[0] != 0 and (n == 1 or w[i] = 0 for some i >= 1). -/
theorem apply_bool_op_correct (w : List Int) (h : w ≠ []) :
    (apply_bool_op BOOLEAN_ISECT w = true ↔ ∀ i, i < w.length → w.getD i 0 ≠ 0) ∧
    (apply_bool_op BOOLEAN_UNION w = true ↔ ∃ i, i < w.length ∧ w.getD i 0 ≠ 0) ∧
    (apply_bool_op BOOLEAN_DIFFERENCE w = true ↔
      (w.getD 0 0 ≠ 0 ∧ (w.length = 1 ∨ ∃ i, 1 ≤ i ∧ i < w.length ∧ w.getD i 0 = 0))) := by
  obtain ⟨a, t, rfl⟩ : ∃ a t, w = a :: t := by
    cases w with
    | nil => exact absurd rfl h
    | cons a t => exact ⟨a, t, rfl⟩
  refine ⟨?_, ?_, ?_⟩
  · rw [apply_bool_op_isect_eq]
    exact all_ne_zero_iff (a :: t)
  · rw [apply_bool_op_union_eq]
    exact any_ne_zero_iff (a :: t)
  · rw [apply_bool_op_difference_eq]
    by_cases ha : a = 0
    · simp [ha]
    · by_cases ht : t = []
      · subst ht; simp [ha]
      · have hlen : ¬ (t.length = 0) := by
          simpa [List.length_eq_zero] using ht
        have hlen1 : ¬ ((a :: t).length = 1) := by
          simp only [List.length_cons]
          omega
        rw [List.getD_cons_zero, if_neg ha, if_neg hlen1, List.drop_succ_cons, List.drop_zero,
          any_eq_zero_iff t]
        simp only [List.length_cons, List.getD_cons_zero]
        constructor
        · rintro ⟨j, hj, hv⟩
          refine ⟨ha, Or.inr ⟨j + 1, by omega, by omega, ?_⟩⟩
          rw [List.getD_cons_succ]
          exact hv
        · rintro ⟨-, h2 | ⟨i, hi1, hi2, hv⟩⟩
          · omega
          · obtain ⟨j, rfl⟩ : ∃ j, i = j + 1 := ⟨i - 1, by omega⟩
            refine ⟨j, by omega, ?_⟩
            rw [List.getD_cons_succ] at hv
            exact hv

/-- Witness for C3 at the concrete winding vector [1, 0]. -/
theorem apply_bool_op_correct_witness :
    (apply_bool_op BOOLEAN_ISECT [1, 0] = true ↔
      ∀ i, i < (([1, 0] : List Int)).length → (([1, 0] : List Int)).getD i 0 ≠ 0) ∧
    (apply_bool_op BOOLEAN_UNION [1, 0] = true ↔
      ∃ i, i < (([1, 0] : List Int)).length ∧ (([1, 0] : List Int)).getD i 0 ≠ 0) ∧
    (apply_bool_op BOOLEAN_DIFFERENCE [1, 0] = true ↔
      ((([1, 0] : List Int)).getD 0 0 ≠ 0 ∧
        ((([1, 0] : List Int)).length = 1 ∨
          ∃ i, 1 ≤ i ∧ i < (([1, 0] : List Int)).length ∧ (([1, 0] : List Int)).getD i 0 = 0))) :=
  apply_bool_op_correct [1, 0] (by decide)

/-! ## C4: the extractor -/

lemma foldl_guard_append (l : List α) (P : α → Bool) (G : α → β) (acc : List β) :
    l.foldl (fun out t => if P t then out ++ [G t] else out) acc = acc ++ (l.filter P).map G := by
  induction l generalizing acc with
  | nil => simp
  | cons a t ih =>
    by_cases h : P a
    · simp [h, ih]
    · simp [h, ih]

/-- C4: the extractor's output mesh consists of exactly those triangles t
of the subdivided mesh whose patch's two bounding cells have differing
flag; such a triangle is emitted with vertex order reversed (as an
oriented cycle) and its edge_orig sequence correspondingly reversed iff
cell_above.flag is true, and is emitted unchanged otherwise. -/
theorem extract_from_flag_diffs_spec (tm : Mesh) (pinfo : PatchesInfo) (cinfo : CellsInfo) :
    extract_from_flag_diffs tm pinfo cinfo =
      ((List.range tm.length).filter (fun t =>
        (cellAt cinfo (pinfo.patchAt (pinfo.tri_patchAt ((t : Int)))).cell_above).flag
          != (cellAt cinfo (pinfo.patchAt (pinfo.tri_patchAt ((t : Int)))).cell_below).flag)).map
        (fun t =>
          if (cellAt cinfo (pinfo.patchAt (pinfo.tri_patchAt ((t : Int)))).cell_above).flag
          then flip_tri (faceAt tm ((t : Int))) else faceAt tm ((t : Int))) ∧
    (∀ f : Face, f.vert.length = 3 → (flip_tri f).vert = f.vert.reverse.rotate 2) ∧
    (∀ f : Face, f.edge_orig.length = 3 → (flip_tri f).edge_orig = f.edge_orig.reverse) := by
  refine ⟨?_, ?_, ?_⟩
  · rw [extract_from_flag_diffs]
    have hext :
        List.foldl
          (fun out_tris t =>
            let p := pinfo.tri_patchAt ((t : Int))
            let patch := pinfo.patchAt p
            let cell_above := cellAt cinfo patch.cell_above
            let cell_below := cellAt cinfo patch.cell_below
            if cell_above.flag ^^ cell_below.flag then
              let flip := cell_above.flag
              let f := faceAt tm ((t : Int))
              if flip then out_tris ++ [flip_tri f] else out_tris ++ [f]
            else out_tris) [] (List.range tm.length) =
        List.foldl
          (fun out_tris t =>
            if ((cellAt cinfo (pinfo.patchAt (pinfo.tri_patchAt ((t : Int)))).cell_above).flag
                != (cellAt cinfo
                  (pinfo.patchAt (pinfo.tri_patchAt ((t : Int)))).cell_below).flag) then
              out_tris ++
                [if (cellAt cinfo
                    (pinfo.patchAt (pinfo.tri_patchAt ((t : Int)))).cell_above).flag
                 then flip_tri (faceAt tm ((t : Int)))
                 else faceAt tm ((t : Int))]
            else out_tris) [] (List.range tm.length) := by
      refine List.foldl_ext _ _ [] (fun out t _ => ?_)
      rcases hA : (cellAt cinfo (pinfo.patchAt (pinfo.tri_patchAt ((t : Int)))).cell_above).flag
        with _ | _ <;>
        rcases hB : (cellAt cinfo
            (pinfo.patchAt (pinfo.tri_patchAt ((t : Int)))).cell_below).flag
          with _ | _ <;>
        simp [hA, hB]
    rw [hext, foldl_guard_append _ _ _ ([] : Mesh), List.nil_append]
  · intro f hf
    obtain ⟨a, b, c, hv⟩ := List.length_eq_three.mp hf
    simp [flip_tri, Face.vtx, hv, List.rotate]
  · intro f hf
    obtain ⟨a, b, c, hv⟩ := List.length_eq_three.mp hf
    simp [flip_tri, Face.eo, hv]

/-- Witness for C4 on a concrete one-triangle mesh whose patch separates a
kept cell below from a discarded cell above. -/
theorem extract_from_flag_diffs_spec_witness :
    (extract_from_flag_diffs
        [⟨[⟨0, 0, default, default⟩, ⟨1, 1, default, default⟩, ⟨2, 2, default, default⟩], 0,
          [0, 1, 2]⟩]
        ⟨[⟨[0], 1, 0⟩], [0], []⟩
        [⟨[0], [0], true, false⟩, ⟨[0], [-1], true, true⟩] =
      ((List.range 1).filter (fun t =>
        (cellAt [⟨[0], [0], true, false⟩, ⟨[0], [-1], true, true⟩]
          ((⟨[⟨[0], 1, 0⟩], [0], []⟩ : PatchesInfo).patchAt
            ((⟨[⟨[0], 1, 0⟩], [0], []⟩ : PatchesInfo).tri_patchAt ((t : Int)))).cell_above).flag
          != (cellAt [⟨[0], [0], true, false⟩, ⟨[0], [-1], true, true⟩]
          ((⟨[⟨[0], 1, 0⟩], [0], []⟩ : PatchesInfo).patchAt
            ((⟨[⟨[0], 1, 0⟩], [0], []⟩ : PatchesInfo).tri_patchAt
              ((t : Int)))).cell_below).flag)).map
        (fun t =>
          if (cellAt [⟨[0], [0], true, false⟩, ⟨[0], [-1], true, true⟩]
            ((⟨[⟨[0], 1, 0⟩], [0], []⟩ : PatchesInfo).patchAt
              ((⟨[⟨[0], 1, 0⟩], [0], []⟩ : PatchesInfo).tri_patchAt
                ((t : Int)))).cell_above).flag
          then flip_tri (faceAt
            [⟨[⟨0, 0, default, default⟩, ⟨1, 1, default, default⟩, ⟨2, 2, default, default⟩], 0,
              [0, 1, 2]⟩] ((t : Int)))
          else faceAt
            [⟨[⟨0, 0, default, default⟩, ⟨1, 1, default, default⟩, ⟨2, 2, default, default⟩], 0,
              [0, 1, 2]⟩] ((t : Int)))) ∧
    (flip_tri ⟨[⟨0, 0, default, default⟩, ⟨1, 1, default, default⟩, ⟨2, 2, default, default⟩], 0,
        [0, 1, 2]⟩).vert =
      (⟨[⟨0, 0, default, default⟩, ⟨1, 1, default, default⟩, ⟨2, 2, default, default⟩], 0,
        [0, 1, 2]⟩ : Face).vert.reverse.rotate 2 ∧
    (flip_tri ⟨[⟨0, 0, default, default⟩, ⟨1, 1, default, default⟩, ⟨2, 2, default, default⟩], 0,
        [0, 1, 2]⟩).edge_orig =
      (⟨[⟨0, 0, default, default⟩, ⟨1, 1, default, default⟩, ⟨2, 2, default, default⟩], 0,
        [0, 1, 2]⟩ : Face).edge_orig.reverse :=
  ⟨(extract_from_flag_diffs_spec
      [⟨[⟨0, 0, default, default⟩, ⟨1, 1, default, default⟩, ⟨2, 2, default, default⟩], 0,
        [0, 1, 2]⟩]
      ⟨[⟨[0], 1, 0⟩], [0], []⟩
      [⟨[0], [0], true, false⟩, ⟨[0], [-1], true, true⟩]).1,
   (extract_from_flag_diffs_spec
      [⟨[⟨0, 0, default, default⟩, ⟨1, 1, default, default⟩, ⟨2, 2, default, default⟩], 0,
        [0, 1, 2]⟩]
      ⟨[⟨[0], 1, 0⟩], [0], []⟩
      [⟨[0], [0], true, false⟩, ⟨[0], [-1], true, true⟩]).2.1
     ⟨[⟨0, 0, default, default⟩, ⟨1, 1, default, default⟩, ⟨2, 2, default, default⟩], 0,
        [0, 1, 2]⟩ (by decide),
   (extract_from_flag_diffs_spec
      [⟨[⟨0, 0, default, default⟩, ⟨1, 1, default, default⟩, ⟨2, 2, default, default⟩], 0,
        [0, 1, 2]⟩]
      ⟨[⟨[0], 1, 0⟩], [0], []⟩
      [⟨[0], [0], true, false⟩, ⟨[0], [-1], true, true⟩]).2.2
     ⟨[⟨0, 0, default, default⟩, ⟨1, 1, default, default⟩, ⟨2, 2, default, default⟩], 0,
        [0, 1, 2]⟩ (by decide)⟩

/-! ## C5: the radial sort merge structure -/

lemma insertSorted_perm (x : Int) (l : List Int) : List.Perm (insertSorted x l) (x :: l) := by
  induction l with
  | nil => simp [insertSorted]
  | cons y rest ih =>
    rw [insertSorted]
    by_cases h : x ≤ y
    · rw [if_pos h]
    · rw [if_neg h]
      exact (ih.cons y).trans (List.Perm.swap x y rest)

lemma insertSorted_sorted (x : Int) (l : List Int) (h : l.Sorted (fun a b => a ≤ b)) :
    (insertSorted x l).Sorted (fun a b => a ≤ b) := by
  induction l with
  | nil => simp [insertSorted]
  | cons y rest ih =>
    rw [insertSorted]
    rw [List.sorted_cons] at h
    obtain ⟨hy, hrest⟩ := h
    by_cases hxy : x ≤ y
    · rw [if_pos hxy, List.sorted_cons]
      refine ⟨fun b hb => ?_, List.sorted_cons.mpr ⟨hy, hrest⟩⟩
      rcases List.mem_cons.mp hb with rfl | hb
      · exact hxy
      · exact le_trans hxy (hy b hb)
    · rw [if_neg hxy, List.sorted_cons]
      refine ⟨fun b hb => ?_, ih hrest⟩
      have hb2 : b ∈ x :: rest := (insertSorted_perm x rest).subset hb
      rcases List.mem_cons.mp hb2 with rfl | hb2
      · omega
      · exact hy b hb2

lemma sortAsc_perm (l : List Int) : List.Perm (sortAsc l) l := by
  induction l with
  | nil => simp [sortAsc]
  | cons x rest ih =>
    exact (insertSorted_perm x (sortAsc rest)).trans (ih.cons x)

lemma sortAsc_sorted (l : List Int) : (sortAsc l).Sorted (fun a b => a ≤ b) := by
  induction l with
  | nil => simp [sortAsc]
  | cons x rest ih => exact insertSorted_sorted x (sortAsc rest) ih

lemma sortAsc_eq_insertionSort (l : List Int) :
    sortAsc l = List.insertionSort (fun a b => a ≤ b) l := by
  refine List.eq_of_perm_of_sorted ?_ (sortAsc_sorted l) (List.sorted_insertionSort _ l)
  exact (sortAsc_perm l).trans (List.perm_insertionSort _ l).symm

lemma sort_by_signed_eq_spec (g : List Int) (e : Edge) (tm : Mesh) :
    sort_by_signed_triangle_index g e tm = signed_sort_spec tm e g := by
  rw [sort_by_signed_triangle_index, signed_sort_spec, sortAsc_eq_insertionSort]
  rfl

/-- The conditional signed sort of the source (skip when the group has at
most one element) agrees with the unconditional spec-side signed sort as
long as the indices are non-negative. -/
lemma signed_sort_cond_eq (g : List Int) (e : Edge) (tm : Mesh) (hpos : ∀ x ∈ g, 0 ≤ x) :
    (if 1 < g.length then sort_by_signed_triangle_index g e tm else g) =
      signed_sort_spec tm e g := by
  by_cases h : 1 < g.length
  · rw [if_pos h, sort_by_signed_eq_spec]
  · rw [if_neg h]
    match g, h with
    | [], _ => rfl
    | [x], _ =>
      have hx : (0 : Int) ≤ x := hpos x (by simp)
      simp only [signed_sort_spec, List.map_cons, List.map_nil, List.insertionSort,
        List.orderedInsert]
      rw [signed_index]
      by_cases hrev : (find_flap_vert (faceAt tm x) e).2 = true
      · rw [if_pos hrev]
        simp [abs_of_nonneg hx]
      · rw [if_neg hrev]
        simp [abs_of_nonneg hx]
    | x :: y :: rest, h => exact absurd (by simp only [List.length_cons]; omega) h

/-- Fuel irrelevance: any fuel at least the list length computes the same
radial sort. -/
lemma sort_fueled_irrel (tm : Mesh) (e : Edge) (extra_tri : Option Face) :
    ∀ (f1 : Nat) (f2 : Nat) (tris : List Int) (t0 : Int),
      tris.length ≤ f1 → tris.length ≤ f2 →
      sort_tris_around_edge_fueled tm e extra_tri f1 tris t0 =
        sort_tris_around_edge_fueled tm e extra_tri f2 tris t0 := by
  intro f1
  induction f1 with
  | zero =>
    intro f2 tris t0 h1 h2
    have : tris = [] := List.length_eq_zero.mp (Nat.le_zero.mp h1)
    subst this
    cases f2 with
    | zero => rfl
    | succ b => rfl
  | succ a ih =>
    intro f2 tris t0 h1 h2
    cases tris with
    | nil =>
      cases f2 with
      | zero => rfl
      | succ b => rfl
    | cons tfirst rest =>
      cases f2 with
      | zero => exact absurd h2 (by simp)
      | succ b =>
        simp only [List.length_cons] at h1 h2
        simp only [sort_tris_around_edge_fueled]
        have hlt3 : (rest.filter fun t =>
            sort_tris_class (tri_of tm extra_tri t) (faceAt tm t0) e = 3).length ≤ rest.length :=
          List.length_filter_le _ _
        have hlt4 : (rest.filter fun t =>
            sort_tris_class (tri_of tm extra_tri t) (faceAt tm t0) e = 4).length ≤ rest.length :=
          List.length_filter_le _ _
        rw [ih b _ _ (by omega) (by omega), ih b _ _ (by omega) (by omega)]

/-- The conditional recursive sort of the source (skip when the group has
at most one element) agrees with the unconditional spec-side recursive
sort. -/
lemma sort_cond_eq (tm : Mesh) (e : Edge) (extra_tri : Option Face) (g : List Int) (f : Nat)
    (hf : g.length ≤ f) :
    (if 1 < g.length then sort_tris_around_edge_fueled tm e extra_tri f g (g.headD 0) else g) =
      sort_tris_around_edge tm e g (g.headD 0) extra_tri := by
  by_cases h : 1 < g.length
  · rw [if_pos h, sort_tris_around_edge]
    exact sort_fueled_irrel tm e extra_tri f g.length g (g.headD 0) hf le_rfl
  · rw [if_neg h]
    match g, h with
    | [], _ => rfl
    | [x], _ =>
      rw [sort_tris_around_edge]
      simp [sort_tris_around_edge_fueled]
    | x :: y :: rest, h => exact absurd (by simp only [List.length_cons]; omega) h

/-- C5: for every edge e and non-empty span of triangles (with
non-negative indices) all containing e, sort_tris_around_edge returns
the concatenation G1 ++ G4 ++ G2 ++ G3 when the pivot t0 is the first
element of the span, and G3 ++ G1 ++ G4 ++ G2 otherwise, where the
coplanar groups G1 (pivot first) and G2 are sorted ascending by signed
triangle index (+idx for canonical orientation of e, -idx otherwise,
magnitudes taken after sorting) and G3, G4 are recursively radially
sorted with their first element as pivot — exactly radial_sort_spec. -/
theorem sort_tris_around_edge_correct (tm : Mesh) (e : Edge) (tris : List Int) (t0 : Int)
    (extra_tri : Option Face) (hne : tris ≠ []) (hpos : ∀ t ∈ tris, 0 ≤ t) :
    sort_tris_around_edge tm e tris t0 extra_tri = radial_sort_spec tm e extra_tri tris t0 := by
  obtain ⟨tfirst, rest, rfl⟩ : ∃ a l, tris = a :: l := by
    cases tris with
    | nil => exact absurd rfl hne
    | cons a l => exact ⟨a, l, rfl⟩
  have hposg1 : ∀ x ∈ tfirst ::
      (rest.filter fun t => sort_tris_class (tri_of tm extra_tri t) (faceAt tm t0) e = 1), 0 ≤ x := by
    intro x hx
    rcases List.mem_cons.mp hx with rfl | hx
    · exact hpos x (by simp)
    · exact hpos x (List.mem_cons_of_mem _ (List.mem_of_mem_filter hx))
  have hposg2 : ∀ x ∈
      (rest.filter fun t => sort_tris_class (tri_of tm extra_tri t) (faceAt tm t0) e = 2), 0 ≤ x :=
    fun x hx => hpos x (List.mem_cons_of_mem _ (List.mem_of_mem_filter hx))
  show sort_tris_around_edge_fueled tm e extra_tri (rest.length + 1) (tfirst :: rest) t0 = _
  simp only [sort_tris_around_edge_fueled]
  rw [signed_sort_cond_eq _ _ _ hposg1, signed_sort_cond_eq _ _ _ hposg2,
    sort_cond_eq _ _ _ _ _ (le_trans (List.length_filter_le _ _) le_rfl),
    sort_cond_eq _ _ _ _ _ (le_trans (List.length_filter_le _ _) le_rfl)]
  rw [radial_sort_spec]
  simp only [List.headD_cons, List.tail_cons, radial_group]

/-- Witness for C5 on the concrete two-triangle sample mesh. -/
theorem sort_tris_around_edge_correct_witness :
    sort_tris_around_edge sampleTm sampleEdge [0, 1] 0 none =
      radial_sort_spec sampleTm sampleEdge none [0, 1] 0 :=
  sort_tris_around_edge_correct sampleTm sampleEdge [0, 1] 0 none (by decide) (by decide)

/-! ## C2: the ambient cell finder -/

/-- C2 (amended): find_ambient_cell always returns the cell_above of the
patch of the triangle cyclically preceding the synthetic extra triangle
in the radial sort; the comparison with the next neighbour's cell_above
is only a debug assertion, and NO_INDEX is not returned when the two
disagree. -/
theorem find_ambient_cell_prev (tm : Mesh) (tmtopo : TriMeshTopology) (pinfo : PatchesInfo)
    (aid : Int) (hmem : EXTRA_TRI_INDEX ∈ ambient_sorted tm tmtopo aid) :
    find_ambient_cell tm tmtopo pinfo aid =
      (pinfo.patchAt (pinfo.tri_patchAt
        (cyclic_prev (ambient_sorted tm tmtopo aid) EXTRA_TRI_INDEX))).cell_above := by
  rw [find_ambient_cell, cyclic_prev]
  have hn : 0 < (ambient_sorted tm tmtopo aid).length :=
    List.length_pos.mpr (List.ne_nil_of_mem hmem)
  have hidx : (ambient_sorted tm tmtopo aid).indexOf EXTRA_TRI_INDEX <
      (ambient_sorted tm tmtopo aid).length :=
    List.indexOf_lt_length.mpr hmem
  by_cases h0 : (ambient_sorted tm tmtopo aid).indexOf EXTRA_TRI_INDEX = 0
  · rw [if_pos h0, h0]
    have : (0 + (ambient_sorted tm tmtopo aid).length - 1) % (ambient_sorted tm tmtopo aid).length
        = (ambient_sorted tm tmtopo aid).length - 1 := by
      rw [Nat.zero_add]
      exact Nat.mod_eq_of_lt (by omega)
    rw [this]
  · rw [if_neg h0]
    have heq : (ambient_sorted tm tmtopo aid).indexOf EXTRA_TRI_INDEX +
        (ambient_sorted tm tmtopo aid).length - 1 =
        (ambient_sorted tm tmtopo aid).length +
          ((ambient_sorted tm tmtopo aid).indexOf EXTRA_TRI_INDEX - 1) := by
      omega
    rw [heq, Nat.add_mod_left, Nat.mod_eq_of_lt (by omega)]

/-- Witness for C2's amended statement on the concrete sample mesh. -/
theorem find_ambient_cell_prev_witness :
    find_ambient_cell sampleTm (trimesh_topology sampleTm) samplePinfo 100 =
      (samplePinfo.patchAt (samplePinfo.tri_patchAt
        (cyclic_prev (ambient_sorted sampleTm (trimesh_topology sampleTm) 100)
          EXTRA_TRI_INDEX))).cell_above :=
  find_ambient_cell_prev sampleTm (trimesh_topology sampleTm) samplePinfo 100 (by decide)

/-- Counterexample for C2 as stated: on the concrete sample mesh the
radial sort is [0, 1, EXTRA_TRI_INDEX], so the synthetic triangle sits
between triangle 1 (patch with cell_above = 9) and triangle 0 (patch
with cell_above = 7); the claim demands NO_INDEX, but find_ambient_cell
returns 9. -/
theorem find_ambient_cell_no_index_counterexample :
    ambient_sorted sampleTm (trimesh_topology sampleTm) 100 = [0, 1, EXTRA_TRI_INDEX] ∧
    cyclic_prev (ambient_sorted sampleTm (trimesh_topology sampleTm) 100) EXTRA_TRI_INDEX = 1 ∧
    cyclic_next (ambient_sorted sampleTm (trimesh_topology sampleTm) 100) EXTRA_TRI_INDEX = 0 ∧
    (samplePinfo.patchAt (samplePinfo.tri_patchAt 1)).cell_above = 9 ∧
    (samplePinfo.patchAt (samplePinfo.tri_patchAt 0)).cell_above = 7 ∧
    (9 : Int) ≠ 7 ∧
    find_ambient_cell sampleTm (trimesh_topology sampleTm) samplePinfo 100 = 9 ∧
    find_ambient_cell sampleTm (trimesh_topology sampleTm) samplePinfo 100 ≠ NO_INDEX := by
  decide

/-! ## C7, C10: boolean_trimesh early returns -/

/-- C7: boolean_trimesh returns tm_in unchanged when tm_in has zero faces
(for every operator, nshapes, shape function and collaborators), and
returns the intersected mesh unchanged when op == BOOLEAN_NONE. -/
theorem boolean_trimesh_empty_and_none (tm_in : Mesh) (op nshapes : Int)
    (shape_fn : Int → Int) (use_self : Bool) (self_fn : Mesh → Mesh)
    (nary_fn : Mesh → Int → (Int → Int) → Bool → Mesh) (aid : Int) :
    (tm_in = [] →
      boolean_trimesh tm_in op nshapes shape_fn use_self self_fn nary_fn aid = tm_in) ∧
    (tm_in ≠ [] →
      boolean_trimesh tm_in BOOLEAN_NONE nshapes shape_fn use_self self_fn nary_fn aid =
        (if use_self then self_fn tm_in else nary_fn tm_in nshapes shape_fn use_self)) := by
  constructor
  · intro h
    subst h
    rfl
  · intro h
    rw [boolean_trimesh]
    rw [if_neg (by simpa [List.length_eq_zero] using h)]
    rw [if_pos (Or.inr rfl)]

/-- Witness for C7 with concrete operands and identity collaborators. -/
theorem boolean_trimesh_empty_and_none_witness :
    boolean_trimesh [] BOOLEAN_UNION 2 (fun _ => 0) false idSelf idNary 0 = ([] : Mesh) ∧
    boolean_trimesh sampleTm BOOLEAN_NONE 2 (fun _ => 0) false idSelf idNary 0 =
      (if false then idSelf sampleTm else idNary sampleTm 2 (fun _ => 0) false) :=
  ⟨(boolean_trimesh_empty_and_none [] BOOLEAN_UNION 2 (fun _ => 0) false idSelf idNary 0).1 rfl,
   (boolean_trimesh_empty_and_none sampleTm BOOLEAN_NONE 2 (fun _ => 0) false idSelf
      idNary 0).2 (by decide)⟩

/-- C10: when the intersection collaborator yields a mesh with zero
faces, boolean_trimesh returns that empty mesh for every operator,
without entering the topological phase. -/
theorem boolean_trimesh_empty_intersection (tm_in : Mesh) (op nshapes : Int)
    (shape_fn : Int → Int) (use_self : Bool) (self_fn : Mesh → Mesh)
    (nary_fn : Mesh → Int → (Int → Int) → Bool → Mesh) (aid : Int)
    (hne : tm_in ≠ [])
    (hsi : (if use_self then self_fn tm_in else nary_fn tm_in nshapes shape_fn use_self) = []) :
    boolean_trimesh tm_in op nshapes shape_fn use_self self_fn nary_fn aid = [] := by
  rw [boolean_trimesh]
  rw [if_neg (by simpa [List.length_eq_zero] using hne)]
  rw [hsi]
  simp

/-- Witness for C10: a non-empty input whose nary intersection is empty,
under the Union operator. -/
theorem boolean_trimesh_empty_intersection_witness :
    boolean_trimesh sampleTm BOOLEAN_UNION 2 (fun _ => 0) false idSelf emptyNary 0 = [] :=
  boolean_trimesh_empty_intersection sampleTm BOOLEAN_UNION 2 (fun _ => 0) false idSelf
    emptyNary 0 (by decide) rfl

/-! ## C9: the gather-loop guard equivalence -/

lemma merge_tris_for_face_nil (tm pm_in : Mesh) : merge_tris_for_face [] tm pm_in = [] := rfl

lemma set_getD_self (l : List α) (i : Nat) (d : α) : l.set i (l.getD i d) = l := by
  induction l generalizing i with
  | nil => simp
  | cons a t ih =>
    cases i with
    | zero => simp
    | succ j =>
      simp only [List.set_cons_succ, List.getD_cons_succ]
      rw [ih j]

lemma listModifyI_length (l : List α) (i : Int) (f : α → α) :
    (listModifyI l i f).length = l.length := by
  rw [listModifyI]
  by_cases h : 0 ≤ i
  · rw [if_pos h, listModifyNat_length]
  · rw [if_neg h]

lemma listSetI_empty_self (acc : List (List Face)) (i : Nat) (h : acc.getD i [] = []) :
    listSetI acc (i : Int) [] = acc := by
  rw [listSetI]
  by_cases hin : 0 ≤ (i : Int) ∧ (i : Int) < acc.length
  · rw [if_pos hin]
    have : ((i : Int)).toNat = i := Int.toNat_ofNat i
    rw [this, ← h, set_getD_self]
  · rw [if_neg hin]

lemma getD_listSetI_ne (acc : List (List Face)) (i j : Nat) (x : List Face) (h : j ≠ i) :
    (listSetI acc (i : Int) x).getD j [] = acc.getD j [] := by
  rw [listSetI]
  by_cases hin : 0 ≤ (i : Int) ∧ (i : Int) < acc.length
  · rw [if_pos hin]
    have hi : ((i : Int)).toNat = i := Int.toNat_ofNat i
    rw [hi]
    exact getD_set_ne acc i j x [] (fun hh => h hh.symm)
  · rw [if_neg hin]

lemma foldl_modifyI_length {β : Type} (idx : Nat → Int) (g : Nat → β → β) :
    ∀ (l : List Nat) (init : List β),
    (l.foldl (fun acc t => listModifyI acc (idx t) (g t)) init).length = init.length := by
  intro l
  induction l with
  | nil => intro init; rfl
  | cons a t ih =>
    intro init
    simp only [List.foldl_cons]
    rw [ih, listModifyI_length]

lemma getD_replicate_nil (n i : Nat) : (List.replicate n ([] : List Face)).getD i [] = [] := by
  induction n generalizing i with
  | zero => simp
  | succ m ih =>
    cases i with
    | zero => simp
    | succ j => simpa using ih j

lemma gather_fold_eq (tris_of : Nat → List Int) (tm pm_in : Mesh) :
    ∀ (l : List Nat) (acc : List (List Face)),
    (∀ i ∈ l, tris_of i = [] → acc.getD i [] = []) →
    l.foldl (fun (acc : List (List Face)) (i : Nat) =>
      listSetI acc (i : Int) (merge_tris_for_face (tris_of i) tm pm_in)) acc =
    l.foldl (fun (acc : List (List Face)) (i : Nat) => if (tris_of i).length = 0 then acc
      else listSetI acc (i : Int) (merge_tris_for_face (tris_of i) tm pm_in)) acc := by
  intro l
  induction l with
  | nil => intro acc _; rfl
  | cons i l' ih =>
    intro acc hyp
    simp only [List.foldl_cons]
    by_cases h : (tris_of i).length = 0
    · have hnil : tris_of i = [] := List.length_eq_zero.mp h
      rw [if_pos h]
      have hacc : acc.getD i [] = [] := hyp i (List.mem_cons_self i l') hnil
      have hset : listSetI acc (i : Int) (merge_tris_for_face (tris_of i) tm pm_in) = acc := by
        rw [hnil, merge_tris_for_face_nil]
        exact listSetI_empty_self acc i hacc
      rw [hset]
      exact ih acc (fun j hj hjnil => hyp j (List.mem_cons_of_mem i hj) hjnil)
    · rw [if_neg h]
      apply ih
      intro j hj hjnil
      by_cases hij : j = i
      · subst hij
        exact absurd (by rw [hjnil]; rfl) h
      · rw [getD_listSetI_ne acc i j _ hij]
        exact hyp j (List.mem_cons_of_mem i hj) hjnil

/-- C9: replacing the gather-loop guard's value face_output_tris.size()
by the intended per-face count face_output_tris[in_f].size() yields an
identical output mesh: merge_tris_for_face on an empty triangle list
returns an empty face list, so a face without output triangles
contributes nothing under either guard. -/
theorem polymesh_guard_equivalent (tm_out pm_in : Mesh) :
    polymesh_from_trimesh_with_dissolve tm_out pm_in =
      polymesh_from_trimesh_with_dissolve_fixed tm_out pm_in := by
  rw [polymesh_from_trimesh_with_dissolve, polymesh_from_trimesh_with_dissolve_fixed]
  apply congrArg polymesh_finish
  by_cases h0 : pm_in.length = 0
  · rw [h0]
    rfl
  · have hlen : (gather_output_tris tm_out pm_in.length).length = pm_in.length := by
      rw [gather_output_tris]
      have := foldl_modifyI_length (fun t => (faceAt tm_out (t : Int)).orig)
        (fun t l => l ++ [(t : Int)]) (List.range tm_out.length)
        (List.replicate pm_in.length ([] : List Int))
      simpa using this
    have hbody : ∀ (acc : List (List Face)), ∀ i ∈ List.range pm_in.length,
        (if (gather_output_tris tm_out pm_in.length).length = 0 then acc
         else listSetI acc (i : Int) (merge_tris_for_face
           ((gather_output_tris tm_out pm_in.length).getD i []) tm_out pm_in)) =
        listSetI acc (i : Int) (merge_tris_for_face
          ((gather_output_tris tm_out pm_in.length).getD i []) tm_out pm_in) := by
      intro acc i _
      rw [if_neg (by rw [hlen]; exact h0)]
    rw [List.foldl_ext _ _ (List.replicate pm_in.length ([] : List Face)) hbody]
    exact gather_fold_eq (fun i => (gather_output_tris tm_out pm_in.length).getD i []) tm_out
      pm_in (List.range pm_in.length) (List.replicate pm_in.length [])
      (fun i _ _ => getD_replicate_nil pm_in.length i)

/-! ## C8: vertex dissolve -/

lemma listGetI_natCast {α : Type} (l : List α) (i : Nat) (d : α) :
    listGetI l (i : Int) d = l.getD i d := by
  rw [listGetI, if_pos (Int.natCast_nonneg i), Int.toNat_natCast]

lemma listSetI_length {α : Type} (l : List α) (i : Int) (x : α) :
    (listSetI l i x).length = l.length := by
  rw [listSetI]
  by_cases h : 0 ≤ i ∧ i < l.length
  · rw [if_pos h, List.length_set]
  · rw [if_neg h]

lemma getD_setI_self {α : Type} (l : List α) (i : Nat) (x d : α) (h : i < l.length) :
    (listSetI l (i : Int) x).getD i d = x := by
  rw [listSetI, if_pos ⟨Int.natCast_nonneg i, by omega⟩, Int.toNat_natCast]
  exact getD_set_self l i x d h

lemma getD_setI_ne {α : Type} (l : List α) (i j : Nat) (x d : α) (h : j ≠ i) :
    (listSetI l (i : Int) x).getD j d = l.getD j d := by
  rw [listSetI]
  by_cases hin : 0 ≤ (i : Int) ∧ (i : Int) < l.length
  · rw [if_pos hin, Int.toNat_natCast]
    exact getD_set_ne l i j x d (fun hh => h hh.symm)
  · rw [if_neg hin]

lemma appendNonDup_mem_iff {α : Type} [DecidableEq α] (l : List α) (x y : α) :
    y ∈ appendNonDup l x ↔ y ∈ l ∨ y = x := by
  rw [appendNonDup]
  by_cases h : x ∈ l
  · rw [if_pos h]
    constructor
    · exact Or.inl
    · rintro (hy | rfl)
      · exact hy
      · exact h
  · rw [if_neg h]
    simp

lemma appendNonDup_nodup {α : Type} [DecidableEq α] (l : List α) (x : α) (h : l.Nodup) :
    (appendNonDup l x).Nodup := by
  rw [appendNonDup]
  by_cases hx : x ∈ l
  · rw [if_pos hx]
    exact h
  · rw [if_neg hx]
    simpa [List.nodup_append] using ⟨h, hx⟩

lemma foldl_appendNonDup_acc_sub {α : Type} [DecidableEq α] :
    ∀ (vs : List α) (acc : List α) (y : α), y ∈ acc → y ∈ vs.foldl appendNonDup acc := by
  intro vs
  induction vs with
  | nil => intro acc y hy; exact hy
  | cons v t ih =>
    intro acc y hy
    exact ih _ y ((appendNonDup_mem_iff acc v y).mpr (Or.inl hy))

lemma foldl_appendNonDup_mem {α : Type} [DecidableEq α] :
    ∀ (vs : List α) (acc : List α) (v : α), v ∈ vs → v ∈ vs.foldl appendNonDup acc := by
  intro vs
  induction vs with
  | nil => intro acc v hv; simp at hv
  | cons a t ih =>
    intro acc v hv
    rcases List.mem_cons.mp hv with rfl | hv
    · exact foldl_appendNonDup_acc_sub t _ v ((appendNonDup_mem_iff acc v v).mpr (Or.inr rfl))
    · exact ih _ v hv

lemma foldl_appendNonDup_nodup {α : Type} [DecidableEq α] :
    ∀ (vs : List α) (acc : List α), acc.Nodup → (vs.foldl appendNonDup acc).Nodup := by
  intro vs
  induction vs with
  | nil => intro acc h; exact h
  | cons a t ih => intro acc h; exact ih _ (appendNonDup_nodup acc a h)

lemma populate_vert_acc_sub :
    ∀ (pm : Mesh) (acc : List Vert) (y : Vert), y ∈ acc →
      y ∈ pm.foldl (fun verts f => f.vert.foldl (fun verts v => appendNonDup verts v) verts) acc := by
  intro pm
  induction pm with
  | nil => intro acc y hy; exact hy
  | cons f t ih =>
    intro acc y hy
    exact ih _ y (foldl_appendNonDup_acc_sub f.vert acc y hy)

lemma populate_foldl_mem :
    ∀ (pm : Mesh) (acc : List Vert) (f : Face), f ∈ pm → ∀ v ∈ f.vert,
      v ∈ pm.foldl (fun verts f => f.vert.foldl (fun verts v => appendNonDup verts v) verts)
        acc := by
  intro pm
  induction pm with
  | nil => intro acc f hf; simp at hf
  | cons g t ih =>
    intro acc f hf v hv
    simp only [List.foldl_cons]
    rcases List.mem_cons.mp hf with rfl | hf
    · exact populate_vert_acc_sub t _ v (foldl_appendNonDup_mem f.vert acc v hv)
    · exact ih _ f hf v hv

lemma populate_vert_mem (pm : Mesh) (f : Face) (hf : f ∈ pm) (v : Vert) (hv : v ∈ f.vert) :
    v ∈ populate_vert pm := by
  rw [populate_vert]
  exact populate_foldl_mem pm [] f hf v hv

lemma populate_vert_nodup (pm : Mesh) : (populate_vert pm).Nodup := by
  rw [populate_vert]
  suffices h : ∀ (pm : Mesh) (acc : List Vert), acc.Nodup →
      (pm.foldl (fun verts f => f.vert.foldl (fun verts v => appendNonDup verts v) verts)
        acc).Nodup by
    exact h pm [] List.nodup_nil
  intro pm2
  induction pm2 with
  | nil => intro acc h; exact h
  | cons g t ih => intro acc h; exact ih _ (foldl_appendNonDup_nodup g.vert acc h)

lemma lookup_vert_mem (verts : List Vert) (v : Vert) (h : v ∈ verts) :
    lookup_vert verts v = ((verts.indexOf v : Nat) : Int) := by
  rw [lookup_vert, firstIndexOfI]
  have := List.indexOf_lt_length.mpr h
  rw [if_neg (by omega)]

lemma verts_getD_indexOf (verts : List Vert) (v : Vert) (h : v ∈ verts) :
    verts.getD (verts.indexOf v) default = v := by
  have hlt := List.indexOf_lt_length.mpr h
  rw [List.getD_eq_getElem verts default hlt]
  exact List.getElem_indexOf hlt

lemma verts_getD_ne_of_ne_indexOf (verts : List Vert) (hnd : verts.Nodup) (v : Vert)
    (h : v ∈ verts) (vj : Nat) (hj : vj < verts.length) (hne : vj ≠ verts.indexOf v) :
    verts.getD vj default ≠ v := by
  intro heq
  apply hne
  have : verts.getD vj default = verts[vj] := List.getD_eq_getElem verts default hj
  rw [this] at heq
  have := List.indexOf_getElem hnd vj hj
  rw [heq] at this
  omega

lemma foldl_occ {σ : Type} (step : σ → (Face × Nat) → σ) :
    ∀ (pm : Mesh) (init : σ),
    pm.foldl (fun st f => (List.range f.vert.length).foldl (fun st i => step st (f, i)) st) init
      = (occ_list pm).foldl step init := by
  intro pm
  induction pm with
  | nil => intro init; rfl
  | cons f t ih =>
    intro init
    simp only [List.foldl_cons, occ_list, List.flatMap_cons, List.foldl_append, List.foldl_map]
    rw [← occ_list, ih]

lemma pairs_in_append_single (processed : List (Face × Nat)) (oc : Face × Nat) (v : Vert) :
    pairs_in (processed ++ [oc]) v =
      pairs_in processed v ++ (if oc.1.vtx oc.2 = v then [occ_pair oc] else []) := by
  rw [pairs_in, pairs_in, List.filter_append, List.map_append]
  congr 1
  by_cases h : oc.1.vtx oc.2 = v
  · rw [if_pos h]
    simp [List.filter, h]
  · rw [if_neg h]
    simp [List.filter, h]

lemma occ_list_mem (pm : Mesh) (oc : Face × Nat) (h : oc ∈ occ_list pm) :
    oc.1 ∈ pm ∧ oc.2 < oc.1.vert.length := by
  rw [occ_list, List.mem_flatMap] at h
  obtain ⟨f, hf, hoc⟩ := h
  rw [List.mem_map] at hoc
  obtain ⟨i, hi, rfl⟩ := hoc
  exact ⟨hf, by simpa using hi⟩

lemma vtx_mem (f : Face) (i : Nat) (h : i < f.vert.length) : f.vtx i ∈ f.vert := by
  rw [Face.vtx, List.getD_eq_getElem f.vert default h]
  exact List.getElem_mem h

lemma InvAt_frame (verts : List Vert) (processed : List (Face × Nat)) (oc : Face × Nat)
    (st st' : List Bool × List (Option Vert × Option Vert)) (vi : Nat)
    (hpairs : pairs_in (processed ++ [oc]) (verts.getD vi default) =
      pairs_in processed (verts.getD vi default))
    (h1 : st'.1.getD vi false = st.1.getD vi false)
    (h2 : st'.2.getD vi (none, none) = st.2.getD vi (none, none))
    (hinv : InvAt verts processed st vi) : InvAt verts (processed ++ [oc]) st' vi := by
  simp only [InvAt] at hinv ⊢
  rw [hpairs, h1, h2]
  exact hinv

lemma dissolve_step_inv (verts : List Vert) (hnd : verts.Nodup)
    (processed : List (Face × Nat)) (oc : Face × Nat)
    (hvmem : oc.1.vtx oc.2 ∈ verts)
    (st : List Bool × List (Option Vert × Option Vert))
    (hl1 : st.1.length = verts.length) (hl2 : st.2.length = verts.length)
    (hinv : ∀ vi, vi < verts.length → InvAt verts processed st vi) :
    (dissolve_step verts st oc).1.length = verts.length ∧
    (dissolve_step verts st oc).2.length = verts.length ∧
    ∀ vi, vi < verts.length → InvAt verts (processed ++ [oc]) (dissolve_step verts st oc) vi := by
  have hvlt : verts.indexOf (oc.1.vtx oc.2) < verts.length := List.indexOf_lt_length.mpr hvmem
  have hvget : verts.getD (verts.indexOf (oc.1.vtx oc.2)) default = oc.1.vtx oc.2 :=
    verts_getD_indexOf verts _ hvmem
  have hlookup : lookup_vert verts (oc.1.vtx oc.2) =
      ((verts.indexOf (oc.1.vtx oc.2) : Nat) : Int) := lookup_vert_mem verts _ hvmem
  have hframe_pairs : ∀ vi, vi < verts.length → vi ≠ verts.indexOf (oc.1.vtx oc.2) →
      pairs_in (processed ++ [oc]) (verts.getD vi default) =
        pairs_in processed (verts.getD vi default) := by
    intro vi hvi hne
    rw [pairs_in_append_single, if_neg, List.append_nil]
    intro heq
    exact verts_getD_ne_of_ne_indexOf verts hnd _ hvmem vi hvi hne heq.symm
  have hpairs_star : pairs_in (processed ++ [oc]) (oc.1.vtx oc.2) =
      pairs_in processed (oc.1.vtx oc.2) ++ [occ_pair oc] := by
    rw [pairs_in_append_single, if_pos rfl]
  rw [dissolve_step]
  simp only [hlookup, listGetI_natCast]
  by_cases hd : st.1.getD (verts.indexOf (oc.1.vtx oc.2)) false = true
  · rw [if_pos hd]
    rcases hfn : (st.2.getD (verts.indexOf (oc.1.vtx oc.2)) (none, none)).1 with _ | u
    · -- first occurrence of this vertex: record the neighbour pair
      simp only [hfn]
      refine ⟨hl1, (listSetI_length st.2 _ _).trans hl2, ?_⟩
      intro vi hvi
      by_cases hvis : vi = verts.indexOf (oc.1.vtx oc.2)
      · subst hvis
        have holds := hinv _ hvi
        simp only [InvAt] at holds ⊢
        rw [hvget] at holds ⊢
        rw [hpairs_star]
        -- the old pair list must be empty: a recorded pair would contradict hfn
        have hps : pairs_in processed (oc.1.vtx oc.2) = [] := by
          rcases hps : pairs_in processed (oc.1.vtx oc.2) with _ | ⟨q, qs⟩
          · rfl
          · by_cases horig : (oc.1.vtx oc.2).orig = NO_INDEX
            · have h2 := ((holds.2 horig).2 q qs hps).1
              rw [h2] at hfn
              simp at hfn
            · have h2 := (holds.1 horig).1
              rw [h2] at hd
              simp at hd
        rw [hps]
        simp only [List.nil_append]
        constructor
        · intro horig
          have h2 := (holds.1 horig).1
          rw [h2] at hd
          simp at hd
        · intro horig
          constructor
          · intro habs
            simp at habs
          · intro q qs hq
            injection hq with h1 h2
            subst h1
            subst h2
            constructor
            · exact getD_setI_self st.2 _ _ _ (by omega)
            · refine ⟨fun _ pr hpr => ?_, fun _ => hd⟩
              rw [List.mem_singleton] at hpr
              subst hpr
              exact Or.inl ⟨rfl, rfl⟩
      · refine InvAt_frame verts processed oc st _ vi (hframe_pairs vi hvi hvis) rfl ?_
          (hinv vi hvi)
        exact getD_setI_ne _ _ _ _ _ hvis
    · -- a pair was already recorded: keep the flag or invalidate it
      have holds := hinv (verts.indexOf (oc.1.vtx oc.2)) hvlt
      simp only [InvAt] at holds
      rw [hvget] at holds
      have horig : (oc.1.vtx oc.2).orig = NO_INDEX := by
        by_contra horig
        have h2 := (holds.1 horig).1
        rw [h2] at hd
        simp at hd
      obtain ⟨q, qs, hps⟩ : ∃ q qs, pairs_in processed (oc.1.vtx oc.2) = q :: qs := by
        rcases hps : pairs_in processed (oc.1.vtx oc.2) with _ | ⟨q, qs⟩
        · have h2 := ((holds.2 horig).1 hps).2
          rw [h2] at hfn
          simp at hfn
        · exact ⟨q, qs, rfl⟩
      have hq2 := (holds.2 horig).2 q qs hps
      have hfn2 : st.2.getD (verts.indexOf (oc.1.vtx oc.2)) (none, none) =
          (some q.1, some q.2) := hq2.1
      rw [hfn2] at hfn
      simp only [Option.some.injEq] at hfn
      subst hfn
      have hiff := hq2.2
      rw [hps] at hiff
      simp only [hfn2]
      by_cases hC : (some (oc.1.vtx (oc.1.next_pos oc.2)) = some q.2 ∧
          some (oc.1.vtx (oc.1.prev_pos oc.2)) = some q.1) ∨
          (some (oc.1.vtx (oc.1.next_pos oc.2)) = some q.1 ∧
          some (oc.1.vtx (oc.1.prev_pos oc.2)) = some q.2)
      · -- the new occurrence agrees with the recorded pair: state unchanged
        rw [if_neg (not_not_intro hC)]
        have hsame : same_pair (occ_pair oc) q.1 q.2 := by
          rcases hC with ⟨h1, h2⟩ | ⟨h1, h2⟩
          · exact Or.inr ⟨by simpa using h1, by simpa using h2⟩
          · exact Or.inl ⟨by simpa using h1, by simpa using h2⟩
        refine ⟨hl1, hl2, ?_⟩
        intro vi hvi
        by_cases hvis : vi = verts.indexOf (oc.1.vtx oc.2)
        · subst hvis
          simp only [InvAt]
          rw [hvget, hpairs_star, hps]
          refine ⟨fun ho => absurd horig ho, fun _ => ⟨fun habs => by simp at habs, ?_⟩⟩
          intro q2 qs2 hq2m
          rw [List.cons_append] at hq2m
          injection hq2m with h1 h2
          subst h1
          subst h2
          refine ⟨hfn2, ?_⟩
          rw [hiff]
          constructor
          · intro hall pr hpr
            rcases List.mem_append.mp hpr with hpr | hpr
            · exact hall pr hpr
            · rw [List.mem_singleton] at hpr
              subst hpr
              exact hsame
          · intro hall pr hpr
            exact hall pr (List.mem_append_left _ hpr)
        · exact InvAt_frame verts processed oc st _ vi (hframe_pairs vi hvi hvis) rfl rfl
            (hinv vi hvi)
      · -- the new occurrence disagrees: the dissolve flag is cleared
        rw [if_pos hC]
        refine ⟨(listSetI_length st.1 _ _).trans hl1, hl2, ?_⟩
        intro vi hvi
        by_cases hvis : vi = verts.indexOf (oc.1.vtx oc.2)
        · subst hvis
          simp only [InvAt]
          rw [hvget, hpairs_star, hps]
          refine ⟨fun ho => absurd horig ho, fun _ => ⟨fun habs => by simp at habs, ?_⟩⟩
          intro q2 qs2 hq2m
          rw [List.cons_append] at hq2m
          injection hq2m with h1 h2
          subst h1
          subst h2
          refine ⟨hfn2, ?_⟩
          rw [getD_setI_self st.1 (verts.indexOf (oc.1.vtx oc.2)) false false (by omega)]
          refine iff_of_false (by simp) ?_
          intro hall
          apply hC
          have hp := hall (occ_pair oc) (List.mem_append_right _ (List.mem_singleton.mpr rfl))
          simp only [same_pair, occ_pair] at hp
          rcases hp with ⟨h1, h2⟩ | ⟨h1, h2⟩
          · exact Or.inr ⟨congrArg some h1, congrArg some h2⟩
          · exact Or.inl ⟨congrArg some h1, congrArg some h2⟩
        · refine InvAt_frame verts processed oc st _ vi (hframe_pairs vi hvi hvis) ?_ rfl
            (hinv vi hvi)
          exact getD_setI_ne _ _ _ _ _ hvis
  · -- flag already cleared for this vertex: state unchanged
    rw [if_neg hd]
    have hdf : st.1.getD (verts.indexOf (oc.1.vtx oc.2)) false = false := by simpa using hd
    refine ⟨hl1, hl2, ?_⟩
    intro vi hvi
    by_cases hvis : vi = verts.indexOf (oc.1.vtx oc.2)
    · subst hvis
      have holds := hinv _ hvi
      simp only [InvAt] at holds ⊢
      rw [hvget] at holds ⊢
      rw [hpairs_star]
      refine ⟨holds.1, fun horig => ?_⟩
      obtain ⟨q, qs, hps⟩ : ∃ q qs, pairs_in processed (oc.1.vtx oc.2) = q :: qs := by
        rcases hps : pairs_in processed (oc.1.vtx oc.2) with _ | ⟨q, qs⟩
        · have h2 := ((holds.2 horig).1 hps).1
          rw [h2] at hdf
          simp at hdf
        · exact ⟨q, qs, rfl⟩
      have hq2 := (holds.2 horig).2 q qs hps
      have hiff := hq2.2
      rw [hps] at hiff
      rw [hps]
      refine ⟨fun habs => by simp at habs, ?_⟩
      intro q2 qs2 hq2m
      rw [List.cons_append] at hq2m
      injection hq2m with h1 h2
      subst h1
      subst h2
      refine ⟨hq2.1, ?_⟩
      rw [hdf]
      refine iff_of_false (by simp) ?_
      intro hall
      have htrue := hiff.mpr (fun pr hpr => hall pr (List.mem_append_left _ hpr))
      rw [hdf] at htrue
      simp at htrue
    · exact InvAt_frame verts processed oc st _ vi (hframe_pairs vi hvi hvis) rfl rfl
        (hinv vi hvi)

lemma dissolve_fold_inv (verts : List Vert) (hnd : verts.Nodup) :
    ∀ (occs processed : List (Face × Nat)) (st : List Bool × List (Option Vert × Option Vert)),
    (∀ oc ∈ occs, oc.1.vtx oc.2 ∈ verts) →
    st.1.length = verts.length → st.2.length = verts.length →
    (∀ vi, vi < verts.length → InvAt verts processed st vi) →
    (occs.foldl (dissolve_step verts) st).1.length = verts.length ∧
    (occs.foldl (dissolve_step verts) st).2.length = verts.length ∧
    ∀ vi, vi < verts.length →
      InvAt verts (processed ++ occs) (occs.foldl (dissolve_step verts) st) vi := by
  intro occs
  induction occs with
  | nil =>
    intro processed st _ h1 h2 hinv
    simp only [List.foldl_nil, List.append_nil]
    exact ⟨h1, h2, hinv⟩
  | cons oc occs ih =>
    intro processed st hmem h1 h2 hinv
    have hstep := dissolve_step_inv verts hnd processed oc (hmem oc (List.mem_cons_self _ _))
      st h1 h2 hinv
    have hrest := ih (processed ++ [oc]) (dissolve_step verts st oc)
      (fun oc2 hoc2 => hmem oc2 (List.mem_cons_of_mem _ hoc2)) hstep.1 hstep.2.1 hstep.2.2
    simp only [List.foldl_cons]
    rw [List.append_cons]
    exact hrest

lemma getD_replicate {α : Type} : ∀ (n i : Nat) (a : α), (List.replicate n a).getD i a = a := by
  intro n
  induction n with
  | zero => intro i a; cases i <;> rfl
  | succ n ih =>
    intro i a
    cases i with
    | zero => rfl
    | succ j =>
      rw [List.replicate_succ, List.getD_cons_succ]
      exact ih j a

lemma InvAt_init (verts : List Vert) (vi : Nat) (hvi : vi < verts.length) :
    InvAt verts []
      (verts.map (fun v => decide (v.orig = NO_INDEX)),
       List.replicate verts.length ((none, none) : Option Vert × Option Vert)) vi := by
  simp only [InvAt]
  have hflag : (verts.map (fun v => decide (v.orig = NO_INDEX))).getD vi false =
      decide ((verts.getD vi default).orig = NO_INDEX) := by
    rw [List.getD_eq_getElem _ _ (by rw [List.length_map]; exact hvi), List.getElem_map,
        List.getD_eq_getElem _ _ hvi]
  have hnbr : (List.replicate verts.length
      ((none, none) : Option Vert × Option Vert)).getD vi (none, none) = (none, none) :=
    getD_replicate _ _ _
  rw [hflag, hnbr]
  constructor
  · intro horig
    exact ⟨decide_eq_false horig, rfl⟩
  · intro horig
    refine ⟨fun _ => ⟨decide_eq_true horig, rfl⟩,
      fun q qs hq => absurd hq (by simp [pairs_in])⟩

lemma foldl_appendNonDup_src {α : Type} [DecidableEq α] :
    ∀ (vs : List α) (acc : List α) (y : α), y ∈ vs.foldl appendNonDup acc →
      y ∈ acc ∨ y ∈ vs := by
  intro vs
  induction vs with
  | nil => intro acc y h; exact Or.inl h
  | cons a t ih =>
    intro acc y h
    rw [List.foldl_cons] at h
    rcases ih _ y h with h2 | h2
    · rcases (appendNonDup_mem_iff acc a y).mp h2 with h3 | h3
      · exact Or.inl h3
      · exact Or.inr (h3 ▸ List.mem_cons_self _ _)
    · exact Or.inr (List.mem_cons_of_mem _ h2)

lemma populate_src :
    ∀ (pm : Mesh) (acc : List Vert) (y : Vert),
    y ∈ pm.foldl (fun verts f => f.vert.foldl (fun verts v => appendNonDup verts v) verts) acc →
    y ∈ acc ∨ ∃ f, f ∈ pm ∧ y ∈ f.vert := by
  intro pm
  induction pm with
  | nil => intro acc y h; exact Or.inl h
  | cons f t ih =>
    intro acc y h
    rw [List.foldl_cons] at h
    rcases ih _ y h with hacc | ⟨g, hg, hyg⟩
    · rcases foldl_appendNonDup_src f.vert acc y hacc with h2 | h2
      · exact Or.inl h2
      · exact Or.inr ⟨f, List.mem_cons_self _ _, h2⟩
    · exact Or.inr ⟨g, List.mem_cons_of_mem _ hg, hyg⟩

lemma pairs_of_ne_nil (pm : Mesh) (v : Vert) (hv : v ∈ populate_vert pm) :
    pairs_of pm v ≠ [] := by
  rw [populate_vert] at hv
  rcases populate_src pm [] v hv with h | ⟨f, hf, hvf⟩
  · simp at h
  · obtain ⟨i, hi, hvi⟩ := List.mem_iff_getElem.mp hvf
    have hocc : (f, i) ∈ occ_list pm := by
      rw [occ_list, List.mem_flatMap]
      exact ⟨f, hf, List.mem_map.mpr ⟨i, List.mem_range.mpr hi, rfl⟩⟩
    have hfil : (f, i) ∈ (occ_list pm).filter (fun oc => oc.1.vtx oc.2 = v) := by
      rw [List.mem_filter]
      refine ⟨hocc, ?_⟩
      simp only [Face.vtx, decide_eq_true_eq]
      rw [List.getD_eq_getElem _ _ hi]
      exact hvi
    exact List.ne_nil_of_mem (List.mem_map_of_mem occ_pair hfil)

lemma dissolve_finalize_spec (verts : List Vert)
    (neighbors : List (Option Vert × Option Vert))
    (dc : List Bool × Nat) (v_out : Nat) (hlt : v_out < dc.1.length) :
    (dissolve_finalize verts neighbors dc v_out).1.length = dc.1.length ∧
    (dissolve_finalize verts neighbors dc v_out).1.getD v_out false =
      dissolve_final_at verts neighbors (dc.1.getD v_out false) v_out ∧
    ∀ vi, vi ≠ v_out →
      (dissolve_finalize verts neighbors dc v_out).1.getD vi false =
        dc.1.getD vi false := by
  rw [dissolve_finalize, dissolve_final_at]
  simp only [listGetI_natCast]
  by_cases hb : dc.1.getD v_out false = true
  · rw [if_pos hb, if_pos hb]
    rcases hn1 : (neighbors.getD v_out (none, none)).1 with _ | u <;>
      rcases hn2 : (neighbors.getD v_out (none, none)).2 with _ | w <;>
      simp only [hn1, hn2]
    · exact ⟨listSetI_length _ _ _, getD_setI_self _ _ _ _ hlt,
        fun vi hvi => getD_setI_ne _ _ _ _ _ hvi⟩
    · exact ⟨listSetI_length _ _ _, getD_setI_self _ _ _ _ hlt,
        fun vi hvi => getD_setI_ne _ _ _ _ _ hvi⟩
    · exact ⟨listSetI_length _ _ _, getD_setI_self _ _ _ _ hlt,
        fun vi hvi => getD_setI_ne _ _ _ _ _ hvi⟩
    · by_cases hcz : MQ.eqv (Vec3.cross (((verts.getD v_out default).co_exact).sub u.co_exact)
          (w.co_exact.sub ((verts.getD v_out default).co_exact))).x 0 = true ∧
          MQ.eqv (Vec3.cross (((verts.getD v_out default).co_exact).sub u.co_exact)
          (w.co_exact.sub ((verts.getD v_out default).co_exact))).y 0 = true ∧
          MQ.eqv (Vec3.cross (((verts.getD v_out default).co_exact).sub u.co_exact)
          (w.co_exact.sub ((verts.getD v_out default).co_exact))).z 0 = true
      · rw [if_pos hcz, if_pos hcz]
        refine ⟨(listSetI_length _ _ _).trans (listSetI_length _ _ _), ?_,
          fun vi hvi => (getD_setI_ne _ _ _ _ _ hvi).trans (getD_setI_ne _ _ _ _ _ hvi)⟩
        exact getD_setI_self _ _ _ _ (by rw [listSetI_length]; exact hlt)
      · rw [if_neg hcz, if_neg hcz]
        exact ⟨listSetI_length _ _ _, getD_setI_self _ _ _ _ hlt,
          fun vi hvi => getD_setI_ne _ _ _ _ _ hvi⟩
  · rw [if_neg hb, if_neg hb]
    exact ⟨rfl, by simpa using hb, fun vi _ => rfl⟩

lemma pass2_fold (verts : List Vert) (neighbors : List (Option Vert × Option Vert)) :
    ∀ (l : List Nat) (dc : List Bool × Nat), l.Nodup → (∀ j ∈ l, j < dc.1.length) →
    (l.foldl (dissolve_finalize verts neighbors) dc).1.length = dc.1.length ∧
    ∀ vi, (l.foldl (dissolve_finalize verts neighbors) dc).1.getD vi false =
      if vi ∈ l then dissolve_final_at verts neighbors (dc.1.getD vi false) vi
      else dc.1.getD vi false := by
  intro l
  induction l with
  | nil =>
    intro dc _ _
    exact ⟨rfl, fun vi => by simp⟩
  | cons j l ih =>
    intro dc hnd hbound
    have hjlt : j < dc.1.length := hbound j (List.mem_cons_self _ _)
    have hspec := dissolve_finalize_spec verts neighbors dc j hjlt
    have hjnot : j ∉ l := (List.nodup_cons.mp hnd).1
    have hbound2 : ∀ i ∈ l, i < (dissolve_finalize verts neighbors dc j).1.length := by
      intro i hi
      rw [hspec.1]
      exact hbound i (List.mem_cons_of_mem _ hi)
    have hih := ih (dissolve_finalize verts neighbors dc j) (List.nodup_cons.mp hnd).2 hbound2
    simp only [List.foldl_cons]
    refine ⟨hih.1.trans hspec.1, ?_⟩
    intro vi
    rw [hih.2 vi]
    by_cases hvij : vi = j
    · subst hvij
      rw [if_neg hjnot, if_pos (List.mem_cons_self _ _), hspec.2.1]
    · by_cases hvil : vi ∈ l
      · rw [if_pos hvil, if_pos (List.mem_cons_of_mem _ hvil), hspec.2.2 vi hvij]
      · have hnmem : vi ∉ j :: l := by
          intro hmem
          rcases List.mem_cons.mp hmem with h | h
          · exact hvij h
          · exact hvil h
        rw [if_neg hvil, if_neg hnmem, hspec.2.2 vi hvij]

lemma MQ.sub_def (a b : MQ) : a - b = ⟨a.num * b.den - b.num * a.den, a.den * b.den⟩ := rfl

lemma MQ.mul_def (a b : MQ) : a * b = ⟨a.num * b.num, a.den * b.den⟩ := rfl

lemma MQ.zero_num : (0 : MQ).num = 0 := rfl

lemma MQ.zero_den : (0 : MQ).den = 1 := rfl

lemma MQ.eqv_zero_iff (a : MQ) : MQ.eqv a 0 = true ↔ a.num = 0 := by
  rw [MQ.eqv]
  simp [MQ.zero_num, MQ.zero_den]

lemma vec_zero_cross_swap (v u w : Vec3) :
    vec_zero (Vec3.cross (v.sub w) (u.sub v)) ↔
      vec_zero (Vec3.cross (v.sub u) (w.sub v)) := by
  simp only [vec_zero, Vec3.cross, Vec3.sub, MQ.sub_def, MQ.mul_def, MQ.eqv_zero_iff]
  constructor
  · rintro ⟨h1, h2, h3⟩
    exact ⟨by linear_combination -h1, by linear_combination -h2, by linear_combination -h3⟩
  · rintro ⟨h1, h2, h3⟩
    exact ⟨by linear_combination -h1, by linear_combination -h2, by linear_combination -h3⟩

lemma zip_filter_map_core {α : Type} : ∀ (l : List α) (g : α → Bool),
    (((l.zip (l.map g)).filter (fun p => ! p.2)).map (fun p => p.1)) =
      l.filter (fun v => ! (g v)) := by
  intro l
  induction l with
  | nil => intro g; rfl
  | cons a t ih =>
    intro g
    simp only [List.map_cons, List.zip_cons_cons, List.filter_cons]
    cases hga : g a <;> simp [hga, ih g]

lemma zip_filter_map {α : Type} (l : List α) (g : α → Bool) :
    (((l.zip (l.map g)).filter (fun p => ¬ p.2)).map (fun p => p.1)) =
      l.filter (fun v => ¬ (g v)) := by
  simpa using zip_filter_map_core l g

lemma dissolve_verts_vert_eq (pm : Mesh) (verts : List Vert) (dissolve : List Bool) :
    (dissolve_verts pm verts dissolve).map Face.vert =
      pm.map (fun f => f.vert.filter
        (fun v => ¬ (listGetI dissolve (lookup_vert verts v) false))) := by
  rw [dissolve_verts, List.map_map]
  apply List.map_congr_left
  intro f _
  simp only [Function.comp_apply]
  by_cases hany : (f.vert.map (fun v => listGetI dissolve (lookup_vert verts v) false)).any
      (fun b => b) = true
  · rw [if_pos hany]
    exact zip_filter_map f.vert _
  · rw [if_neg hany]
    symm
    apply List.filter_eq_self.mpr
    intro v hv
    have hany2 : (f.vert.map (fun v => listGetI dissolve (lookup_vert verts v) false)).any
        (fun b => b) = false := by simpa using hany
    have hfalse := List.any_eq_false.mp hany2
    simp only [decide_eq_true_eq]
    intro htrue
    exact hfalse _ (List.mem_map_of_mem _ hv) htrue

/-- C8: a vertex of the merged polygonal mesh is marked for dissolve iff
its orig is NO_INDEX, it has the same unordered neighbour pair (u, w) at
every occurrence in the faces, and the exact cross product of (v - u) and
(w - v) has all three components zero; dissolve_verts then erases exactly
the marked vertices from every face's vertex sequence. -/
theorem find_dissolve_verts_correct (pm : Mesh) (vi : Nat)
    (hvi : vi < (populate_vert pm).length) :
    (find_dissolve_verts pm).1.length = (populate_vert pm).length ∧
    ((find_dissolve_verts pm).1.getD vi false = true ↔
      ((populate_vert pm).getD vi default).orig = NO_INDEX ∧
      ∃ u w : Vert,
        (∀ pr ∈ pairs_of pm ((populate_vert pm).getD vi default), same_pair pr u w) ∧
        vec_zero (Vec3.cross
          ((((populate_vert pm).getD vi default).co_exact).sub u.co_exact)
          (w.co_exact.sub (((populate_vert pm).getD vi default).co_exact)))) ∧
    (dissolve_verts pm (populate_vert pm) (find_dissolve_verts pm).1).map Face.vert =
      pm.map (fun f => f.vert.filter
        (fun v => ¬ (listGetI (find_dissolve_verts pm).1
          (lookup_vert (populate_vert pm) v) false))) := by
  have hnd := populate_vert_nodup pm
  have hmem_occ : ∀ oc ∈ occ_list pm, oc.1.vtx oc.2 ∈ populate_vert pm := by
    intro oc hoc
    obtain ⟨hf, hi⟩ := occ_list_mem pm oc hoc
    exact populate_vert_mem pm oc.1 hf _ (vtx_mem _ _ hi)
  have hfold := dissolve_fold_inv (populate_vert pm) hnd (occ_list pm) []
    ((populate_vert pm).map (fun v => decide (v.orig = NO_INDEX)),
     List.replicate (populate_vert pm).length ((none, none) : Option Vert × Option Vert))
    hmem_occ (by rw [List.length_map]) (by rw [List.length_replicate])
    (fun vj hj => InvAt_init (populate_vert pm) vj hj)
  simp only [List.nil_append] at hfold
  set st1 := (occ_list pm).foldl (dissolve_step (populate_vert pm))
    ((populate_vert pm).map (fun v => decide (v.orig = NO_INDEX)),
     List.replicate (populate_vert pm).length ((none, none) : Option Vert × Option Vert))
    with hst1
  have hlen1 := hfold.1
  have hfd : find_dissolve_verts pm =
      (List.range (populate_vert pm).length).foldl
        (dissolve_finalize (populate_vert pm) st1.2) (st1.1, 0) := by
    rw [find_dissolve_verts, foldl_occ (dissolve_step (populate_vert pm))]
  have hpass2 := pass2_fold (populate_vert pm) st1.2 (List.range (populate_vert pm).length)
    (st1.1, 0) (List.nodup_range _)
    (by
      intro j hj
      rw [List.mem_range] at hj
      show j < st1.1.length
      omega)
  have hres1 : (find_dissolve_verts pm).1.length = (populate_vert pm).length := by
    rw [hfd, hpass2.1]
    exact hlen1
  refine ⟨hres1, ?_, dissolve_verts_vert_eq pm (populate_vert pm) (find_dissolve_verts pm).1⟩
  have hval : (find_dissolve_verts pm).1.getD vi false =
      dissolve_final_at (populate_vert pm) st1.2 (st1.1.getD vi false) vi := by
    rw [hfd, hpass2.2 vi, if_pos (List.mem_range.mpr hvi)]
  rw [hval]
  have hInv := hfold.2.2 vi hvi
  simp only [InvAt] at hInv
  simp only [pairs_of]
  set v := (populate_vert pm).getD vi default with hv
  have hvmem : v ∈ populate_vert pm := by
    rw [hv, List.getD_eq_getElem _ _ hvi]
    exact List.getElem_mem hvi
  by_cases horig : v.orig = NO_INDEX
  · obtain ⟨q, qs, hps⟩ : ∃ q qs, pairs_in (occ_list pm) v = q :: qs := by
      rcases hps : pairs_in (occ_list pm) v with _ | ⟨q, qs⟩
      · exact absurd hps (pairs_of_ne_nil pm v hvmem)
      · exact ⟨q, qs, rfl⟩
    have hq2 := (hInv.2 horig).2 q qs hps
    rw [dissolve_final_at]
    simp only [hq2.1]
    by_cases hb : st1.1.getD vi false = true
    · rw [if_pos hb]
      by_cases hcz : MQ.eqv (Vec3.cross ((v.co_exact).sub q.1.co_exact)
          (q.2.co_exact.sub v.co_exact)).x 0 = true ∧
          MQ.eqv (Vec3.cross ((v.co_exact).sub q.1.co_exact)
          (q.2.co_exact.sub v.co_exact)).y 0 = true ∧
          MQ.eqv (Vec3.cross ((v.co_exact).sub q.1.co_exact)
          (q.2.co_exact.sub v.co_exact)).z 0 = true
      · rw [if_pos hcz]
        exact iff_of_true rfl ⟨horig, q.1, q.2, fun pr hpr => hq2.2.mp hb pr hpr, hcz⟩
      · rw [if_neg hcz]
        refine iff_of_false (by simp) ?_
        rintro ⟨-, u, w, hall, hv0⟩
        have hqm : same_pair q u w := hall q (by rw [hps]; exact List.mem_cons_self _ _)
        rcases hqm with ⟨h1, h2⟩ | ⟨h1, h2⟩
        · subst h1
          subst h2
          exact hcz hv0
        · subst h1
          subst h2
          exact hcz ((vec_zero_cross_swap v.co_exact q.1.co_exact q.2.co_exact).mp hv0)
    · rw [if_neg hb]
      refine iff_of_false (by simp) ?_
      rintro ⟨-, u, w, hall, hv0⟩
      have hqm : same_pair q u w := hall q (by rw [hps]; exact List.mem_cons_self _ _)
      rcases hqm with ⟨h1, h2⟩ | ⟨h1, h2⟩
      · subst h1
        subst h2
        exact hb (hq2.2.mpr hall)
      · subst h1
        subst h2
        exact hb (hq2.2.mpr (fun pr hpr => Or.symm (hall pr hpr)))
  · have hflag := (hInv.1 horig).1
    rw [dissolve_final_at, hflag]
    refine iff_of_false (by simp) ?_
    intro h
    exact horig h.1

theorem find_dissolve_verts_correct_witness :
    1 < (populate_vert pmC8).length ∧
    ((find_dissolve_verts pmC8).1.length = (populate_vert pmC8).length ∧
     ((find_dissolve_verts pmC8).1.getD 1 false = true ↔
       ((populate_vert pmC8).getD 1 default).orig = NO_INDEX ∧
       ∃ u w : Vert,
         (∀ pr ∈ pairs_of pmC8 ((populate_vert pmC8).getD 1 default), same_pair pr u w) ∧
         vec_zero (Vec3.cross
           ((((populate_vert pmC8).getD 1 default).co_exact).sub u.co_exact)
           (w.co_exact.sub (((populate_vert pmC8).getD 1 default).co_exact)))) ∧
     (dissolve_verts pmC8 (populate_vert pmC8) (find_dissolve_verts pmC8).1).map Face.vert =
       pmC8.map (fun f => f.vert.filter
         (fun v => ¬ (listGetI (find_dissolve_verts pmC8).1
           (lookup_vert (populate_vert pmC8) v) false)))) :=
  ⟨by decide, find_dissolve_verts_correct pmC8 1 (by decide)⟩

/-! ## Topology characterization for the patch finder -/

lemma alistFind_append {κ α : Type} [DecidableEq κ] :
    ∀ (l1 l2 : List (κ × α)) (k : κ),
    alistFind (l1 ++ l2) k = match alistFind l1 k with
      | some v => some v
      | none => alistFind l2 k := by
  intro l1
  induction l1 with
  | nil => intro l2 k; rfl
  | cons kv rest ih =>
    intro l2 k
    rw [List.cons_append, alistFind, alistFind]
    by_cases h : kv.1 = k
    · rw [if_pos h, if_pos h]
    · rw [if_neg h, if_neg h, ih]

lemma alistFind_modify_self {κ α : Type} [DecidableEq κ] :
    ∀ (m : List (κ × α)) (k : κ) (f : α → α) (v : α), alistFind m k = some v →
    alistFind (alistModify m k f) k = some (f v) := by
  intro m
  induction m with
  | nil => intro k f v h; simp [alistFind] at h
  | cons kv rest ih =>
    intro k f v h
    rw [alistFind] at h
    rw [alistModify]
    by_cases hk : kv.1 = k
    · rw [if_pos hk] at h
      rw [if_pos hk, alistFind, if_pos hk]
      rw [Option.some_inj] at h
      rw [h]
    · rw [if_neg hk] at h
      rw [if_neg hk, alistFind, if_neg hk]
      exact ih k f v h

lemma alistFind_modify_ne {κ α : Type} [DecidableEq κ] :
    ∀ (m : List (κ × α)) (k k2 : κ) (f : α → α), k2 ≠ k →
    alistFind (alistModify m k f) k2 = alistFind m k2 := by
  intro m
  induction m with
  | nil => intro k k2 f _; rfl
  | cons kv rest ih =>
    intro k k2 f hne
    rw [alistModify]
    by_cases hk : kv.1 = k
    · rw [if_pos hk, alistFind, alistFind]
      have : ¬ kv.1 = k2 := by rw [hk]; exact fun h => hne h.symm
      rw [if_neg this, if_neg this]
    · rw [if_neg hk, alistFind, alistFind]
      by_cases h2 : kv.1 = k2
      · rw [if_pos h2, if_pos h2]
      · rw [if_neg h2, if_neg h2, ih k k2 f hne]

lemma alistFind_addOrModify_self {κ α : Type} [DecidableEq κ]
    (m : List (κ × α)) (k : κ) (init : α) (f : α → α) :
    alistFind (alistAddOrModify m k init f) k = some (match alistFind m k with
      | none => init
      | some v => f v) := by
  rw [alistAddOrModify]
  rcases hf : alistFind m k with _ | v
  · rw [alistFind_append, hf]
    simp [alistFind]
  · exact alistFind_modify_self m k f v hf

lemma alistFind_addOrModify_ne {κ α : Type} [DecidableEq κ]
    (m : List (κ × α)) (k k2 : κ) (init : α) (f : α → α) (hne : k2 ≠ k) :
    alistFind (alistAddOrModify m k init f) k2 = alistFind m k2 := by
  rw [alistAddOrModify]
  rcases hf : alistFind m k with _ | v
  · rw [alistFind_append]
    rcases h2 : alistFind m k2 with _ | v2
    · show alistFind [(k, init)] k2 = none
      rw [alistFind, if_neg (fun hh => hne hh.symm)]
      rfl
    · rfl
  · exact alistFind_modify_ne m k k2 f hne

lemma etInvP_step (tm : Mesh) (S : List (Nat × Nat)) (et : List (Edge × List Int))
    (k0 i0 : Nat) (h : etInvP tm S et) :
    etInvP tm (S ++ [(k0, i0)])
      (alistAddOrModify et (tri_side tm k0 i0) [(k0 : Int)]
        (fun tris => appendNonDup tris (k0 : Int))) := by
  constructor
  · intro e ts hts t ht
    by_cases he : e = tri_side tm k0 i0
    · subst he
      rw [alistFind_addOrModify_self] at hts
      rw [Option.some_inj] at hts
      rcases hf : alistFind et (tri_side tm k0 i0) with _ | old
      · rw [hf] at hts
        subst hts
        simp only [List.mem_singleton] at ht
        exact ⟨(k0, i0), List.mem_append_right _ (List.mem_singleton.mpr rfl), ht, rfl⟩
      · rw [hf] at hts
        subst hts
        rcases (appendNonDup_mem_iff old (k0 : Int) t).mp ht with hmem | rfl
        · obtain ⟨ki, hki, ht2, hside⟩ := h.1 _ old hf t hmem
          exact ⟨ki, List.mem_append_left _ hki, ht2, hside⟩
        · exact ⟨(k0, i0), List.mem_append_right _ (List.mem_singleton.mpr rfl), rfl, rfl⟩
    · rw [alistFind_addOrModify_ne _ _ _ _ _ he] at hts
      obtain ⟨ki, hki, ht2, hside⟩ := h.1 e ts hts t ht
      exact ⟨ki, List.mem_append_left _ hki, ht2, hside⟩
  · intro ki hki
    rcases List.mem_append.mp hki with hold | hnew
    · obtain ⟨ts, hts, hmem⟩ := h.2 ki hold
      by_cases hside : tri_side tm ki.1 ki.2 = tri_side tm k0 i0
      · rw [hside] at hts
        rw [hside, alistFind_addOrModify_self, hts]
        exact ⟨_, rfl, (appendNonDup_mem_iff ts (k0 : Int) _).mpr (Or.inl hmem)⟩
      · rw [alistFind_addOrModify_ne _ _ _ _ _ hside]
        exact ⟨ts, hts, hmem⟩
    · rw [List.mem_singleton] at hnew
      subst hnew
      rw [alistFind_addOrModify_self]
      rcases hf : alistFind et (tri_side tm k0 i0) with _ | old
      · exact ⟨_, rfl, List.mem_singleton.mpr rfl⟩
      · exact ⟨_, rfl, (appendNonDup_mem_iff old _ _).mpr (Or.inr rfl)⟩

lemma etInvP_inner (tm : Mesh) (k0 : Nat) :
    ∀ (js : List Nat) (S : List (Nat × Nat)) (et : List (Edge × List Int)),
    etInvP tm S et →
    etInvP tm (S ++ js.map (fun i => (k0, i)))
      (js.foldl (fun et i => alistAddOrModify et (tri_side tm k0 i) [(k0 : Int)]
        (fun tris => appendNonDup tris (k0 : Int))) et) := by
  intro js
  induction js with
  | nil => intro S et h; simpa using h
  | cons j js ih =>
    intro S et h
    have hstep := etInvP_step tm S et k0 j h
    have := ih (S ++ [(k0, j)]) _ hstep
    simp only [List.foldl_cons, List.map_cons]
    rw [List.append_cons S (k0, j)]
    exact this

lemma etInvP_outer (tm : Mesh) :
    ∀ (ks : List Nat) (S : List (Nat × Nat)) (et : List (Edge × List Int)),
    etInvP tm S et →
    etInvP tm (S ++ ks.flatMap (fun k => (List.range 3).map (fun i => (k, i))))
      (ks.foldl (fun et k => (List.range 3).foldl
        (fun et i => alistAddOrModify et (tri_side tm k i) [(k : Int)]
          (fun tris => appendNonDup tris (k : Int))) et) et) := by
  intro ks
  induction ks with
  | nil => intro S et h; simpa using h
  | cons k ks ih =>
    intro S et h
    have hstep := etInvP_inner tm k (List.range 3) S et h
    have := ih (S ++ (List.range 3).map (fun i => (k, i))) _ hstep
    simp only [List.foldl_cons, List.flatMap_cons]
    rw [← List.append_assoc]
    exact this

lemma topo_fold_edge_tri (t : Int) (tri : Face) :
    ∀ (l : List Nat) (topo : TriMeshTopology),
    (l.foldl (fun topo i =>
      let v := tri.vtx i
      let vnext := tri.vtx ((i + 1) % 3)
      let e := mkEdge v vnext
      let ve := match alistFind topo.vert_edges v with
        | none => topo.vert_edges ++ [(v, appendNonDup [] e)]
        | some _ => alistModify topo.vert_edges v (fun edges => appendNonDup edges e)
      let et := alistAddOrModify topo.edge_tri e [t] (fun tris => appendNonDup tris t)
      (⟨et, ve⟩ : TriMeshTopology)) topo).edge_tri
    = l.foldl (fun et i => alistAddOrModify et (mkEdge (tri.vtx i) (tri.vtx ((i + 1) % 3))) [t]
        (fun tris => appendNonDup tris t)) topo.edge_tri := by
  intro l
  induction l with
  | nil => intro topo; rfl
  | cons i l ih =>
    intro topo
    simp only [List.foldl_cons]
    rw [ih]

lemma trimesh_topology_edge_tri (tm : Mesh) :
    ∀ (ks : List Nat) (topo : TriMeshTopology),
    ((ks.foldl (fun topo (t : Nat) => topo_add_tri (t : Int) (faceAt tm (t : Int)) topo)
        topo).edge_tri)
    = ks.foldl (fun et k => (List.range 3).foldl
        (fun et i => alistAddOrModify et (tri_side tm k i) [(k : Int)]
          (fun tris => appendNonDup tris (k : Int))) et) topo.edge_tri := by
  intro ks
  induction ks with
  | nil => intro topo; rfl
  | cons k ks ih =>
    intro topo
    simp only [List.foldl_cons]
    rw [ih]
    have h1 : (topo_add_tri (k : Int) (faceAt tm (k : Int)) topo).edge_tri
        = (List.range 3).foldl
          (fun et i => alistAddOrModify et (tri_side tm k i) [(k : Int)]
            (fun tris => appendNonDup tris (k : Int))) topo.edge_tri := by
      rw [topo_add_tri]
      rw [topo_fold_edge_tri (k : Int) (faceAt tm (k : Int)) (List.range 3) topo]
      simp only [tri_side]
    rw [h1]

lemma trimesh_topology_ok (tm : Mesh) : topo_tris_ok tm (trimesh_topology tm) := by
  have hfind : ∀ e, (trimesh_topology tm).edge_tris e =
      alistFind ((List.range tm.length).foldl (fun et k => (List.range 3).foldl
        (fun et i => alistAddOrModify et (tri_side tm k i) [(k : Int)]
          (fun tris => appendNonDup tris (k : Int))) et) []) e := by
    intro e
    rw [TriMeshTopology.edge_tris, trimesh_topology, trimesh_topology_edge_tri]
  have hbase : etInvP tm [] [] := by
    constructor
    · intro e ts hts
      simp [alistFind] at hts
    · intro ki hki
      simp at hki
  have hinv := etInvP_outer tm (List.range tm.length) [] [] hbase
  simp only [List.nil_append] at hinv
  constructor
  · intro e ts hts t ht
    rw [hfind] at hts
    obtain ⟨ki, hki, ht2, hside⟩ := hinv.1 e ts hts t ht
    rw [List.mem_flatMap] at hki
    obtain ⟨k, hk, hki2⟩ := hki
    rw [List.mem_map] at hki2
    obtain ⟨i, hi, rfl⟩ := hki2
    exact ⟨k, List.mem_range.mp hk, ht2, i, List.mem_range.mp hi, hside⟩
  · intro k hk i hi
    have hmem : (k, i) ∈ (List.range tm.length).flatMap
        (fun k => (List.range 3).map (fun i => (k, i))) := by
      rw [List.mem_flatMap]
      exact ⟨k, List.mem_range.mpr hk, List.mem_map.mpr ⟨i, List.mem_range.mpr hi, rfl⟩⟩
    obtain ⟨ts, hts, hmem2⟩ := hinv.2 (k, i) hmem
    exact ⟨ts, by rw [hfind]; exact hts, hmem2⟩

/-! ## Patch finder state lemmas -/

lemma listGetI_oob {α : Type} (l : List α) (t : Int) (d : α)
    (h : ¬ (0 ≤ t ∧ t < l.length)) : listGetI l t d = d := by
  rw [listGetI]
  by_cases h0 : 0 ≤ t
  · rw [if_pos h0]
    exact List.getD_eq_default _ _ (by omega)
  · rw [if_neg h0]

lemma listGetI_setI_self2 {α : Type} (l : List α) (t : Int) (x d : α) (h0 : 0 ≤ t)
    (h1 : t < l.length) : listGetI (listSetI l t x) t d = x := by
  rw [listSetI, if_pos ⟨h0, h1⟩, listGetI, if_pos h0]
  exact getD_set_self l t.toNat x d (by omega)

lemma listGetI_setI_ne2 {α : Type} (l : List α) (t t2 : Int) (x d : α) (h : t2 ≠ t) :
    listGetI (listSetI l t x) t2 d = listGetI l t2 d := by
  rw [listSetI]
  by_cases hin : 0 ≤ t ∧ t < l.length
  · rw [if_pos hin, listGetI, listGetI]
    by_cases h2 : 0 ≤ t2
    · rw [if_pos h2, if_pos h2]
      exact getD_set_ne l t.toNat t2.toNat x d (by omega)
    · rw [if_neg h2, if_neg h2]
  · rw [if_neg hin]

lemma listGetI_modifyI_self {α : Type} (l : List α) (t : Int) (f : α → α) (d : α)
    (h0 : 0 ≤ t) (h1 : t < l.length) :
    listGetI (listModifyI l t f) t d = f (listGetI l t d) := by
  rw [listModifyI, if_pos h0, listGetI, listGetI, if_pos h0, if_pos h0]
  exact getD_listModifyNat_self l t.toNat f d (by omega)

lemma listGetI_modifyI_ne {α : Type} (l : List α) (t t2 : Int) (f : α → α) (d : α)
    (h : t2 ≠ t) : listGetI (listModifyI l t f) t2 d = listGetI l t2 d := by
  rw [listModifyI]
  by_cases h0 : 0 ≤ t
  · rw [if_pos h0, listGetI, listGetI]
    by_cases h2 : 0 ≤ t2
    · rw [if_pos h2, if_pos h2]
      exact getD_listModifyNat_ne l t.toNat t2.toNat f d (by omega)
    · rw [if_neg h2, if_neg h2]
  · rw [if_neg h0]

lemma tri_patchAt_congr (p1 p2 : PatchesInfo) (h : p1.tri_patch = p2.tri_patch) (t : Int) :
    p1.tri_patchAt t = p2.tri_patchAt t := by
  rw [PatchesInfo.tri_patchAt, PatchesInfo.tri_patchAt, h]

lemma SharedNMEdge_congr (tmtopo : TriMeshTopology) (p1 p2 : PatchesInfo)
    (h : p1.tri_patch = p2.tri_patch) (p q : Int) (e : Edge)
    (hs : SharedNMEdge tmtopo p1 p q e) : SharedNMEdge tmtopo p2 p q e := by
  obtain ⟨ts, hts, hlen, ⟨t1, ht1, hp1⟩, ⟨t2, ht2, hp2⟩⟩ := hs
  exact ⟨ts, hts, hlen, ⟨t1, ht1, (tri_patchAt_congr p1 p2 h t1) ▸ hp1⟩,
    ⟨t2, ht2, (tri_patchAt_congr p1 p2 h t2) ▸ hp2⟩⟩

lemma SharedNMEdge_symm (tmtopo : TriMeshTopology) (pinfo : PatchesInfo) (p q : Int) (e : Edge)
    (hs : SharedNMEdge tmtopo pinfo p q e) : SharedNMEdge tmtopo pinfo q p e := by
  obtain ⟨ts, hts, hlen, h1, h2⟩ := hs
  exact ⟨ts, hts, hlen, h2, h1⟩

lemma grow_patch_tri_patch_length (pinfo : PatchesInfo) (cur t : Int) :
    (pinfo.grow_patch cur t).tri_patch.length = pinfo.tri_patch.length := by
  rw [PatchesInfo.grow_patch]
  exact listSetI_length _ _ _

lemma grow_patch_patch_length (pinfo : PatchesInfo) (cur t : Int) :
    (pinfo.grow_patch cur t).patch.length = pinfo.patch.length := by
  rw [PatchesInfo.grow_patch]
  exact listModifyI_length _ _ _

lemma grow_patch_pp (pinfo : PatchesInfo) (cur t : Int) :
    (pinfo.grow_patch cur t).pp_edge = pinfo.pp_edge := rfl

lemma grow_patch_at_self (pinfo : PatchesInfo) (cur t : Int) (h0 : 0 ≤ t)
    (h1 : t < pinfo.tri_patch.length) : (pinfo.grow_patch cur t).tri_patchAt t = cur := by
  rw [PatchesInfo.grow_patch, PatchesInfo.tri_patchAt]
  exact listGetI_setI_self2 _ _ _ _ h0 h1

lemma grow_patch_at_ne (pinfo : PatchesInfo) (cur t t2 : Int) (h : t2 ≠ t) :
    (pinfo.grow_patch cur t).tri_patchAt t2 = pinfo.tri_patchAt t2 := by
  rw [PatchesInfo.grow_patch, PatchesInfo.tri_patchAt, PatchesInfo.tri_patchAt]
  exact listGetI_setI_ne2 _ _ _ _ _ h

lemma grow_patch_list_self (pinfo : PatchesInfo) (cur t : Int) (cp : Nat) (hcur : cur = (cp : Int))
    (hlt : cp < pinfo.patch.length) :
    (pinfo.grow_patch cur t).patch.getD cp default =
      { pinfo.patch.getD cp default with
        tri := (pinfo.patch.getD cp default).tri ++ [t] } := by
  rw [PatchesInfo.grow_patch]
  show listGetI (listModifyI pinfo.patch cur _) (cp : Int) default = _
  rw [hcur, listGetI_modifyI_self _ _ _ _ (Int.natCast_nonneg cp) (by omega)]
  rfl

lemma grow_patch_list_ne (pinfo : PatchesInfo) (cur t : Int) (p : Nat)
    (h : (p : Int) ≠ cur) :
    (pinfo.grow_patch cur t).patch.getD p default = pinfo.patch.getD p default := by
  rw [PatchesInfo.grow_patch]
  show listGetI (listModifyI pinfo.patch cur _) (p : Int) default = _
  rw [listGetI_modifyI_ne _ _ _ _ _ h]
  rfl

lemma ppe_add_lookup (pinfo : PatchesInfo) (p1 p2 : Int) (e : Edge) (a b : Int) :
    (pinfo.add_new_patch_patch_edge p1 p2 e).patch_patch_edge a b =
      match pinfo.patch_patch_edge a b with
      | some v => some v
      | none =>
        if (p1, p2) = (a, b) then some e
        else if (p2, p1) = (a, b) then some e else none := by
  rw [PatchesInfo.add_new_patch_patch_edge, PatchesInfo.patch_patch_edge,
    PatchesInfo.patch_patch_edge]
  show alistFind (pinfo.pp_edge ++ [((p1, p2), e), ((p2, p1), e)]) (a, b) = _
  rw [alistFind_append]
  rcases hf : alistFind pinfo.pp_edge (a, b) with _ | v
  · show alistFind [((p1, p2), e), ((p2, p1), e)] (a, b) = _
    rw [alistFind, alistFind]
    by_cases h1 : (p1, p2) = (a, b)
    · rw [if_pos h1, if_pos h1]
    · rw [if_neg h1, if_neg h1]
      by_cases h2 : (p2, p1) = (a, b)
      · rw [if_pos h2, if_pos h2]
      · rw [if_neg h2, if_neg h2]
        rfl
  · rfl

lemma tri_is_assigned_congr (p1 p2 : PatchesInfo) (h : p1.tri_patch = p2.tri_patch) (t : Int) :
    p1.tri_is_assigned t = p2.tri_is_assigned t := by
  rw [PatchesInfo.tri_is_assigned, PatchesInfo.tri_is_assigned, tri_patchAt_congr p1 p2 h]

lemma pp_scan_step_facts (cur tcand : Int) (e : Edge) (pinfo : PatchesInfo) (t_oth : Int) :
    (pp_scan_step cur tcand e pinfo t_oth).tri_patch = pinfo.tri_patch ∧
    (pp_scan_step cur tcand e pinfo t_oth).patch = pinfo.patch ∧
    (∀ a b ed, pinfo.patch_patch_edge a b = some ed →
      (pp_scan_step cur tcand e pinfo t_oth).patch_patch_edge a b = some ed) ∧
    (∀ a b ed, (pp_scan_step cur tcand e pinfo t_oth).patch_patch_edge a b = some ed →
      pinfo.patch_patch_edge a b = some ed ∨
      (ed = e ∧ pinfo.tri_patchAt t_oth ≠ cur ∧ t_oth ≠ tcand ∧
       pinfo.tri_is_assigned t_oth = true ∧
       ((a, b) = (cur, pinfo.tri_patchAt t_oth) ∨
        (a, b) = (pinfo.tri_patchAt t_oth, cur)))) ∧
    (t_oth ≠ tcand → pinfo.tri_is_assigned t_oth = true → pinfo.tri_patchAt t_oth ≠ cur →
      (pp_scan_step cur tcand e pinfo t_oth).patch_patch_edge
        cur (pinfo.tri_patchAt t_oth) ≠ none) := by
  simp only [pp_scan_step]
  by_cases hc : t_oth ≠ tcand ∧ pinfo.tri_is_assigned t_oth = true
  · rw [if_pos hc]
    by_cases hp : pinfo.tri_patchAt t_oth = cur
    · rw [if_pos hp]
      exact ⟨rfl, rfl, fun a b ed h => h, fun a b ed h => Or.inl h,
        fun _ _ hne => absurd hp hne⟩
    · rw [if_neg hp]
      rcases hppe : pinfo.patch_patch_edge cur (pinfo.tri_patchAt t_oth) with _ | v
      · simp only [hppe]
        refine ⟨rfl, rfl, ?_, ?_, ?_⟩
        · intro a b ed h
          rw [ppe_add_lookup, h]
        · intro a b ed h
          rw [ppe_add_lookup] at h
          rcases hab : pinfo.patch_patch_edge a b with _ | v2
          · rw [hab] at h
            by_cases h1 : ((cur, pinfo.tri_patchAt t_oth) = (a, b))
            · rw [if_pos h1] at h
              exact Or.inr ⟨(Option.some_inj.mp h).symm, hp, hc.1, hc.2, Or.inl h1.symm⟩
            · rw [if_neg h1] at h
              by_cases h2 : ((pinfo.tri_patchAt t_oth, cur) = (a, b))
              · rw [if_pos h2] at h
                exact Or.inr ⟨(Option.some_inj.mp h).symm, hp, hc.1, hc.2, Or.inr h2.symm⟩
              · rw [if_neg h2] at h
                simp at h
          · rw [hab] at h
            exact Or.inl h
        · intro _ _ _
          rw [ppe_add_lookup, hppe]
          rw [if_pos rfl]
          simp
      · simp only [hppe]
        refine ⟨by trivial, by trivial, fun a b ed h => h, fun a b ed h => Or.inl h,
          fun _ _ _ => by simp⟩
  · rw [if_neg hc]
    refine ⟨rfl, rfl, fun a b ed h => h, fun a b ed h => Or.inl h, ?_⟩
    intro hne hassigned _
    exact absurd ⟨hne, hassigned⟩ hc

lemma pp_scan_fold (cur tcand : Int) (e : Edge) :
    ∀ (etris : List Int) (pinfo : PatchesInfo),
    (etris.foldl (pp_scan_step cur tcand e) pinfo).tri_patch = pinfo.tri_patch ∧
    (etris.foldl (pp_scan_step cur tcand e) pinfo).patch = pinfo.patch ∧
    (∀ a b ed, pinfo.patch_patch_edge a b = some ed →
      (etris.foldl (pp_scan_step cur tcand e) pinfo).patch_patch_edge a b = some ed) ∧
    (∀ a b ed,
      (etris.foldl (pp_scan_step cur tcand e) pinfo).patch_patch_edge a b = some ed →
      pinfo.patch_patch_edge a b = some ed ∨
      (ed = e ∧ ∃ t_oth ∈ etris, pinfo.tri_patchAt t_oth ≠ cur ∧ t_oth ≠ tcand ∧
        pinfo.tri_is_assigned t_oth = true ∧
        ((a, b) = (cur, pinfo.tri_patchAt t_oth) ∨
         (a, b) = (pinfo.tri_patchAt t_oth, cur)))) ∧
    (∀ t_oth ∈ etris, t_oth ≠ tcand → pinfo.tri_is_assigned t_oth = true →
      pinfo.tri_patchAt t_oth ≠ cur →
      (etris.foldl (pp_scan_step cur tcand e) pinfo).patch_patch_edge
        cur (pinfo.tri_patchAt t_oth) ≠ none) := by
  intro etris
  induction etris with
  | nil =>
    intro pinfo
    exact ⟨rfl, rfl, fun a b ed h => h, fun a b ed h => Or.inl h, fun t ht => absurd ht (by simp)⟩
  | cons t0 rest ih =>
    intro pinfo
    simp only [List.foldl_cons]
    have hstep := pp_scan_step_facts cur tcand e pinfo t0
    have hih := ih (pp_scan_step cur tcand e pinfo t0)
    have htp := hstep.1
    have hcongrAt : ∀ t, (pp_scan_step cur tcand e pinfo t0).tri_patchAt t =
        pinfo.tri_patchAt t := tri_patchAt_congr _ _ htp
    have hcongrAs : ∀ t, (pp_scan_step cur tcand e pinfo t0).tri_is_assigned t =
        pinfo.tri_is_assigned t := tri_is_assigned_congr _ _ htp
    refine ⟨hih.1.trans hstep.1, hih.2.1.trans hstep.2.1, ?_, ?_, ?_⟩
    · intro a b ed h
      exact hih.2.2.1 a b ed (hstep.2.2.1 a b ed h)
    · intro a b ed h
      rcases hih.2.2.2.1 a b ed h with h2 | ⟨hed, t_oth, hmem, hne, hnt, has, hab⟩
      · rcases hstep.2.2.2.1 a b ed h2 with h3 | ⟨hed, hne, hnt, has, hab⟩
        · exact Or.inl h3
        · exact Or.inr ⟨hed, t0, List.mem_cons_self _ _, hne, hnt, has, hab⟩
      · rw [hcongrAt t_oth] at hne hab
        rw [hcongrAs t_oth] at has
        exact Or.inr ⟨hed, t_oth, List.mem_cons_of_mem _ hmem, hne, hnt, has, hab⟩
    · intro t_oth hmem hne has hnc
      rcases List.mem_cons.mp hmem with rfl | hmem2
      · have hstepc := hstep.2.2.2.2 hne has hnc
        rcases hval : (pp_scan_step cur tcand e pinfo t_oth).patch_patch_edge
            cur (pinfo.tri_patchAt t_oth) with _ | v
        · exact absurd hval hstepc
        · have := hih.2.2.1 _ _ _ hval
          rw [this]
          simp
      · have := hih.2.2.2.2 t_oth hmem2 hne (by rw [hcongrAs]; exact has)
          (by rw [hcongrAt]; exact hnc)
        rw [hcongrAt] at this
        exact this

lemma grow_side_facts (tm : Mesh) (tmtopo : TriMeshTopology) (cur tcand : Int)
    (st : List Int × PatchesInfo) (i : Nat) :
    (grow_side tm tmtopo cur tcand st i).2.tri_patch = st.2.tri_patch ∧
    (grow_side tm tmtopo cur tcand st i).2.patch = st.2.patch ∧
    (∀ a b ed, st.2.patch_patch_edge a b = some ed →
      (grow_side tm tmtopo cur tcand st i).2.patch_patch_edge a b = some ed) ∧
    (∀ a b ed, (grow_side tm tmtopo cur tcand st i).2.patch_patch_edge a b = some ed →
      st.2.patch_patch_edge a b = some ed ∨
      (∃ ts, tmtopo.edge_tris
          (mkEdge ((faceAt tm tcand).vtx i) ((faceAt tm tcand).vtx ((i + 1) % 3))) = some ts ∧
        tmtopo.other_tri_if_manifold
          (mkEdge ((faceAt tm tcand).vtx i) ((faceAt tm tcand).vtx ((i + 1) % 3))) tcand
          = NO_INDEX ∧
        ed = mkEdge ((faceAt tm tcand).vtx i) ((faceAt tm tcand).vtx ((i + 1) % 3)) ∧
        ∃ t_oth ∈ ts, st.2.tri_patchAt t_oth ≠ cur ∧ t_oth ≠ tcand ∧
          st.2.tri_is_assigned t_oth = true ∧
          ((a, b) = (cur, st.2.tri_patchAt t_oth) ∨
           (a, b) = (st.2.tri_patchAt t_oth, cur)))) ∧
    (∀ s2 ∈ (grow_side tm tmtopo cur tcand st i).1, s2 ∈ st.1 ∨
      (s2 = tmtopo.other_tri_if_manifold
        (mkEdge ((faceAt tm tcand).vtx i) ((faceAt tm tcand).vtx ((i + 1) % 3))) tcand ∧
       s2 ≠ NO_INDEX)) ∧
    (tmtopo.other_tri_if_manifold
        (mkEdge ((faceAt tm tcand).vtx i) ((faceAt tm tcand).vtx ((i + 1) % 3))) tcand
        = NO_INDEX →
      ∀ ts, tmtopo.edge_tris
        (mkEdge ((faceAt tm tcand).vtx i) ((faceAt tm tcand).vtx ((i + 1) % 3))) = some ts →
      ∀ t_oth ∈ ts, t_oth ≠ tcand → st.2.tri_is_assigned t_oth = true →
      st.2.tri_patchAt t_oth ≠ cur →
      (grow_side tm tmtopo cur tcand st i).2.patch_patch_edge
        cur (st.2.tri_patchAt t_oth) ≠ none) := by
  simp only [grow_side]
  by_cases hman : tmtopo.other_tri_if_manifold
      (mkEdge ((faceAt tm tcand).vtx i) ((faceAt tm tcand).vtx ((i + 1) % 3))) tcand
      ≠ NO_INDEX
  · rw [if_pos hman]
    by_cases has : ¬ st.2.tri_is_assigned (tmtopo.other_tri_if_manifold
        (mkEdge ((faceAt tm tcand).vtx i) ((faceAt tm tcand).vtx ((i + 1) % 3))) tcand) = true
    · rw [if_pos has]
      refine ⟨rfl, rfl, fun a b ed h => h, fun a b ed h => Or.inl h, ?_,
        fun hnm => absurd hnm hman⟩
      intro s2 hs2
      rcases List.mem_cons.mp hs2 with rfl | hs2
      · exact Or.inr ⟨rfl, hman⟩
      · exact Or.inl hs2
    · rw [if_neg has]
      exact ⟨rfl, rfl, fun a b ed h => h, fun a b ed h => Or.inl h,
        fun s2 hs2 => Or.inl hs2, fun hnm => absurd hnm hman⟩
  · rw [if_neg hman]
    have hnm : tmtopo.other_tri_if_manifold
        (mkEdge ((faceAt tm tcand).vtx i) ((faceAt tm tcand).vtx ((i + 1) % 3))) tcand
        = NO_INDEX := by
      by_contra h
      exact hman h
    rcases hets : tmtopo.edge_tris
        (mkEdge ((faceAt tm tcand).vtx i) ((faceAt tm tcand).vtx ((i + 1) % 3))) with _ | etris
    · simp only [hets]
      refine ⟨by trivial, by trivial, fun a b ed h => h, fun a b ed h => Or.inl h,
        fun s2 hs2 => Or.inl hs2, ?_⟩
      intro _ ts hts
      simp at hts
    · simp only [hets]
      have hfold := pp_scan_fold cur tcand
        (mkEdge ((faceAt tm tcand).vtx i) ((faceAt tm tcand).vtx ((i + 1) % 3))) etris st.2
      refine ⟨hfold.1, hfold.2.1, hfold.2.2.1, ?_, fun s2 hs2 => Or.inl hs2, ?_⟩
      · intro a b ed h
        rcases hfold.2.2.2.1 a b ed h with h2 | ⟨hed, t_oth, hmem, hne, hnt, hass, hab⟩
        · exact Or.inl h2
        · exact Or.inr ⟨etris, rfl, hnm, hed, t_oth, hmem, hne, hnt, hass, hab⟩
      · intro _ ts hts t_oth hmem hnt hass hnc
        rw [Option.some_inj] at hts
        subst hts
        exact hfold.2.2.2.2 t_oth hmem hnt hass hnc

lemma grow_sides_fold (tm : Mesh) (tmtopo : TriMeshTopology) (cur tcand : Int) :
    ∀ (l : List Nat) (st : List Int × PatchesInfo),
    (l.foldl (grow_side tm tmtopo cur tcand) st).2.tri_patch = st.2.tri_patch ∧
    (l.foldl (grow_side tm tmtopo cur tcand) st).2.patch = st.2.patch ∧
    (∀ a b ed, st.2.patch_patch_edge a b = some ed →
      (l.foldl (grow_side tm tmtopo cur tcand) st).2.patch_patch_edge a b = some ed) ∧
    (∀ a b ed,
      (l.foldl (grow_side tm tmtopo cur tcand) st).2.patch_patch_edge a b = some ed →
      st.2.patch_patch_edge a b = some ed ∨
      ∃ i ∈ l, ∃ ts, tmtopo.edge_tris
          (mkEdge ((faceAt tm tcand).vtx i) ((faceAt tm tcand).vtx ((i + 1) % 3))) = some ts ∧
        tmtopo.other_tri_if_manifold
          (mkEdge ((faceAt tm tcand).vtx i) ((faceAt tm tcand).vtx ((i + 1) % 3))) tcand
          = NO_INDEX ∧
        ed = mkEdge ((faceAt tm tcand).vtx i) ((faceAt tm tcand).vtx ((i + 1) % 3)) ∧
        ∃ t_oth ∈ ts, st.2.tri_patchAt t_oth ≠ cur ∧ t_oth ≠ tcand ∧
          st.2.tri_is_assigned t_oth = true ∧
          ((a, b) = (cur, st.2.tri_patchAt t_oth) ∨
           (a, b) = (st.2.tri_patchAt t_oth, cur))) ∧
    (∀ s2 ∈ (l.foldl (grow_side tm tmtopo cur tcand) st).1, s2 ∈ st.1 ∨
      ∃ i ∈ l, s2 = tmtopo.other_tri_if_manifold
        (mkEdge ((faceAt tm tcand).vtx i) ((faceAt tm tcand).vtx ((i + 1) % 3))) tcand ∧
        s2 ≠ NO_INDEX) ∧
    (∀ i ∈ l, tmtopo.other_tri_if_manifold
        (mkEdge ((faceAt tm tcand).vtx i) ((faceAt tm tcand).vtx ((i + 1) % 3))) tcand
        = NO_INDEX →
      ∀ ts, tmtopo.edge_tris
        (mkEdge ((faceAt tm tcand).vtx i) ((faceAt tm tcand).vtx ((i + 1) % 3))) = some ts →
      ∀ t_oth ∈ ts, t_oth ≠ tcand → st.2.tri_is_assigned t_oth = true →
      st.2.tri_patchAt t_oth ≠ cur →
      (l.foldl (grow_side tm tmtopo cur tcand) st).2.patch_patch_edge
        cur (st.2.tri_patchAt t_oth) ≠ none) := by
  intro l
  induction l with
  | nil =>
    intro st
    exact ⟨rfl, rfl, fun a b ed h => h, fun a b ed h => Or.inl h,
      fun s2 hs2 => Or.inl hs2, fun i hi => absurd hi (by simp)⟩
  | cons i0 l ih =>
    intro st
    simp only [List.foldl_cons]
    have hside := grow_side_facts tm tmtopo cur tcand st i0
    have hih := ih (grow_side tm tmtopo cur tcand st i0)
    have htp := hside.1
    have hAt : ∀ t, (grow_side tm tmtopo cur tcand st i0).2.tri_patchAt t =
        st.2.tri_patchAt t := tri_patchAt_congr _ _ htp
    have hAs : ∀ t, (grow_side tm tmtopo cur tcand st i0).2.tri_is_assigned t =
        st.2.tri_is_assigned t := tri_is_assigned_congr _ _ htp
    refine ⟨hih.1.trans hside.1, hih.2.1.trans hside.2.1, ?_, ?_, ?_, ?_⟩
    · intro a b ed h
      exact hih.2.2.1 a b ed (hside.2.2.1 a b ed h)
    · intro a b ed h
      rcases hih.2.2.2.1 a b ed h with h2 | ⟨i, hi, ts, hts, hnm, hed, t_oth, hmem, hne,
        hnt, hass, hab⟩
      · rcases hside.2.2.2.1 a b ed h2 with h3 | ⟨ts, hts, hnm, hed, t_oth, hmem, hne,
          hnt, hass, hab⟩
        · exact Or.inl h3
        · exact Or.inr ⟨i0, List.mem_cons_self _ _, ts, hts, hnm, hed, t_oth, hmem, hne,
            hnt, hass, hab⟩
      · rw [hAt t_oth] at hne hab
        rw [hAs t_oth] at hass
        exact Or.inr ⟨i, List.mem_cons_of_mem _ hi, ts, hts, hnm, hed, t_oth, hmem, hne,
          hnt, hass, hab⟩
    · intro s2 hs2
      rcases hih.2.2.2.2.1 s2 hs2 with h2 | ⟨i, hi, heq, hne⟩
      · rcases hside.2.2.2.2.1 s2 h2 with h3 | ⟨heq, hne⟩
        · exact Or.inl h3
        · exact Or.inr ⟨i0, List.mem_cons_self _ _, heq, hne⟩
      · exact Or.inr ⟨i, List.mem_cons_of_mem _ hi, heq, hne⟩
    · intro i hi hnm ts hts t_oth hmem hnt hass hnc
      rcases List.mem_cons.mp hi with rfl | hi2
      · have hstepc := hside.2.2.2.2.2 hnm ts hts t_oth hmem hnt hass hnc
        rcases hval : (grow_side tm tmtopo cur tcand st i).2.patch_patch_edge
            cur (st.2.tri_patchAt t_oth) with _ | v
        · exact absurd hval hstepc
        · have := hih.2.2.1 _ _ _ hval
          rw [this]
          simp
      · have := hih.2.2.2.2.2 i hi2 hnm ts hts t_oth hmem hnt
          (by rw [hAs]; exact hass) (by rw [hAt]; exact hnc)
        rw [hAt] at this
        exact this

lemma tri_is_assigned_true_iff (pinfo : PatchesInfo) (t : Int) :
    pinfo.tri_is_assigned t = true ↔ pinfo.tri_patchAt t ≠ NO_INDEX := by
  rw [PatchesInfo.tri_is_assigned]
  simp

lemma other_tri_member (tmtopo : TriMeshTopology) (e : Edge) (t s : Int)
    (h : tmtopo.other_tri_if_manifold e t = s) (hne : s ≠ NO_INDEX) :
    ∃ ts, tmtopo.edge_tris e = some ts ∧ s ∈ ts := by
  rw [TriMeshTopology.other_tri_if_manifold] at h
  rcases hf : alistFind tmtopo.edge_tri e with _ | p
  · rw [hf] at h
    exact absurd (show s = NO_INDEX from h.symm) hne
  · rw [hf] at h
    have h2 : (if p.length = 2 then (if p.getD 0 0 = t then p.getD 1 0 else p.getD 0 0)
        else NO_INDEX) = s := h
    by_cases hl : p.length = 2
    · rw [if_pos hl] at h2
      refine ⟨p, hf, ?_⟩
      by_cases h0 : p.getD 0 0 = t
      · rw [if_pos h0] at h2
        rw [← h2, List.getD_eq_getElem _ _ (by omega)]
        exact List.getElem_mem _
      · rw [if_neg h0] at h2
        rw [← h2, List.getD_eq_getElem _ _ (by omega)]
        exact List.getElem_mem _
    · rw [if_neg hl] at h2
      exact absurd (show s = NO_INDEX from h2.symm) hne

lemma other_none_of_len (tmtopo : TriMeshTopology) (e : Edge) (t : Int) (ts : List Int)
    (hts : tmtopo.edge_tris e = some ts) (hl : ts.length ≠ 2) :
    tmtopo.other_tri_if_manifold e t = NO_INDEX := by
  rw [TriMeshTopology.other_tri_if_manifold,
    show alistFind tmtopo.edge_tri e = some ts from hts]
  show (if ts.length = 2 then (if ts.getD 0 0 = t then ts.getD 1 0 else ts.getD 0 0)
      else NO_INDEX) = NO_INDEX
  rw [if_neg hl]

lemma other_none_len (tm : Mesh) (tmtopo : TriMeshTopology) (htopo : topo_tris_ok tm tmtopo)
    (e : Edge) (t : Int) (ts : List Int) (hts : tmtopo.edge_tris e = some ts)
    (h : tmtopo.other_tri_if_manifold e t = NO_INDEX) : ts.length ≠ 2 := by
  intro hl
  rw [TriMeshTopology.other_tri_if_manifold,
    show alistFind tmtopo.edge_tri e = some ts from hts] at h
  have h2 : (if ts.length = 2 then (if ts.getD 0 0 = t then ts.getD 1 0 else ts.getD 0 0)
      else NO_INDEX) = NO_INDEX := h
  rw [if_pos hl] at h2
  have hmem : (if ts.getD 0 0 = t then ts.getD 1 0 else ts.getD 0 0) ∈ ts := by
    by_cases h0 : ts.getD 0 0 = t
    · rw [if_pos h0, List.getD_eq_getElem _ _ (by omega)]
      exact List.getElem_mem _
    · rw [if_neg h0, List.getD_eq_getElem _ _ (by omega)]
      exact List.getElem_mem _
  obtain ⟨k, _, hk, _⟩ := htopo.1 e ts hts _ hmem
  have hcontra := h2.symm.trans hk
  rw [NO_INDEX] at hcontra
  omega

lemma pp_scan_step_sym (cur tcand : Int) (e : Edge) (pinfo : PatchesInfo) (t_oth : Int)
    (hsym : ∀ a b, pinfo.patch_patch_edge a b ≠ none → pinfo.patch_patch_edge b a ≠ none) :
    ∀ a b, (pp_scan_step cur tcand e pinfo t_oth).patch_patch_edge a b ≠ none →
      (pp_scan_step cur tcand e pinfo t_oth).patch_patch_edge b a ≠ none := by
  simp only [pp_scan_step]
  by_cases hc : t_oth ≠ tcand ∧ pinfo.tri_is_assigned t_oth = true
  · rw [if_pos hc]
    by_cases hp : pinfo.tri_patchAt t_oth = cur
    · rw [if_pos hp]
      exact hsym
    · rw [if_neg hp]
      rcases hppe : pinfo.patch_patch_edge cur (pinfo.tri_patchAt t_oth) with _ | v
      · simp only [hppe]
        intro a b h
        rw [ppe_add_lookup] at h ⊢
        rcases hab : pinfo.patch_patch_edge a b with _ | v3
        · rw [hab] at h
          rcases hba : pinfo.patch_patch_edge b a with _ | v2
          · have h2 : (if (cur, pinfo.tri_patchAt t_oth) = (a, b) then some e
                else if (pinfo.tri_patchAt t_oth, cur) = (a, b) then some e
                else (none : Option Edge)) ≠ none := h
            show (if (cur, pinfo.tri_patchAt t_oth) = (b, a) then some e
                else if (pinfo.tri_patchAt t_oth, cur) = (b, a) then some e
                else (none : Option Edge)) ≠ none
            by_cases h1 : ((cur, pinfo.tri_patchAt t_oth) = (a, b))
            · have h1s : ((pinfo.tri_patchAt t_oth, cur) = (b, a)) := by
                rw [Prod.mk.injEq] at h1 ⊢
                exact ⟨h1.2, h1.1⟩
              by_cases hx : ((cur, pinfo.tri_patchAt t_oth) = (b, a))
              · rw [if_pos hx]
                simp
              · rw [if_neg hx, if_pos h1s]
                simp
            · rw [if_neg h1] at h2
              by_cases hy : ((pinfo.tri_patchAt t_oth, cur) = (a, b))
              · have hys : ((cur, pinfo.tri_patchAt t_oth) = (b, a)) := by
                  rw [Prod.mk.injEq] at hy ⊢
                  exact ⟨hy.2, hy.1⟩
                rw [if_pos hys]
                simp
              · rw [if_neg hy] at h2
                simp at h2
          · simp
        · have hne2 : pinfo.patch_patch_edge a b ≠ none := by rw [hab]; simp
          have hsba := hsym a b hne2
          rcases hba : pinfo.patch_patch_edge b a with _ | v4
          · exact absurd hba hsba
          · simp
      · simp only [hppe]
        exact hsym
  · rw [if_neg hc]
    exact hsym

lemma pp_scan_fold_sym (cur tcand : Int) (e : Edge) :
    ∀ (etris : List Int) (pinfo : PatchesInfo),
    (∀ a b, pinfo.patch_patch_edge a b ≠ none → pinfo.patch_patch_edge b a ≠ none) →
    ∀ a b, (etris.foldl (pp_scan_step cur tcand e) pinfo).patch_patch_edge a b ≠ none →
      (etris.foldl (pp_scan_step cur tcand e) pinfo).patch_patch_edge b a ≠ none := by
  intro etris
  induction etris with
  | nil => intro pinfo h; exact h
  | cons t0 rest ih =>
    intro pinfo h
    simp only [List.foldl_cons]
    exact ih _ (pp_scan_step_sym cur tcand e pinfo t0 h)

lemma grow_side_sym (tm : Mesh) (tmtopo : TriMeshTopology) (cur tcand : Int)
    (st : List Int × PatchesInfo) (i : Nat)
    (hsym : ∀ a b, st.2.patch_patch_edge a b ≠ none → st.2.patch_patch_edge b a ≠ none) :
    ∀ a b, (grow_side tm tmtopo cur tcand st i).2.patch_patch_edge a b ≠ none →
      (grow_side tm tmtopo cur tcand st i).2.patch_patch_edge b a ≠ none := by
  simp only [grow_side]
  by_cases hman : tmtopo.other_tri_if_manifold
      (mkEdge ((faceAt tm tcand).vtx i) ((faceAt tm tcand).vtx ((i + 1) % 3))) tcand
      ≠ NO_INDEX
  · rw [if_pos hman]
    by_cases has : ¬ st.2.tri_is_assigned (tmtopo.other_tri_if_manifold
        (mkEdge ((faceAt tm tcand).vtx i) ((faceAt tm tcand).vtx ((i + 1) % 3))) tcand) = true
    · rw [if_pos has]
      exact hsym
    · rw [if_neg has]
      exact hsym
  · rw [if_neg hman]
    rcases hets : tmtopo.edge_tris
        (mkEdge ((faceAt tm tcand).vtx i) ((faceAt tm tcand).vtx ((i + 1) % 3))) with _ | etris
    · exact hsym
    · exact pp_scan_fold_sym cur tcand _ etris st.2 hsym

lemma grow_sides_fold_sym (tm : Mesh) (tmtopo : TriMeshTopology) (cur tcand : Int) :
    ∀ (l : List Nat) (st : List Int × PatchesInfo),
    (∀ a b, st.2.patch_patch_edge a b ≠ none → st.2.patch_patch_edge b a ≠ none) →
    ∀ a b, (l.foldl (grow_side tm tmtopo cur tcand) st).2.patch_patch_edge a b ≠ none →
      (l.foldl (grow_side tm tmtopo cur tcand) st).2.patch_patch_edge b a ≠ none := by
  intro l
  induction l with
  | nil => intro st h; exact h
  | cons i0 l ih =>
    intro st h
    simp only [List.foldl_cons]
    exact ih _ (grow_side_sym tm tmtopo cur tcand st i0 h)

lemma grow_process_step (tm : Mesh) (tmtopo : TriMeshTopology)
    (htopo : topo_tris_ok tm tmtopo)
    (cur : Int) (cp : Nat) (hcur : cur = (cp : Int))
    (stack : List Int) (pinfo : PatchesInfo)
    (hcp : cp < pinfo.patch.length)
    (hstk : StackOK tm.length stack)
    (hpok : PatchesOK tm.length pinfo)
    (hppok : PPOK tmtopo pinfo)
    (tcand : Int) (kc : Nat) (hkc : kc < tm.length) (htc : tcand = (kc : Int))
    (hun : pinfo.tri_patchAt tcand = NO_INDEX) :
    StackOK tm.length
      ((List.range 3).foldl (grow_side tm tmtopo cur tcand)
        (stack, pinfo.grow_patch cur tcand)).1 ∧
    PatchesOK tm.length
      ((List.range 3).foldl (grow_side tm tmtopo cur tcand)
        (stack, pinfo.grow_patch cur tcand)).2 ∧
    PPOK tmtopo
      ((List.range 3).foldl (grow_side tm tmtopo cur tcand)
        (stack, pinfo.grow_patch cur tcand)).2 ∧
    ((List.range 3).foldl (grow_side tm tmtopo cur tcand)
        (stack, pinfo.grow_patch cur tcand)).2.patch.length = pinfo.patch.length ∧
    (∀ t v, v ≠ NO_INDEX → pinfo.tri_patchAt t = v →
      ((List.range 3).foldl (grow_side tm tmtopo cur tcand)
        (stack, pinfo.grow_patch cur tcand)).2.tri_patchAt t = v) ∧
    (∀ a b ed, pinfo.patch_patch_edge a b = some ed →
      ((List.range 3).foldl (grow_side tm tmtopo cur tcand)
        (stack, pinfo.grow_patch cur tcand)).2.patch_patch_edge a b = some ed) ∧
    ((List.range 3).foldl (grow_side tm tmtopo cur tcand)
        (stack, pinfo.grow_patch cur tcand)).2.tri_patchAt tcand = cur := by
  have hf := grow_sides_fold tm tmtopo cur tcand (List.range 3)
    (stack, pinfo.grow_patch cur tcand)
  have h0tc : 0 ≤ tcand := by rw [htc]; exact Int.natCast_nonneg kc
  have hlt_tc : tcand < pinfo.tri_patch.length := by
    rw [htc, hpok.1]
    exact_mod_cast hkc
  have hgps : (pinfo.grow_patch cur tcand).tri_patchAt tcand = cur :=
    grow_patch_at_self _ _ _ h0tc hlt_tc
  have htp : ((List.range 3).foldl (grow_side tm tmtopo cur tcand)
      (stack, pinfo.grow_patch cur tcand)).2.tri_patch
      = (pinfo.grow_patch cur tcand).tri_patch := hf.1
  have hAt : ∀ t, ((List.range 3).foldl (grow_side tm tmtopo cur tcand)
      (stack, pinfo.grow_patch cur tcand)).2.tri_patchAt t
      = (pinfo.grow_patch cur tcand).tri_patchAt t := tri_patchAt_congr _ _ htp
  have hGpatch : ((List.range 3).foldl (grow_side tm tmtopo cur tcand)
      (stack, pinfo.grow_patch cur tcand)).2.patch
      = (pinfo.grow_patch cur tcand).patch := hf.2.1
  have hplen : ((List.range 3).foldl (grow_side tm tmtopo cur tcand)
      (stack, pinfo.grow_patch cur tcand)).2.patch.length = pinfo.patch.length := by
    rw [hGpatch]
    exact grow_patch_patch_length _ _ _
  have htplen : ((List.range 3).foldl (grow_side tm tmtopo cur tcand)
      (stack, pinfo.grow_patch cur tcand)).2.tri_patch.length = pinfo.tri_patch.length := by
    rw [htp]
    exact grow_patch_tri_patch_length _ _ _
  have hself : ((List.range 3).foldl (grow_side tm tmtopo cur tcand)
      (stack, pinfo.grow_patch cur tcand)).2.tri_patchAt tcand = cur :=
    (hAt tcand).trans hgps
  have hmono : ∀ t v, v ≠ NO_INDEX → pinfo.tri_patchAt t = v →
      ((List.range 3).foldl (grow_side tm tmtopo cur tcand)
        (stack, pinfo.grow_patch cur tcand)).2.tri_patchAt t = v := by
    intro t v hv hval
    by_cases ht : t = tcand
    · subst ht
      rw [hun] at hval
      exact absurd hval.symm hv
    · rw [hAt t, grow_patch_at_ne _ _ _ _ ht]
      exact hval
  have hppres : ∀ a b ed, pinfo.patch_patch_edge a b = some ed →
      ((List.range 3).foldl (grow_side tm tmtopo cur tcand)
        (stack, pinfo.grow_patch cur tcand)).2.patch_patch_edge a b = some ed := by
    intro a b ed h
    exact hf.2.2.1 a b ed h
  have hcurne : cur ≠ NO_INDEX := by
    rw [hcur, NO_INDEX]
    omega
  have hsideQ : ∀ i, tri_side tm kc i = mkEdge ((faceAt tm tcand).vtx i)
      ((faceAt tm tcand).vtx ((i + 1) % 3)) := by
    intro i
    rw [tri_side, htc]
  -- PPSym first, it is used by PPComp
  have hsymG : PPSym ((List.range 3).foldl (grow_side tm tmtopo cur tcand)
      (stack, pinfo.grow_patch cur tcand)).2 := by
    intro a b h
    exact grow_sides_fold_sym tm tmtopo cur tcand (List.range 3)
      (stack, pinfo.grow_patch cur tcand) (fun a2 b2 h2 => hppok.2.1 a2 b2 h2) a b h
  refine ⟨?_, ⟨htplen.trans hpok.1, ?_, ?_⟩, ⟨?_, hsymG, ?_⟩, hplen, hmono, hppres, hself⟩
  · -- StackOK
    intro s2 hs2
    rcases hf.2.2.2.2.1 s2 hs2 with h2 | ⟨i, _, heq, hne⟩
    · exact hstk s2 h2
    · obtain ⟨ts, hts, hmem⟩ := other_tri_member tmtopo _ tcand s2 heq.symm hne
      obtain ⟨k, hklt, hkk, _⟩ := htopo.1 _ ts hts s2 hmem
      exact ⟨k, hklt, hkk⟩
  · -- value range
    intro k hklt
    by_cases hk : (k : Int) = tcand
    · rw [hk, hself]
      exact Or.inr ⟨cp, by rw [hplen]; exact hcp, hcur⟩
    · rw [hAt, grow_patch_at_ne _ _ _ _ hk]
      rcases hpok.2.1 k hklt with hno | ⟨p, hp, hval⟩
      · exact Or.inl hno
      · exact Or.inr ⟨p, by rw [hplen]; exact hp, hval⟩
  · -- per-patch lists
    intro p hp
    have hp2 : p < pinfo.patch.length := by rw [hplen] at hp; exact hp
    have hpe : ((List.range 3).foldl (grow_side tm tmtopo cur tcand)
        (stack, pinfo.grow_patch cur tcand)).2.patch.getD p default
        = (pinfo.grow_patch cur tcand).patch.getD p default := by rw [hGpatch]
    have hcpne : ((cp : Int) : Int) ≠ NO_INDEX := by rw [NO_INDEX]; omega
    by_cases hpc : p = cp
    · subst hpc
      rw [hpe, grow_patch_list_self pinfo cur tcand p hcur hp2]
      have hold := hpok.2.2 p hp2
      have hnotmem : tcand ∉ (pinfo.patch.getD p default).tri := by
        intro hmem
        have := (hold.2 tcand).mp hmem
        rw [hun] at this
        exact absurd this.symm hcpne
      constructor
      · rw [List.nodup_append]
        exact ⟨hold.1, List.nodup_singleton _, by
          intro a ha hb
          rw [List.mem_singleton] at hb
          subst hb
          exact hnotmem ha⟩
      · intro t
        rw [List.mem_append, List.mem_singleton]
        constructor
        · rintro (hmem | rfl)
          · have hval := (hold.2 t).mp hmem
            have hvne : (p : Int) ≠ NO_INDEX := hcpne
            rw [hmono t (p : Int) hvne hval]
          · rw [hself, hcur]
        · intro hval
          by_cases ht : t = tcand
          · exact Or.inr ht
          · left
            rw [hAt, grow_patch_at_ne _ _ _ _ ht] at hval
            exact (hold.2 t).mpr hval
    · have hpcur : (p : Int) ≠ cur := by
        rw [hcur]
        intro hh
        exact hpc (by exact_mod_cast hh)
      rw [hpe, grow_patch_list_ne pinfo cur tcand p hpcur]
      have hold := hpok.2.2 p hp2
      refine ⟨hold.1, ?_⟩
      intro t
      rw [hold.2 t]
      by_cases ht : t = tcand
      · subst ht
        rw [hun, hself]
        constructor
        · intro hh
          exact absurd hh.symm (by rw [NO_INDEX]; omega)
        · intro hh
          exact absurd hh (by rw [hcur]; exact fun hh2 => hpc (by exact_mod_cast hh2.symm))
      · rw [hAt, grow_patch_at_ne _ _ _ _ ht]
  · -- PPSnd
    intro a b ed h
    rcases hf.2.2.2.1 a b ed h with h2 | ⟨i, hi, ts, hts, hnm, hed, t_oth, hmem, hne_cur,
      hne_tc, hass, hab⟩
    · have hbase : pinfo.patch_patch_edge a b = some ed := h2
      obtain ⟨hne, hna, hnb, tsx, htsx, hlenx, ⟨t1, ht1, hp1⟩, ⟨t2, ht2, hp2⟩⟩ :=
        hppok.1 a b ed hbase
      exact ⟨hne, hna, hnb, tsx, htsx, hlenx,
        ⟨t1, ht1, hmono t1 a hna hp1⟩, ⟨t2, ht2, hmono t2 b hnb hp2⟩⟩
    · have hassv : (pinfo.grow_patch cur tcand).tri_patchAt t_oth ≠ NO_INDEX :=
        (tri_is_assigned_true_iff _ _).mp hass
      have hlen2 : ts.length ≠ 2 := other_none_len tm tmtopo htopo _ tcand ts hts hnm
      have htcmem : tcand ∈ ts := by
        obtain ⟨ts2, hts2, hmem2⟩ := htopo.2 kc hkc i (by
          rw [List.mem_range] at hi
          exact hi)
        rw [hsideQ i, hts] at hts2
        rw [Option.some_inj] at hts2
        rw [htc, hts2]
        exact hmem2
      have hsh : SharedNMEdge tmtopo ((List.range 3).foldl (grow_side tm tmtopo cur tcand)
          (stack, pinfo.grow_patch cur tcand)).2 cur
          ((pinfo.grow_patch cur tcand).tri_patchAt t_oth) ed := by
        refine ⟨ts, by rw [hed]; exact hts, hlen2, ⟨tcand, htcmem, hself⟩,
          ⟨t_oth, hmem, ?_⟩⟩
        exact hAt t_oth
      have hvno : (pinfo.grow_patch cur tcand).tri_patchAt t_oth ≠ NO_INDEX := hassv
      rcases hab with hab | hab
      · obtain ⟨rfl, rfl⟩ : cur = a ∧ (pinfo.grow_patch cur tcand).tri_patchAt t_oth = b := by
          rw [Prod.mk.injEq] at hab
          exact ⟨hab.1.symm, hab.2.symm⟩
        exact ⟨fun hh => hne_cur hh.symm, hcurne, hvno, hsh⟩
      · obtain ⟨rfl, rfl⟩ : (pinfo.grow_patch cur tcand).tri_patchAt t_oth = a ∧ cur = b := by
          rw [Prod.mk.injEq] at hab
          exact ⟨hab.1.symm, hab.2.symm⟩
        exact ⟨hne_cur, hvno, hcurne, SharedNMEdge_symm _ _ _ _ _ hsh⟩
  · -- PPComp
    intro e2 ts2 hts2 hlen2 t1 ht1 t2 ht2 ha1 ha2 hne12
    by_cases h1c : t1 = tcand
    · by_cases h2c : t2 = tcand
      · rw [h1c, h2c] at hne12
        exact absurd rfl hne12
      · rw [h1c] at ht1 hne12 ⊢
        obtain ⟨k2, hk2lt, hk2eq, i, hi3, hside2⟩ := htopo.1 e2 ts2 hts2 tcand ht1
        have hkk : k2 = kc := by
          rw [htc] at hk2eq
          exact_mod_cast hk2eq.symm
        subst hkk
        have hnm2 : tmtopo.other_tri_if_manifold e2 tcand = NO_INDEX :=
          other_none_of_len tmtopo e2 tcand ts2 hts2 hlen2
        have hedge : mkEdge ((faceAt tm tcand).vtx i)
            ((faceAt tm tcand).vtx ((i + 1) % 3)) = e2 := by
          rw [← hsideQ i]
          exact hside2
        have hassgp : (pinfo.grow_patch cur tcand).tri_is_assigned t2 = true := by
          rw [tri_is_assigned_true_iff, ← hAt t2]
          exact ha2
        have hnecur : (pinfo.grow_patch cur tcand).tri_patchAt t2 ≠ cur := by
          intro hh
          exact hne12 (hself.trans ((hAt t2).trans hh).symm)
        have hcomp := hf.2.2.2.2.2 i (List.mem_range.mpr hi3)
          (by rw [hedge]; exact hnm2) ts2 (by rw [hedge]; exact hts2)
          t2 ht2 h2c hassgp hnecur
        rw [hself, hAt t2]
        exact hcomp
    · by_cases h2c : t2 = tcand
      · rw [h2c] at ht2 hne12 ⊢
        obtain ⟨k2, hk2lt, hk2eq, i, hi3, hside2⟩ := htopo.1 e2 ts2 hts2 tcand ht2
        have hkk : k2 = kc := by
          rw [htc] at hk2eq
          exact_mod_cast hk2eq.symm
        subst hkk
        have hnm2 : tmtopo.other_tri_if_manifold e2 tcand = NO_INDEX :=
          other_none_of_len tmtopo e2 tcand ts2 hts2 hlen2
        have hedge : mkEdge ((faceAt tm tcand).vtx i)
            ((faceAt tm tcand).vtx ((i + 1) % 3)) = e2 := by
          rw [← hsideQ i]
          exact hside2
        have hassgp : (pinfo.grow_patch cur tcand).tri_is_assigned t1 = true := by
          rw [tri_is_assigned_true_iff, ← hAt t1]
          exact ha1
        have hnecur : (pinfo.grow_patch cur tcand).tri_patchAt t1 ≠ cur := by
          intro hh
          exact hne12 (((hAt t1).trans hh).trans hself.symm)
        have hcomp := hf.2.2.2.2.2 i (List.mem_range.mpr hi3)
          (by rw [hedge]; exact hnm2) ts2 (by rw [hedge]; exact hts2)
          t1 ht1 h1c hassgp hnecur
        rw [hself, hAt t1]
        exact hsymG _ _ hcomp
      · have hv1 : ((List.range 3).foldl (grow_side tm tmtopo cur tcand)
            (stack, pinfo.grow_patch cur tcand)).2.tri_patchAt t1
            = pinfo.tri_patchAt t1 := by
          rw [hAt, grow_patch_at_ne _ _ _ _ h1c]
        have hv2 : ((List.range 3).foldl (grow_side tm tmtopo cur tcand)
            (stack, pinfo.grow_patch cur tcand)).2.tri_patchAt t2
            = pinfo.tri_patchAt t2 := by
          rw [hAt, grow_patch_at_ne _ _ _ _ h2c]
        rw [hv1, hv2]
        rw [hv1, hv2] at hne12
        rw [hv1] at ha1
        rw [hv2] at ha2
        have hcomp := hppok.2.2 e2 ts2 hts2 hlen2 t1 ht1 t2 ht2 ha1 ha2 hne12
        rcases hval : pinfo.patch_patch_edge (pinfo.tri_patchAt t1)
            (pinfo.tri_patchAt t2) with _ | v
        · exact absurd hval hcomp
        · rw [hppres _ _ _ hval]
          simp

lemma find_patches_grow_ok (tm : Mesh) (tmtopo : TriMeshTopology)
    (htopo : topo_tris_ok tm tmtopo) (cur : Int) (cp : Nat) (hcur : cur = (cp : Int)) :
    ∀ (fuel : Nat) (stack : List Int) (pinfo : PatchesInfo),
    cp < pinfo.patch.length →
    StackOK tm.length stack →
    PatchesOK tm.length pinfo →
    PPOK tmtopo pinfo →
    PatchesOK tm.length (find_patches_grow tm tmtopo cur fuel stack pinfo) ∧
    PPOK tmtopo (find_patches_grow tm tmtopo cur fuel stack pinfo) ∧
    (find_patches_grow tm tmtopo cur fuel stack pinfo).patch.length = pinfo.patch.length ∧
    (∀ t v, v ≠ NO_INDEX → pinfo.tri_patchAt t = v →
      (find_patches_grow tm tmtopo cur fuel stack pinfo).tri_patchAt t = v) ∧
    (∀ a b ed, pinfo.patch_patch_edge a b = some ed →
      (find_patches_grow tm tmtopo cur fuel stack pinfo).patch_patch_edge a b = some ed) := by
  intro fuel
  induction fuel with
  | zero =>
    intro stack pinfo _ _ hpok hppok
    exact ⟨hpok, hppok, rfl, fun t v _ h => h, fun a b ed h => h⟩
  | succ fuel ih =>
    intro stack pinfo hcp hstk hpok hppok
    rcases stack with _ | ⟨tcand, rest⟩
    · exact ⟨hpok, hppok, rfl, fun t v _ h => h, fun a b ed h => h⟩
    · simp only [find_patches_grow]
      by_cases hassigned : pinfo.tri_is_assigned tcand = true
      · rw [if_pos hassigned]
        exact ih rest pinfo hcp (fun s hs => hstk s (List.mem_cons_of_mem _ hs)) hpok hppok
      · rw [if_neg hassigned]
        have hun : pinfo.tri_patchAt tcand = NO_INDEX := by
          by_contra hno
          exact hassigned ((tri_is_assigned_true_iff pinfo tcand).mpr hno)
        obtain ⟨kc, hkc, htc⟩ := hstk tcand (List.mem_cons_self _ _)
        have hps := grow_process_step tm tmtopo htopo cur cp hcur rest pinfo hcp
          (fun s hs => hstk s (List.mem_cons_of_mem _ hs)) hpok hppok tcand kc hkc htc hun
        have hih := ih ((List.range 3).foldl (grow_side tm tmtopo cur tcand)
            (rest, pinfo.grow_patch cur tcand)).1
          ((List.range 3).foldl (grow_side tm tmtopo cur tcand)
            (rest, pinfo.grow_patch cur tcand)).2
          (by rw [hps.2.2.2.1]; exact hcp) hps.1 hps.2.1 hps.2.2.1
        refine ⟨hih.1, hih.2.1, hih.2.2.1.trans hps.2.2.2.1, ?_, ?_⟩
        · intro t v hv hval
          exact hih.2.2.2.1 t v hv (hps.2.2.2.2.1 t v hv hval)
        · intro a b ed h
          exact hih.2.2.2.2 a b ed (hps.2.2.2.2.2.1 a b ed h)

lemma find_patches_grow_assigns (tm : Mesh) (tmtopo : TriMeshTopology)
    (htopo : topo_tris_ok tm tmtopo) (cur : Int) (cp : Nat) (hcur : cur = (cp : Int))
    (fuel0 : Nat) (hfuel : fuel0 ≠ 0) (t : Int) (rest : List Int) (pinfo : PatchesInfo)
    (hcp : cp < pinfo.patch.length)
    (hstk : StackOK tm.length (t :: rest))
    (hpok : PatchesOK tm.length pinfo)
    (hppok : PPOK tmtopo pinfo)
    (hun : pinfo.tri_patchAt t = NO_INDEX) :
    (find_patches_grow tm tmtopo cur fuel0 (t :: rest) pinfo).tri_patchAt t = cur := by
  obtain ⟨fuel, rfl⟩ := Nat.exists_eq_succ_of_ne_zero hfuel
  simp only [find_patches_grow]
  have hassigned : ¬ pinfo.tri_is_assigned t = true := by
    rw [tri_is_assigned_true_iff]
    intro hno
    exact hno hun
  rw [if_neg hassigned]
  obtain ⟨kc, hkc, htc⟩ := hstk t (List.mem_cons_self _ _)
  have hps := grow_process_step tm tmtopo htopo cur cp hcur rest pinfo hcp
    (fun s hs => hstk s (List.mem_cons_of_mem _ hs)) hpok hppok t kc hkc htc hun
  have hok := find_patches_grow_ok tm tmtopo htopo cur cp hcur fuel
    ((List.range 3).foldl (grow_side tm tmtopo cur t) (rest, pinfo.grow_patch cur t)).1
    ((List.range 3).foldl (grow_side tm tmtopo cur t) (rest, pinfo.grow_patch cur t)).2
    (by rw [hps.2.2.2.1]; exact hcp) hps.1 hps.2.1 hps.2.2.1
  have hcurne : cur ≠ NO_INDEX := by
    rw [hcur, NO_INDEX]
    omega
  exact hok.2.2.2.1 t cur hcurne hps.2.2.2.2.2.2

lemma tri_patchAt_ne_of_ge (ntri : Nat) (pinfo : PatchesInfo) (hpok : PatchesOK ntri pinfo)
    (m : Nat) (hm : pinfo.patch.length ≤ m) : ∀ t : Int, pinfo.tri_patchAt t ≠ (m : Int) := by
  intro t
  rw [PatchesInfo.tri_patchAt, listGetI]
  by_cases h0 : 0 ≤ t
  · rw [if_pos h0]
    by_cases hlt : t.toNat < pinfo.tri_patch.length
    · have heq : pinfo.tri_patch.getD t.toNat NO_INDEX =
          pinfo.tri_patchAt ((t.toNat : Nat) : Int) := by
        rw [PatchesInfo.tri_patchAt, listGetI_natCast]
      rw [heq]
      rcases hpok.2.1 t.toNat (by rw [← hpok.1]; exact hlt) with hno | ⟨p, hp, hv⟩
      · rw [hno, NO_INDEX]
        intro hh
        omega
      · rw [hv]
        intro hh
        have : p = m := by exact_mod_cast hh
        omega
    · rw [List.getD_eq_default _ _ (by omega), NO_INDEX]
      intro hh
      omega
  · rw [if_neg h0, NO_INDEX]
    intro hh
    omega

lemma add_patch_patchesok (ntri : Nat) (pinfo : PatchesInfo) (hpok : PatchesOK ntri pinfo) :
    PatchesOK ntri (pinfo.add_patch).1 := by
  have hAt : ∀ t, (pinfo.add_patch).1.tri_patchAt t = pinfo.tri_patchAt t := fun t => rfl
  have hlen : (pinfo.add_patch).1.patch.length = pinfo.patch.length + 1 := by
    show (pinfo.patch ++ [default]).length = pinfo.patch.length + 1
    rw [List.length_append, List.length_cons, List.length_nil]
  refine ⟨hpok.1, ?_, ?_⟩
  · intro k hk
    rcases hpok.2.1 k hk with hno | ⟨p, hp, hv⟩
    · exact Or.inl ((hAt _).trans hno)
    · exact Or.inr ⟨p, by rw [hlen]; omega, (hAt _).trans hv⟩
  · intro p hp
    rw [hlen] at hp
    by_cases hpl : p < pinfo.patch.length
    · have hentry : (pinfo.add_patch).1.patch.getD p default = pinfo.patch.getD p default := by
        show (pinfo.patch ++ [default]).getD p default = _
        exact List.getD_append _ _ _ _ hpl
      rw [hentry]
      have hold := hpok.2.2 p hpl
      refine ⟨hold.1, ?_⟩
      intro t
      rw [hAt t]
      exact hold.2 t
    · have hpeq : p = pinfo.patch.length := by omega
      subst hpeq
      have hentry : (pinfo.add_patch).1.patch.getD pinfo.patch.length default
          = (default : Patch) := by
        show (pinfo.patch ++ [default]).getD pinfo.patch.length default = _
        rw [List.getD_eq_getElem _ _ (by rw [List.length_append]; simp),
          List.getElem_append_right (le_refl _)]
        simp
      rw [hentry]
      refine ⟨List.nodup_nil, ?_⟩
      intro t
      rw [hAt t]
      constructor
      · intro hh
        exact absurd hh (List.not_mem_nil t)
      · intro hh
        exact absurd hh (tri_patchAt_ne_of_ge ntri pinfo hpok pinfo.patch.length (le_refl _) t)

lemma add_patch_ppok (tmtopo : TriMeshTopology) (pinfo : PatchesInfo)
    (hppok : PPOK tmtopo pinfo) : PPOK tmtopo (pinfo.add_patch).1 := by
  have hAt : (pinfo.add_patch).1.tri_patch = pinfo.tri_patch := rfl
  have hpp : ∀ a b, (pinfo.add_patch).1.patch_patch_edge a b = pinfo.patch_patch_edge a b :=
    fun a b => rfl
  refine ⟨?_, ?_, ?_⟩
  · intro p q e h
    rw [hpp] at h
    obtain ⟨h1, h2, h3, h4⟩ := hppok.1 p q e h
    exact ⟨h1, h2, h3, SharedNMEdge_congr tmtopo pinfo _ hAt.symm p q e h4⟩
  · intro p q h
    rw [hpp] at h ⊢
    exact hppok.2.1 p q h
  · intro e ts hts hlen t1 ht1 t2 ht2 ha1 ha2 hne
    rw [tri_patchAt_congr _ _ hAt] at ha1 ha2 hne ⊢
    rw [tri_patchAt_congr _ _ hAt, hpp]
    exact hppok.2.2 e ts hts hlen t1 ht1 t2 ht2 ha1 ha2 hne

lemma find_patches_fold_ok (tm : Mesh) (tmtopo : TriMeshTopology)
    (htopo : topo_tris_ok tm tmtopo) :
    ∀ (l : List Nat) (pinfo : PatchesInfo),
    (∀ j ∈ l, j < tm.length) →
    PatchesOK tm.length pinfo → PPOK tmtopo pinfo →
    PatchesOK tm.length (l.foldl (fun pinfo (t : Nat) =>
      if pinfo.tri_patchAt (t : Int) = NO_INDEX then
        find_patches_grow tm tmtopo (pinfo.add_patch).2 (1 + 3 * tm.length) [(t : Int)]
          (pinfo.add_patch).1
      else pinfo) pinfo) ∧
    PPOK tmtopo (l.foldl (fun pinfo (t : Nat) =>
      if pinfo.tri_patchAt (t : Int) = NO_INDEX then
        find_patches_grow tm tmtopo (pinfo.add_patch).2 (1 + 3 * tm.length) [(t : Int)]
          (pinfo.add_patch).1
      else pinfo) pinfo) ∧
    (∀ t v, v ≠ NO_INDEX → pinfo.tri_patchAt t = v →
      (l.foldl (fun pinfo (t : Nat) =>
        if pinfo.tri_patchAt (t : Int) = NO_INDEX then
          find_patches_grow tm tmtopo (pinfo.add_patch).2 (1 + 3 * tm.length) [(t : Int)]
            (pinfo.add_patch).1
        else pinfo) pinfo).tri_patchAt t = v) ∧
    (∀ j ∈ l, (l.foldl (fun pinfo (t : Nat) =>
      if pinfo.tri_patchAt (t : Int) = NO_INDEX then
        find_patches_grow tm tmtopo (pinfo.add_patch).2 (1 + 3 * tm.length) [(t : Int)]
          (pinfo.add_patch).1
      else pinfo) pinfo).tri_patchAt (j : Int) ≠ NO_INDEX) := by
  intro l
  induction l with
  | nil =>
    intro pinfo _ hpok hppok
    exact ⟨hpok, hppok, fun t v _ h => h, fun j hj => absurd hj (by simp)⟩
  | cons j l ih =>
    intro pinfo hbound hpok hppok
    have hjlt : j < tm.length := hbound j (List.mem_cons_self _ _)
    have hbound2 : ∀ i ∈ l, i < tm.length := fun i hi => hbound i (List.mem_cons_of_mem _ hi)
    simp only [List.foldl_cons]
    by_cases hj : pinfo.tri_patchAt (j : Int) = NO_INDEX
    · rw [if_pos hj]
      have hadd_ok := add_patch_patchesok tm.length pinfo hpok
      have hadd_pp := add_patch_ppok tmtopo pinfo hppok
      have hcp : pinfo.patch.length < (pinfo.add_patch).1.patch.length := by
        show pinfo.patch.length < (pinfo.patch ++ [default]).length
        rw [List.length_append]
        simp
      have hstack : StackOK tm.length [(j : Int)] := by
        intro s hs
        rw [List.mem_singleton] at hs
        exact ⟨j, hjlt, hs⟩
      have hgrow := find_patches_grow_ok tm tmtopo htopo (pinfo.add_patch).2
        pinfo.patch.length rfl (1 + 3 * tm.length) [(j : Int)] (pinfo.add_patch).1
        hcp hstack hadd_ok hadd_pp
      have hassign := find_patches_grow_assigns tm tmtopo htopo (pinfo.add_patch).2
        pinfo.patch.length rfl (1 + 3 * tm.length) (by omega) (j : Int) []
        (pinfo.add_patch).1 hcp hstack hadd_ok hadd_pp hj
      have hih := ih (find_patches_grow tm tmtopo (pinfo.add_patch).2 (1 + 3 * tm.length)
        [(j : Int)] (pinfo.add_patch).1) hbound2 hgrow.1 hgrow.2.1
      refine ⟨hih.1, hih.2.1, ?_, ?_⟩
      · intro t v hv hval
        exact hih.2.2.1 t v hv (hgrow.2.2.2.1 t v hv hval)
      · intro j2 hj2
        rcases List.mem_cons.mp hj2 with rfl | hj2
        · have hne : ((pinfo.patch.length : Nat) : Int) ≠ NO_INDEX := by
            rw [NO_INDEX]
            omega
          have := hih.2.2.1 (j2 : Int) ((pinfo.patch.length : Nat) : Int) hne hassign
          rw [this]
          exact hne
        · exact hih.2.2.2 j2 hj2
    · rw [if_neg hj]
      have hih := ih pinfo hbound2 hpok hppok
      refine ⟨hih.1, hih.2.1, hih.2.2.1, ?_⟩
      intro j2 hj2
      rcases List.mem_cons.mp hj2 with rfl | hj2
      · have := hih.2.2.1 (j2 : Int) (pinfo.tri_patchAt (j2 : Int)) hj rfl
        rw [this]
        exact hj
      · exact hih.2.2.2 j2 hj2

lemma init_patches_ok (tm : Mesh) :
    PatchesOK tm.length (⟨[], List.replicate tm.length NO_INDEX, []⟩ : PatchesInfo) := by
  refine ⟨List.length_replicate _ _, ?_, ?_⟩
  · intro k hk
    left
    show listGetI (List.replicate tm.length NO_INDEX) ((k : Nat) : Int) NO_INDEX = NO_INDEX
    rw [listGetI_natCast]
    exact getD_replicate _ _ _
  · intro p hp
    simp at hp

lemma init_tri_patchAt (tm : Mesh) (t : Int) :
    (⟨[], List.replicate tm.length NO_INDEX, []⟩ : PatchesInfo).tri_patchAt t = NO_INDEX := by
  rw [PatchesInfo.tri_patchAt, listGetI]
  by_cases h0 : 0 ≤ t
  · rw [if_pos h0]
    exact getD_replicate _ _ _
  · rw [if_neg h0]

lemma init_ppok (tm : Mesh) (tmtopo : TriMeshTopology) :
    PPOK tmtopo (⟨[], List.replicate tm.length NO_INDEX, []⟩ : PatchesInfo) := by
  have hpp : ∀ a b, (⟨[], List.replicate tm.length NO_INDEX, []⟩ :
      PatchesInfo).patch_patch_edge a b = none := fun a b => rfl
  refine ⟨?_, ?_, ?_⟩
  · intro p q e h
    rw [hpp] at h
    simp at h
  · intro p q h
    rw [hpp] at h ⊢
    exact h
  · intro e ts _ _ t1 _ _ _ ha1 _ _
    exact absurd (init_tri_patchAt tm t1) ha1

/-- C6: after find_patches, the triangle-to-patch map is total on the
mesh (every triangle is assigned to exactly one existing patch, and each
patch's triangle list holds exactly the triangles assigned to it, once),
and pp_edge(p, q) holds a representative edge iff p and q are distinct
patches sharing at least one non-manifold edge. -/
theorem find_patches_correct (tm : Mesh) :
    PatchesOK tm.length (find_patches tm (trimesh_topology tm)) ∧
    (∀ k : Nat, k < tm.length →
      (find_patches tm (trimesh_topology tm)).tri_patchAt (k : Int) ≠ NO_INDEX) ∧
    (∀ p q : Int, ∀ e, (find_patches tm (trimesh_topology tm)).patch_patch_edge p q = some e →
      p ≠ q ∧ SharedNMEdge (trimesh_topology tm) (find_patches tm (trimesh_topology tm)) p q e) ∧
    (∀ p q : Int, p ≠ q →
      (∃ e, SharedNMEdge (trimesh_topology tm) (find_patches tm (trimesh_topology tm)) p q e) →
      ∃ e2, (find_patches tm (trimesh_topology tm)).patch_patch_edge p q = some e2) := by
  have htopo := trimesh_topology_ok tm
  have hfp : find_patches tm (trimesh_topology tm) =
      (List.range tm.length).foldl (fun pinfo (t : Nat) =>
        if pinfo.tri_patchAt (t : Int) = NO_INDEX then
          find_patches_grow tm (trimesh_topology tm) (pinfo.add_patch).2 (1 + 3 * tm.length)
            [(t : Int)] (pinfo.add_patch).1
        else pinfo) ⟨[], List.replicate tm.length NO_INDEX, []⟩ := by
    rw [find_patches]
  have hfold := find_patches_fold_ok tm (trimesh_topology tm) htopo (List.range tm.length)
    ⟨[], List.replicate tm.length NO_INDEX, []⟩
    (fun j hj => List.mem_range.mp hj) (init_patches_ok tm) (init_ppok tm (trimesh_topology tm))
  rw [← hfp] at hfold
  refine ⟨hfold.1, ?_, ?_, ?_⟩
  · intro k hk
    exact hfold.2.2.2 k (List.mem_range.mpr hk)
  · intro p q e h
    exact ⟨(hfold.2.1.1 p q e h).1, (hfold.2.1.1 p q e h).2.2.2⟩
  · intro p q hpq ⟨e, ts, hts, hlen, ⟨t1, ht1, hp1⟩, ⟨t2, ht2, hp2⟩⟩
    have ha1 : (find_patches tm (trimesh_topology tm)).tri_patchAt t1 ≠ NO_INDEX := by
      obtain ⟨k1, hk1, hkeq, _⟩ := htopo.1 e ts hts t1 ht1
      rw [hkeq]
      exact hfold.2.2.2 k1 (List.mem_range.mpr hk1)
    have ha2 : (find_patches tm (trimesh_topology tm)).tri_patchAt t2 ≠ NO_INDEX := by
      obtain ⟨k2, hk2, hkeq, _⟩ := htopo.1 e ts hts t2 ht2
      rw [hkeq]
      exact hfold.2.2.2 k2 (List.mem_range.mpr hk2)
    have hne : (find_patches tm (trimesh_topology tm)).tri_patchAt t1 ≠
        (find_patches tm (trimesh_topology tm)).tri_patchAt t2 := by
      rw [hp1, hp2]
      exact hpq
    have hcomp := hfold.2.1.2.2 e ts hts hlen t1 ht1 t2 ht2 ha1 ha2 hne
    rw [hp1, hp2] at hcomp
    rcases hval : (find_patches tm (trimesh_topology tm)).patch_patch_edge p q with _ | v
    · exact absurd hval hcomp
    · exact ⟨v, rfl⟩

theorem find_patches_correct_witness :
    ((find_patches tmC6 (trimesh_topology tmC6)).tri_patchAt ((0 : Nat) : Int) ≠ NO_INDEX) ∧
    (∃ e2, (find_patches tmC6 (trimesh_topology tmC6)).patch_patch_edge 0 1 = some e2) :=
  ⟨(find_patches_correct tmC6).2.1 0 (by decide),
   (find_patches_correct tmC6).2.2.2 0 1 (by decide)
     ⟨mkEdge vC6A vC6B, [0, 1, 2], by decide, by decide,
      ⟨0, by decide, by decide⟩, ⟨1, by decide, by decide⟩⟩⟩

end BoolCore
